import Mathlib

/-!
# Digital Financial Literacy Agent: quiz scoring and quiz generation

A shallow embedding of the scoring loop of `POST /api/submit`
(`src/backend/index.js`), of the quiz-generation handler
`POST /api/generate-questions`, of the relevance ranking `retrieveRelevantDocs`
and of the chat handler `POST /api/ask` (`src/backend/rag.js`), with the fragment
of the JavaScript runtime the handlers rely on.

Conventions of the embedding.
* A JavaScript value that came out of `JSON.parse` (a request body, a store
  document, the model's reply) is a `JVal`.  Numbers are integers: the
  embedding is exact for numbers that are integers of magnitude below 2^53;
  a larger integer stands for the double nearest to it when it is converted to
  text, and fractional numbers are outside its domain.
* A JavaScript string is a Lean `String`; the string operations work on its
  list of characters (its code points).  Lower-casing is the Unicode default
  case conversion, with the tables of Unicode 14.0.
* An exception that reaches a handler's outer `catch` is the response with
  status 500.
-/

namespace FinLit

/-! ## Numbers and their text

A number of the program is a double.  The embedding keeps the integers among
the doubles, as `Int`.  `Number::toString`, which a template literal applies to a
number, prints the shortest decimal digits that read back as the same double:
plain decimal below 10^21, exponent form from 10^21 on. -/

/-- Number of binary digits of `n` (0 for 0). -/
def bitLengthAux : Nat → Nat → Nat
  | 0, _ => 0
  | fuel + 1, n => if n = 0 then 0 else bitLengthAux fuel (n / 2) + 1

/-- Number of binary digits of `n`. -/
def bitLength (n : Nat) : Nat := bitLengthAux n n

/-- The integer nearest to `num / den`, ties to the even one. -/
def roundHalfEven (num den : Nat) : Nat :=
  let q := num / den
  let r := num % den
  if 2 * r < den then q
  else if den < 2 * r then q + 1
  else if q % 2 = 0 then q else q + 1

/-- The double nearest to the natural number `m` (ties to the even mantissa of 53
bits); it is `m` itself below 2^53, and a result of more than 1024 binary digits
stands for `Infinity`. -/
def roundToDouble (m : Nat) : Nat :=
  let shift := bitLength m - 53
  roundHalfEven m (2 ^ shift) * 2 ^ shift

/-- The decimal numbers `Number::toString` tries for the double `x`, in its order
of preference: for `k` = 1, ..., 17 digits the two numbers of `k` digits (followed
by zeros) around `x`, the one closer to `x` first and on a tie the one with the
even last digit first. -/
def shortestCandidates (x : Nat) : List Nat :=
  let n := (Nat.toDigits 10 x).length
  (List.range 17).flatMap (fun i =>
    let p := 10 ^ (n - (i + 1))
    let s := x / p
    let below := s * p
    let above := (s + 1) * p
    if x - below < above - x then [below, above]
    else if above - x < x - below then [above, below]
    else if s % 2 = 0 then [below, above]
    else [above, below])

/-- The number whose digits `Number::toString` prints for the double `x`: the
first candidate that reads back as `x`. -/
def shortestDecimal (x : Nat) : Nat :=
  ((shortestCandidates x).find? (fun v => roundToDouble v == x)).getD x

/-- The exponent form `d.ddde+n` of a number from 10^21 on (`de+n` for a single
digit). -/
def exponentForm (v : Nat) : String :=
  let digits := Nat.toDigits 10 v
  let exponent := toString (digits.length - 1)
  match (digits.reverse.dropWhile (fun c => c == '0')).reverse with
  | [] => "0"
  | [d] => String.mk [d] ++ "e+" ++ exponent
  | d :: rest => String.mk (d :: '.' :: rest) ++ "e+" ++ exponent

/-- The text `Number::toString` gives a non-negative double that is an integer. -/
def naturalToString (x : Nat) : String :=
  let v := shortestDecimal x
  if v < 10 ^ 21 then toString v else exponentForm v

/-- The text `Number::toString` gives an integer-valued number (a value that is
not a double is read as the nearest double first). -/
def numberToString (n : Int) : String :=
  let x := roundToDouble n.natAbs
  let text := if bitLength x ≤ 1024 then naturalToString x else "Infinity"
  if n < 0 then "-" ++ text else text

/-! ## JavaScript values -/

/-- A JavaScript value as produced by `JSON.parse`, plus `undefined` (the value
of a missing property). -/
inductive JVal where
  | undefined
  | null
  | bool (b : Bool)
  | num (n : Int)
  | str (s : String)
  | arr (items : List JVal)
  | obj (fields : List (String × JVal))

namespace JVal

/-- ToBoolean: `undefined`, `null`, `false`, `0` and the empty string are falsy,
everything else (arrays and objects included) is truthy. -/
def truthy : JVal → Bool
  | undefined => false
  | null => false
  | bool b => b
  | num n => n != 0
  | str s => s != ""
  | arr _ => true
  | obj _ => true

/-- The operator `a || b`. -/
def or (a b : JVal) : JVal := if a.truthy then a else b

/-- The operator `a === b` between two values that were parsed separately:
primitives are compared by type and value; an array or object is a fresh
reference on each side, so it is never strictly equal to the other side. -/
def strictEq : JVal → JVal → Bool
  | undefined, undefined => true
  | null, null => true
  | bool a, bool b => a == b
  | num a, num b => a == b
  | str a, str b => a == b
  | _, _ => false

/-- True for `undefined` and `null`, the two values on which a property access
throws a TypeError and on which `?.` short-circuits. -/
def nullish : JVal → Bool
  | undefined => true
  | null => true
  | _ => false

/-- Own property of an object value; `undefined` when the key is missing. -/
def field (fields : List (String × JVal)) (key : String) : JVal :=
  match fields.lookup key with
  | some v => v
  | none => undefined

/-- Property access `v.key` for a key that no built-in prototype defines (all the
keys the handlers read: `answer`, `question`, `options`, `correctAnswer`,
`explanation`, `choices`, `message`, `content`, `predictions`, `text`):
`none` is the TypeError thrown on `undefined` and `null`. -/
def member (v : JVal) (key : String) : Option JVal :=
  match v with
  | undefined => none
  | null => none
  | obj fields => some (field fields key)
  | _ => some undefined

/-- Element access `v[0]` on a value that is not nullish. -/
def index0 : JVal → JVal
  | arr (x :: _) => x
  | obj fields => field fields "0"
  | str s =>
    match s.data with
    | c :: _ => str (String.singleton c)
    | [] => undefined
  | _ => undefined

/-- Optional member access `v?.key`. -/
def optMember (v : JVal) (key : String) : JVal :=
  match v with
  | obj fields => field fields key
  | _ => undefined

/-- Optional element access `v?.[0]`. -/
def optIndex0 (v : JVal) : JVal := if v.nullish then undefined else v.index0

mutual
/-- ToString, as a template literal applies it: `none` is the TypeError thrown
for an object whose own `toString` property shadows the built-in one (a parsed
value is never callable). -/
def toStr : JVal → Option String
  | undefined => some "undefined"
  | null => some "null"
  | bool b => some (if b then "true" else "false")
  | num n => some (numberToString n)
  | str s => some s
  | arr items => joinItems items
  | obj fields => if fields.any (fun kv => kv.1 == "toString") then none else some "[object Object]"
termination_by structural v => v
/-- The method `Array.prototype.join` with the default separator: `undefined`
and `null` elements contribute the empty string. -/
def joinItems : List JVal → Option String
  | [] => some ""
  | x :: rest =>
    match (match x with
      | undefined => some ""
      | null => some ""
      | v => toStr v), joinItems rest with
    | some a, some b => some (if rest.isEmpty then a else a ++ "," ++ b)
    | _, _ => none
termination_by structural items => items
end

end JVal

/-! ## String helpers of the runtime -/

/-- The method `s.startsWith(p)`. -/
def startsWith (s p : String) : Bool := p.data.isPrefixOf s.data

/-- The method `s.split(sep)` for a one-character separator, on character lists:
the pieces between the separators, in order (never an empty list of pieces). -/
def splitOn (sep : Char) : List Char → List (List Char)
  | [] => [[]]
  | c :: cs =>
    if c = sep then [] :: splitOn sep cs
    else
      match splitOn sep cs with
      | [] => [[c]]
      | p :: ps => (c :: p) :: ps

/-- The characters `parseInt` skips at the start of its argument (white space and
line terminators). -/
def isStrWhiteSpace (c : Char) : Bool :=
  let n := c.toNat
  n == 9 || n == 10 || n == 11 || n == 12 || n == 13 || n == 32 || n == 160 ||
  n == 5760 || (8192 ≤ n && n ≤ 8202) || n == 8232 || n == 8233 || n == 8239 ||
  n == 8287 || n == 12288 || n == 65279

/-- Value of a character as a digit in the given radix, if it is one. -/
def radixDigit (radix : Nat) (c : Char) : Option Nat :=
  let n := c.toNat
  let v : Option Nat :=
    if 48 ≤ n ∧ n ≤ 57 then some (n - 48)
    else if 97 ≤ n ∧ n ≤ 122 then some (n - 87)
    else if 65 ≤ n ∧ n ≤ 90 then some (n - 55)
    else none
  v.filter (fun d => d < radix)

/-- The values of the longest run of radix digits at the start of the text. -/
def leadingDigits (radix : Nat) : List Char → List Nat
  | [] => []
  | c :: cs =>
    match radixDigit radix c with
    | some d => d :: leadingDigits radix cs
    | none => []

/-- The global `parseInt(s)` with no radix argument: leading white space is
skipped, an optional sign is read, a `0x`/`0X` marker selects radix 16, and the
longest run of digits is converted; `none` is NaN (no digit found).  The value is
the exact integer of the digits: it is the JavaScript result for every run of
digits of value below 2^53 (beyond, JavaScript rounds it to a double). -/
def parseInt (s : List Char) : Option Int :=
  let s1 := s.dropWhile isStrWhiteSpace
  let signed : Bool × List Char :=
    match s1 with
    | '-' :: r => (true, r)
    | '+' :: r => (false, r)
    | _ => (false, s1)
  let based : Nat × List Char :=
    match signed.2 with
    | '0' :: 'x' :: r => (16, r)
    | '0' :: 'X' :: r => (16, r)
    | _ => (10, signed.2)
  let ds := leadingDigits based.1 based.2
  if ds.isEmpty then none
  else
    let m : Nat := ds.foldl (fun acc d => acc * based.1 + d) 0
    some (if signed.1 then -(m : Int) else (m : Int))

/-! ## Scoring engine (`POST /api/submit`, `src/backend/index.js`) -/

/-- The marker `'ai-generated-'` that starts the identifier of a generated item. -/
def generatedTag : String := "ai-generated-"

/-- The correct index recovered from a generated identifier:
`parseInt(parts[parts.length - 1]) || 0` with `parts = questionId.split('-')`. -/
def decodeAnswer (questionId : String) : Int :=
  let parts := splitOn '-' questionId.data
  match parseInt (parts.getLastD []) with
  | some n => n
  | none => 0

/-- The identifier given to a generated item:
`ai-generated-<timestamp>-<index>-<answer>`, the three parts already
converted to text. -/
def encodeId (timestamp index : Nat) (answer : String) : String :=
  generatedTag ++ toString timestamp ++ "-" ++ toString index ++ "-" ++ answer

/-- What the store answers to `GET /questions/<id>`: a document, a non-success
status, or a failure of the request itself (the `fetch` rejects, or the body is
not JSON). -/
inductive Fetched where
  | ok (doc : JVal)
  | notOk
  | failed

/-- One entry of `results`. -/
structure ResultEntry where
  questionId : String
  userAnswer : JVal
  correctAnswer : JVal
  isCorrect : Bool

/-- The loop variables `score` and `results`. -/
structure ScoreState where
  score : Nat
  results : List ResultEntry

/-- One iteration of the scoring loop over `Object.entries(answers)`; `none` is an
exception (it leaves the loop for the handler's `catch`). -/
def scoreStep (fetchQuestion : String → Fetched) (st : ScoreState)
    (entry : String × JVal) : Option ScoreState :=
  let questionId := entry.1
  let userAnswer := entry.2
  if startsWith questionId generatedTag then
    let correctAnswer := JVal.num (decodeAnswer questionId)
    let isCorrect := userAnswer.strictEq correctAnswer
    some
      { score := if isCorrect then st.score + 1 else st.score
        results := st.results ++ [⟨questionId, userAnswer, correctAnswer, isCorrect⟩] }
  else
    match fetchQuestion questionId with
    | Fetched.failed => none
    | Fetched.notOk => some st
    | Fetched.ok question =>
      match question.member "answer" with
      | none => none
      | some answer =>
        let isCorrect := userAnswer.strictEq answer
        some
          { score := if isCorrect then st.score + 1 else st.score
            results := st.results ++ [⟨questionId, userAnswer, answer, isCorrect⟩] }

/-- The scoring loop: the entries are visited in order, an exception stops it. -/
def scoreLoop (fetchQuestion : String → Fetched) :
    ScoreState → List (String × JVal) → Option ScoreState
  | st, [] => some st
  | st, entry :: rest =>
    match scoreStep fetchQuestion st entry with
    | none => none
    | some st1 => scoreLoop fetchQuestion st1 rest

/-- An entry of the submission is resolvable when its identifier carries the
generated marker or the store answers the lookup with a document. -/
def resolvable (fetchQuestion : String → Fetched) (entry : String × JVal) : Bool :=
  startsWith entry.1 generatedTag ||
    match fetchQuestion entry.1 with
    | Fetched.ok _ => true
    | _ => false

/-- What the scoring loop promises about one entry `r` of `results`, for the
submitted entry it was made from: it repeats the entry's identifier and answer,
its correct answer is the index decoded from the identifier (generated item) or
the stored `answer` of the document (curated item), and `isCorrect` is the
strict equality of the two. -/
def ScoredFrom (fetchQuestion : String → Fetched) (entry : String × JVal)
    (r : ResultEntry) : Prop :=
  r.questionId = entry.1 ∧ r.userAnswer = entry.2 ∧
    r.isCorrect = r.userAnswer.strictEq r.correctAnswer ∧
    (if startsWith r.questionId generatedTag then
        r.correctAnswer = JVal.num (decodeAnswer r.questionId)
      else
        ∃ doc, fetchQuestion r.questionId = Fetched.ok doc ∧
          doc.member "answer" = some r.correctAnswer)

/-! ### The percentage: `Math.round((score / totalQuestions) * 100)`

The quotient and the product are double-precision operations, each rounded to
the nearest double (ties to even).  A non-negative double is kept as
`mant * 2 ^ up / 2 ^ down`.  The exponent range is not bounded: no overflow or
underflow arises for the operands of the handler (counts of entries). -/

/-- A non-negative double-precision number, `mant * 2 ^ up / 2 ^ down`. -/
structure Dbl where
  mant : Nat
  up : Nat
  down : Nat

/-- The double nearest to `num / den` (`den` positive): the quotient is scaled
into `[2^52, 2^53)` and rounded to an integer mantissa of 53 bits. -/
def nearestDouble (num den : Nat) : Dbl :=
  if num = 0 then ⟨0, 0, 0⟩
  else
    let a := (52 + bitLength den) - bitLength num
    let b := bitLength num - (52 + bitLength den)
    let n0 := num * 2 ^ a
    let d0 := den * 2 ^ b
    if d0 * 2 ^ 52 ≤ n0 then ⟨roundHalfEven n0 d0, b, a⟩
    else ⟨roundHalfEven (2 * n0) d0, b, a + 1⟩

/-- Double-precision product of a double and a natural number. -/
def Dbl.mulNat (d : Dbl) (k : Nat) : Dbl :=
  nearestDouble (d.mant * k * 2 ^ d.up) (2 ^ d.down)

/-- The function `Math.round` on a non-negative double: the integer nearest to it,
a half rounded up, that is `floor(x + 1/2)`. -/
def Dbl.round (d : Dbl) : Nat :=
  (2 * (d.mant * 2 ^ d.up) + 2 ^ d.down) / (2 * 2 ^ d.down)

/-- The rational number a double stands for. -/
def Dbl.toRat (d : Dbl) : ℚ := (d.mant : ℚ) * 2 ^ d.up / 2 ^ d.down

/-- The response field `percentage`; `none` is NaN (0 / 0), which the JSON body
carries as `null`. -/
def percentage (score totalQuestions : Nat) : Option Nat :=
  if totalQuestions = 0 then none
  else some ((nearestDouble score totalQuestions).mulNat 100).round

/-- The rational `score / total * 100` rounded to the nearest integer, a half
rounded up, in exact arithmetic: `floor((200 * score + total) / (2 * total))`. -/
def exactPercentage (score total : Nat) : Nat := (200 * score + total) / (2 * total)

/-! ### The handler -/

/-- Outcome of the `POST` that stores the progress document: success, a
non-success status, or an exception (the `fetch` rejects, or the reply cannot be
read). -/
inductive SaveOutcome where
  | saved
  | rejected
  | failed

/-- The external services as the submit handler sees them. -/
structure SubmitEnv where
  headersOk : Bool
  fetchQuestion : String → Fetched
  save : SaveOutcome

/-- The request body of `POST /api/submit`: `answers` as its `Object.entries`
(`none` when the field is missing), `category` as a string (`none` when missing). -/
structure SubmitRequest where
  answers : Option (List (String × JVal))
  category : Option String

/-- The response of `POST /api/submit`. -/
inductive SubmitResponse where
  | badRequest
  | serverError
  | ok (score totalQuestions : Nat) (percentage : Option Nat) (results : List ResultEntry)

/-- The handler of `POST /api/submit` after authentication. -/
def submit (env : SubmitEnv) (req : SubmitRequest) : SubmitResponse :=
  match req.answers, req.category with
  | none, _ => SubmitResponse.badRequest
  | some _, none => SubmitResponse.badRequest
  | some answers, some category =>
    if category = "" then SubmitResponse.badRequest
    else
      let totalQuestions := answers.length
      if env.headersOk then
        match scoreLoop env.fetchQuestion ⟨0, []⟩ answers with
        | none => SubmitResponse.serverError
        | some st =>
          match env.save with
          | SaveOutcome.failed => SubmitResponse.serverError
          | _ =>
            SubmitResponse.ok st.score totalQuestions
              (percentage st.score totalQuestions) st.results
      else SubmitResponse.serverError

/-! ## Quiz generation (`POST /api/generate-questions`, `src/backend/rag.js`) -/

/-- One pre-written question of the fallback bank: the object literal with the
properties `question`, `options`, `correctAnswer`, `explanation`. -/
def bankItem (question : String) (options : List String) (correctAnswer : Int)
    (explanation : String) : JVal :=
  JVal.obj
    [("question", JVal.str question),
     ("options", JVal.arr (options.map JVal.str)),
     ("correctAnswer", JVal.num correctAnswer),
     ("explanation", JVal.str explanation)]

/-- The fallback bank of the category `UPI Safety`. -/
def upiSafetyBank : List JVal :=
  [bankItem "What should you do before making a UPI payment?"
      ["Share your UPI PIN with the sender",
       "Verify the recipient's name and UPI ID",
       "Use any public WiFi network",
       "Ignore transaction notifications"]
      1
      "Always verify the recipient's details before making any UPI payment to avoid sending money to the wrong person.",
   bankItem "Which of the following is the safest way to use UPI?"
      ["Share your UPI ID on social media",
       "Use UPI only on trusted apps",
       "Use the same PIN for all accounts",
       "Ignore security updates"]
      1
      "Using UPI only on trusted, official banking apps ensures your transactions are secure.",
   bankItem "What should you do if you receive a UPI payment request from an unknown number?"
      ["Accept it immediately",
       "Ignore and block the number",
       "Call the number to verify",
       "Share your UPI ID with them"]
      1
      "Never accept payment requests from unknown sources as they could be scams.",
   bankItem "Which of these is NOT a safe UPI practice?"
      ["Using a strong, unique PIN",
       "Keeping your UPI ID private",
       "Sharing your UPI PIN with family members",
       "Using official banking apps only"]
      2
      "Never share your UPI PIN with anyone, including family members, for security reasons.",
   bankItem "What should you do if you suspect a fraudulent UPI transaction?"
      ["Wait and see if it resolves itself",
       "Contact your bank immediately",
       "Share details on social media",
       "Ignore it completely"]
      1
      "Immediately contact your bank if you suspect fraud to minimize losses and protect your account."]

/-- The fallback bank of the category `Budgeting`. -/
def budgetingBank : List JVal :=
  [bankItem "What is the 50/30/20 budgeting rule?"
      ["50% needs, 30% wants, 20% savings",
       "50% savings, 30% needs, 20% wants",
       "50% wants, 30% savings, 20% needs",
       "50% entertainment, 30% food, 20% bills"]
      0
      "The 50/30/20 rule suggests allocating 50% to needs, 30% to wants, and 20% to savings and debt repayment.",
   bankItem "What is the first step in creating a budget?"
      ["Set financial goals",
       "Track your income and expenses",
       "Cut all unnecessary spending",
       "Open a savings account"]
      1
      "You need to understand your current financial situation before creating an effective budget.",
   bankItem "Which expense category should you prioritize in your budget?"
      ["Entertainment and dining out",
       "Essential needs like food and shelter",
       "Shopping and luxury items",
       "Vacation planning"]
      1
      "Essential needs like food, shelter, and utilities should always be prioritized in your budget.",
   bankItem "What percentage of your income should you aim to save?"
      ["At least 5-10%",
       "At least 20%",
       "At least 50%",
       "Whatever is left after spending"]
      1
      "Aim to save at least 20% of your income for emergencies and future goals.",
   bankItem "What is an emergency fund?"
      ["Money saved for vacations",
       "Money saved for unexpected expenses",
       "Money invested in stocks",
       "Money borrowed from friends"]
      1
      "An emergency fund is money set aside for unexpected expenses like medical bills or job loss."]

/-- The fallback bank of the category `Online Safety`. -/
def onlineSafetyBank : List JVal :=
  [bankItem "What should you do if you receive a suspicious SMS asking for OTP?"
      ["Reply with the OTP immediately",
       "Call the number back to verify",
       "Ignore and delete the message",
       "Forward it to friends"]
      2
      "Never share OTPs with anyone, even if they claim to be from your bank. Legitimate banks never ask for OTPs via SMS.",
   bankItem "Which of these is a safe online banking practice?"
      ["Using public WiFi for banking",
       "Sharing login credentials with family",
       "Using strong, unique passwords",
       "Saving passwords in browser"]
      2
      "Using strong, unique passwords for each account is essential for online security.",
   bankItem "What should you do if you suspect your bank account has been compromised?"
      ["Wait and monitor the situation",
       "Contact your bank immediately",
       "Share the issue on social media",
       "Change your password next week"]
      1
      "Immediately contact your bank if you suspect fraud to protect your account and minimize losses.",
   bankItem "Which of these is NOT a safe online practice?"
      ["Using two-factor authentication",
       "Logging out after each session",
       "Sharing personal information on social media",
       "Using secure websites (HTTPS)"]
      2
      "Never share personal information like address, phone number, or financial details on social media.",
   bankItem "What should you do before clicking on a link in an email?"
      ["Click immediately if it looks interesting",
       "Hover over the link to check the URL",
       "Forward it to friends",
       "Reply to the sender"]
      1
      "Always hover over links to verify the actual URL before clicking to avoid phishing scams."]

/-- The fallback bank of the category `Interest Rates`. -/
def interestRatesBank : List JVal :=
  [bankItem "What is compound interest?"
      ["Interest earned only on the principal amount",
       "Interest earned on both principal and accumulated interest",
       "A fixed rate that never changes",
       "A penalty for late payments"]
      1
      "Compound interest is interest earned on both the initial principal and the accumulated interest from previous periods.",
   bankItem "Which type of loan typically has the highest interest rate?"
      ["Home loan",
       "Car loan",
       "Credit card",
       "Education loan"]
      2
      "Credit cards typically have the highest interest rates, often 15-25% or more.",
   bankItem "What happens when interest rates increase?"
      ["Borrowing becomes cheaper",
       "Borrowing becomes more expensive",
       "Savings rates decrease",
       "Nothing changes"]
      1
      "When interest rates increase, borrowing becomes more expensive as you pay more interest on loans.",
   bankItem "What is APR?"
      ["Annual Percentage Rate",
       "Average Payment Rate",
       "Annual Payment Return",
       "Average Percentage Return"]
      0
      "APR stands for Annual Percentage Rate and represents the yearly interest rate including fees.",
   bankItem "Which is better for borrowers: fixed or variable interest rates?"
      ["Fixed rates are always better",
       "Variable rates are always better",
       "It depends on market conditions",
       "There's no difference"]
      2
      "The choice between fixed and variable rates depends on current market conditions and your risk tolerance."]

/-- The fallback bank of the category `Digital Banking`. -/
def digitalBankingBank : List JVal :=
  [bankItem "What is the main advantage of digital banking?"
      ["Higher interest rates",
       "Convenience and 24/7 access",
       "Lower fees",
       "Better customer service"]
      1
      "Digital banking provides convenience and 24/7 access to your accounts from anywhere.",
   bankItem "Which of these is a digital banking security feature?"
      ["Two-factor authentication",
       "Sharing passwords",
       "Using public computers",
       "Saving login details"]
      0
      "Two-factor authentication adds an extra layer of security to your digital banking account.",
   bankItem "What should you do after using a public computer for banking?"
      ["Leave it logged in for convenience",
       "Log out and clear browser history",
       "Save your password",
       "Share the computer with others"]
      1
      "Always log out and clear browser history when using public computers to protect your information.",
   bankItem "Which is safer for online transactions?"
      ["Debit card",
       "Credit card",
       "Both are equally safe",
       "Cash only"]
      1
      "Credit cards offer better fraud protection and don't directly access your bank account.",
   bankItem "What is a digital wallet?"
      ["A physical wallet for digital items",
       "A mobile app that stores payment information",
       "A type of bank account",
       "A cryptocurrency"]
      1
      "A digital wallet is a mobile app that stores payment information for convenient transactions."]

/-- The fallback bank of the category `Investment Basics`. -/
def investmentBasicsBank : List JVal :=
  [bankItem "What is diversification in investing?"
      ["Putting all money in one investment",
       "Spreading money across different investments",
       "Investing only in stocks",
       "Avoiding all investments"]
      1
      "Diversification means spreading your money across different types of investments to reduce risk.",
   bankItem "Which investment typically has the lowest risk?"
      ["Stocks",
       "Bonds",
       "Cryptocurrency",
       "Real estate"]
      1
      "Bonds typically have lower risk compared to stocks, cryptocurrency, and real estate.",
   bankItem "What is compound interest in investing?"
      ["Interest earned only on initial investment",
       "Interest earned on investment plus previous earnings",
       "A type of tax",
       "A fee charged by brokers"]
      1
      "Compound interest means earning interest on both your initial investment and the interest you've already earned.",
   bankItem "What is the main benefit of long-term investing?"
      ["Immediate returns",
       "Reduced risk and potential for growth",
       "No taxes",
       "Guaranteed profits"]
      1
      "Long-term investing reduces risk and provides potential for growth through compound interest.",
   bankItem "What should you consider before investing?"
      ["Only the potential returns",
       "Your risk tolerance and financial goals",
       "What your friends are investing in",
       "The latest trends"]
      1
      "Before investing, consider your risk tolerance, financial goals, and investment timeline."]

/-- The object literal `fallbackQuestions`: its own properties, in source order. -/
def fallbackQuestions : List (String × List JVal) :=
  [("UPI Safety", upiSafetyBank),
   ("Budgeting", budgetingBank),
   ("Online Safety", onlineSafetyBank),
   ("Interest Rates", interestRatesBank),
   ("Digital Banking", digitalBankingBank),
   ("Investment Basics", investmentBasicsBank)]

/-- The property names every object literal inherits from `Object.prototype`;
each inherited value is a function or an object, hence truthy, and has no
`slice` method. -/
def objectPrototypeKeys : List String :=
  ["constructor", "__proto__", "hasOwnProperty", "isPrototypeOf",
   "propertyIsEnumerable", "toLocaleString", "toString", "valueOf",
   "__defineGetter__", "__defineSetter__", "__lookupGetter__", "__lookupSetter__"]

/-- The value of the property read `fallbackQuestions[category]`. -/
inductive BankSlot where
  | own (items : List JVal)
  | inherited
  | missing

/-- The property read `fallbackQuestions[category]`: an own bank, a member
inherited from `Object.prototype`, or `undefined`. -/
def lookupBank (category : String) : BankSlot :=
  match fallbackQuestions.lookup category with
  | some items => BankSlot.own items
  | none =>
    if objectPrototypeKeys.contains category then BankSlot.inherited
    else BankSlot.missing

/-- The method `xs.slice(0, count)` for an integer `count`: a negative `count`
is counted from the end of the array. -/
def sliceTo (xs : List JVal) (count : Int) : List JVal :=
  if count < 0 then xs.take ((xs.length : Int) + count).toNat
  else xs.take count.toNat

/-- The function `generateFallbackQuestions(category, count)`:
`(fallbackQuestions[category] || fallbackQuestions['Online Safety']).slice(0, count)`;
`none` is the TypeError of calling `slice` on an inherited member. -/
def generateFallbackQuestions (category : String) (count : Int) : Option (List JVal) :=
  match lookupBank category with
  | BankSlot.own items => some (sliceTo items count)
  | BankSlot.inherited => none
  | BankSlot.missing => some (sliceTo onlineSafetyBank count)

/-- The bank the fallback serves for a category whose name is not inherited: the
category's own bank, or the `Online Safety` bank when the category has none. -/
def fallbackBank (category : String) : List JVal :=
  (fallbackQuestions.lookup category).getD onlineSafetyBank

/-- The quotation mark. -/
def quote : Char := Char.ofNat 34

/-- The test `s.includes('"""')`. -/
def includesTripleQuote : List Char → Bool
  | [] => false
  | c :: rest => [quote, quote, quote].isPrefixOf (c :: rest) || includesTripleQuote rest

/-- The replacement `s.replace(/"""/g, '"')`: scanning from the left, each run of
three quotation marks becomes one and the scan resumes after the run. -/
def replaceTripleQuotes : List Char → List Char
  | [] => []
  | a :: [] => [a]
  | a :: b :: [] => [a, b]
  | a :: b :: c :: rest =>
    if a = quote ∧ b = quote ∧ c = quote then quote :: replaceTripleQuotes rest
    else a :: replaceTripleQuotes (b :: c :: rest)

/-- The cleaning step: the replacement is applied when the text includes the
tripled quotation mark. -/
def cleanResponse (s : List Char) : List Char :=
  if includesTripleQuote s then replaceTripleQuotes s else s

/-- The match of the regular expression `/\[[\s\S]*\]/`: the text from the first
`[` to the last `]` of the whole text, when a `]` follows that `[`. -/
def matchBracketSpan (s : List Char) : Option (List Char) :=
  match s.dropWhile (fun c => c != '[') with
  | [] => none
  | _ :: tail =>
    match tail.reverse.dropWhile (fun c => c != ']') with
    | [] => none
    | c :: revInner => some ('[' :: (c :: revInner).reverse)

/-- The reply of the model endpoint: the `fetch` rejects, the status is not a
success, or the status is a success with a body (`none` when the body is not
JSON, so that `response.json()` throws). -/
inductive ModelReply where
  | failed
  | notOk
  | ok (data : Option JVal)

/-- The external services as the generation handler sees them.  The field
`jsonParse` is the runtime's `JSON.parse` on a text that begins with `[`: the
elements of the array it denotes, or `none` for a SyntaxError.  The field `now`
gives `Date.now()` at the formatting of the item with the given index. -/
structure GenEnv where
  tokenOk : Bool
  reply : ModelReply
  jsonParse : String → Option (List JVal)
  now : Nat → Nat

/-- A reply body of the shape the handler reads first,
`{ choices: [ { message: { content } } ] }`. -/
def chatReply (content : String) : JVal :=
  JVal.obj [("choices",
    JVal.arr [JVal.obj [("message", JVal.obj [("content", JVal.str content)])]])]

/-- The text taken from the reply:
`data.choices?.[0]?.message?.content || data.predictions?.[0]?.text || '[]'`;
`none` is the TypeError of reading `choices` on `null`. -/
def aiResponse (data : JVal) : Option JVal :=
  match data.member "choices", data.member "predictions" with
  | some choices, some predictions =>
    let content := ((choices.optIndex0).optMember "message").optMember "content"
    let text := (predictions.optIndex0).optMember "text"
    some ((content.or text).or (JVal.str "[]"))
  | _, _ => none

/-- The body of the inner `try`: clean the text, find the bracketed span, parse
it.  The result `none` is an exception, caught by the inner `catch`: no span, a
SyntaxError, or a reply that is not a string (it has no `match` method). -/
def parseQuestions (jsonParse : String → Option (List JVal)) (ai : JVal) :
    Option (List JVal) :=
  match ai with
  | JVal.str s =>
    match matchBracketSpan (cleanResponse s.data) with
    | some span => jsonParse (String.mk span)
    | none => none
  | _ => none

/-- The value of `questions` after the inner `try`/`catch`; `none` is an
exception thrown by the fallback itself, which leaves for the outer `catch`. -/
def extractQuestions (jsonParse : String → Option (List JVal)) (category : String)
    (count : Int) (ai : JVal) : Option (List JVal) :=
  match parseQuestions jsonParse ai with
  | some questions => some questions
  | none => generateFallbackQuestions category count

/-- One item of the response. -/
structure QuizItem where
  _id : String
  question : JVal
  options : JVal
  answer : JVal
  category : String
  explanation : JVal
  aiGenerated : Bool

/-- The array literal `['Option A', 'Option B', 'Option C', 'Option D']`. -/
def placeholderOptions : JVal :=
  JVal.arr [JVal.str "Option A", JVal.str "Option B", JVal.str "Option C", JVal.str "Option D"]

/-- The callback of `questions.map`: `none` is a TypeError (reading a property of
`null`, or converting `q.correctAnswer || 0` to text for the identifier). -/
def formatQuestion (category : String) (timestamp index : Nat) (q : JVal) :
    Option QuizItem :=
  match q.member "correctAnswer", q.member "question", q.member "options",
    q.member "explanation" with
  | some correctAnswer, some question, some options, some explanation =>
    match (correctAnswer.or (JVal.num 0)).toStr with
    | some answerText =>
      some
        { _id := encodeId timestamp index answerText
          question := question.or (JVal.str ("Question " ++ toString (index + 1)))
          options := options.or placeholderOptions
          answer := correctAnswer.or (JVal.num 0)
          category := category
          explanation := explanation.or (JVal.str "")
          aiGenerated := true }
    | none => none
  | _, _, _, _ => none

/-- The questions the formatting callback accepts without throwing: the value is
not `null` or `undefined`, and `q.correctAnswer || 0` converts to text. -/
def formattable (q : JVal) : Bool :=
  !q.nullish && ((q.optMember "correctAnswer").or (JVal.num 0)).toStr.isSome

/-- Number of entries of an array value. -/
def JVal.arrayLength : JVal → Option Nat
  | JVal.arr items => some items.length
  | _ => none

/-- The reference reading of "the parsed field if present, else the default": a
field is present when the parsed record has it, that is when reading it does not
give `undefined`. -/
def presentOr (v fallback : JVal) : JVal :=
  match v with
  | JVal.undefined => fallback
  | _ => v

/-- The field-wise reference definition of the normalization, in the words of the
specification: each of `question`, `options`, `answer`, `explanation` is the
parsed field if present, else its default. -/
def NormalizedIfPresent (index : Nat) (q : JVal) (item : QuizItem) : Prop :=
  item.question =
      presentOr (q.optMember "question") (JVal.str ("Question " ++ toString (index + 1))) ∧
    item.options = presentOr (q.optMember "options") placeholderOptions ∧
    item.answer = presentOr (q.optMember "correctAnswer") (JVal.num 0) ∧
    item.explanation = presentOr (q.optMember "explanation") (JVal.str "")

/-- The field-wise normalization the callback applies: each field is the parsed
field if it is truthy, else its default. -/
def NormalizedIfTruthy (index : Nat) (q : JVal) (item : QuizItem) : Prop :=
  item.question =
      (q.optMember "question").or (JVal.str ("Question " ++ toString (index + 1))) ∧
    item.options = (q.optMember "options").or placeholderOptions ∧
    item.answer = (q.optMember "correctAnswer").or (JVal.num 0) ∧
    item.explanation = (q.optMember "explanation").or (JVal.str "")

/-- The expression `questions.map((q, index) => ...)` from the given first index. -/
def formatQuestions (category : String) (now : Nat → Nat) :
    Nat → List JVal → Option (List QuizItem)
  | _, [] => some []
  | index, q :: rest =>
    match formatQuestion category (now index) index q,
      formatQuestions category now (index + 1) rest with
    | some item, some items => some (item :: items)
    | _, _ => none

/-- The request body of `POST /api/generate-questions`: `category` as a string
(`none` when missing), `count` as an integer (`none` when missing). -/
structure GenerateRequest where
  category : Option String
  count : Option Int

/-- The response of `POST /api/generate-questions`. -/
inductive GenerateResponse where
  | badRequest
  | serverError
  | ok (questions : List QuizItem) (category : String)

/-- The handler of `POST /api/generate-questions`. -/
def generateQuestions (env : GenEnv) (req : GenerateRequest) : GenerateResponse :=
  match req.category with
  | none => GenerateResponse.badRequest
  | some category =>
    if category = "" then GenerateResponse.badRequest
    else
      let count := req.count.getD 5
      if env.tokenOk then
        match env.reply with
        | ModelReply.failed => GenerateResponse.serverError
        | ModelReply.notOk => GenerateResponse.serverError
        | ModelReply.ok none => GenerateResponse.serverError
        | ModelReply.ok (some data) =>
          match aiResponse data with
          | none => GenerateResponse.serverError
          | some ai =>
            match extractQuestions env.jsonParse category count ai with
            | none => GenerateResponse.serverError
            | some questions =>
              match formatQuestions category env.now 0 questions with
              | none => GenerateResponse.serverError
              | some items => GenerateResponse.ok items category
      else GenerateResponse.serverError

/-! ## Relevance ranking (`retrieveRelevantDocs`, `src/backend/rag.js`) -/

/-! ### Lower-casing (`String.prototype.toLowerCase`)

The method follows the Unicode default case conversion: each character is
replaced by its lower-case mapping, `U+0130` by the two characters `U+0069 U+0307`,
and the capital sigma `U+03A3` by the final sigma `U+03C2` when it ends a word
(it comes after a cased letter and no cased letter follows, case-ignorable
characters apart).  The tables are those of Unicode 14.0, in ascending order. -/

/-- The simple lower-case mappings as rows `(first, last, step, target)`: the code
points `first, first + step, ..., last` map to `target, target + step, ...`. -/
def lowerCaseRanges : List (Nat × Nat × Nat × Nat) :=
  [(65, 90, 1, 97), (192, 214, 1, 224), (216, 222, 1, 248), (256, 302, 2, 257),
   (306, 310, 2, 307), (313, 327, 2, 314), (330, 374, 2, 331), (376, 376, 1, 255),
   (377, 381, 2, 378), (385, 385, 1, 595), (386, 388, 2, 387), (390, 390, 1, 596),
   (391, 391, 1, 392), (393, 394, 1, 598), (395, 395, 1, 396), (398, 398, 1, 477),
   (399, 399, 1, 601), (400, 400, 1, 603), (401, 401, 1, 402), (403, 403, 1, 608),
   (404, 404, 1, 611), (406, 406, 1, 617), (407, 407, 1, 616), (408, 408, 1, 409),
   (412, 412, 1, 623), (413, 413, 1, 626), (415, 415, 1, 629), (416, 420, 2, 417),
   (422, 422, 1, 640), (423, 423, 1, 424), (425, 425, 1, 643), (428, 428, 1, 429),
   (430, 430, 1, 648), (431, 431, 1, 432), (433, 434, 1, 650), (435, 437, 2, 436),
   (439, 439, 1, 658), (440, 440, 1, 441), (444, 444, 1, 445), (452, 452, 1, 454),
   (453, 453, 1, 454), (455, 455, 1, 457), (456, 456, 1, 457), (458, 458, 1, 460),
   (459, 475, 2, 460), (478, 494, 2, 479), (497, 497, 1, 499), (498, 500, 2, 499),
   (502, 502, 1, 405), (503, 503, 1, 447), (504, 542, 2, 505), (544, 544, 1, 414),
   (546, 562, 2, 547), (570, 570, 1, 11365), (571, 571, 1, 572), (573, 573, 1, 410),
   (574, 574, 1, 11366), (577, 577, 1, 578), (579, 579, 1, 384), (580, 580, 1, 649),
   (581, 581, 1, 652), (582, 590, 2, 583), (880, 882, 2, 881), (886, 886, 1, 887),
   (895, 895, 1, 1011), (902, 902, 1, 940), (904, 906, 1, 941), (908, 908, 1, 972),
   (910, 911, 1, 973), (913, 929, 1, 945), (931, 939, 1, 963), (975, 975, 1, 983),
   (984, 1006, 2, 985), (1012, 1012, 1, 952), (1015, 1015, 1, 1016), (1017, 1017, 1, 1010),
   (1018, 1018, 1, 1019), (1021, 1023, 1, 891), (1024, 1039, 1, 1104), (1040, 1071, 1, 1072),
   (1120, 1152, 2, 1121), (1162, 1214, 2, 1163), (1216, 1216, 1, 1231), (1217, 1229, 2, 1218),
   (1232, 1326, 2, 1233), (1329, 1366, 1, 1377), (4256, 4293, 1, 11520), (4295, 4295, 1, 11559),
   (4301, 4301, 1, 11565), (5024, 5103, 1, 43888), (5104, 5109, 1, 5112), (7312, 7354, 1, 4304),
   (7357, 7359, 1, 4349), (7680, 7828, 2, 7681), (7838, 7838, 1, 223), (7840, 7934, 2, 7841),
   (7944, 7951, 1, 7936), (7960, 7965, 1, 7952), (7976, 7983, 1, 7968), (7992, 7999, 1, 7984),
   (8008, 8013, 1, 8000), (8025, 8031, 2, 8017), (8040, 8047, 1, 8032), (8072, 8079, 1, 8064),
   (8088, 8095, 1, 8080), (8104, 8111, 1, 8096), (8120, 8121, 1, 8112), (8122, 8123, 1, 8048),
   (8124, 8124, 1, 8115), (8136, 8139, 1, 8050), (8140, 8140, 1, 8131), (8152, 8153, 1, 8144),
   (8154, 8155, 1, 8054), (8168, 8169, 1, 8160), (8170, 8171, 1, 8058), (8172, 8172, 1, 8165),
   (8184, 8185, 1, 8056), (8186, 8187, 1, 8060), (8188, 8188, 1, 8179), (8486, 8486, 1, 969),
   (8490, 8490, 1, 107), (8491, 8491, 1, 229), (8498, 8498, 1, 8526), (8544, 8559, 1, 8560),
   (8579, 8579, 1, 8580), (9398, 9423, 1, 9424), (11264, 11311, 1, 11312), (11360, 11360, 1, 11361),
   (11362, 11362, 1, 619), (11363, 11363, 1, 7549), (11364, 11364, 1, 637), (11367, 11371, 2, 11368),
   (11373, 11373, 1, 593), (11374, 11374, 1, 625), (11375, 11375, 1, 592), (11376, 11376, 1, 594),
   (11378, 11378, 1, 11379), (11381, 11381, 1, 11382), (11390, 11391, 1, 575), (11392, 11490, 2, 11393),
   (11499, 11501, 2, 11500), (11506, 11506, 1, 11507), (42560, 42604, 2, 42561), (42624, 42650, 2, 42625),
   (42786, 42798, 2, 42787), (42802, 42862, 2, 42803), (42873, 42875, 2, 42874), (42877, 42877, 1, 7545),
   (42878, 42886, 2, 42879), (42891, 42891, 1, 42892), (42893, 42893, 1, 613), (42896, 42898, 2, 42897),
   (42902, 42920, 2, 42903), (42922, 42922, 1, 614), (42923, 42923, 1, 604), (42924, 42924, 1, 609),
   (42925, 42925, 1, 620), (42926, 42926, 1, 618), (42928, 42928, 1, 670), (42929, 42929, 1, 647),
   (42930, 42930, 1, 669), (42931, 42931, 1, 43859), (42932, 42946, 2, 42933), (42948, 42948, 1, 42900),
   (42949, 42949, 1, 642), (42950, 42950, 1, 7566), (42951, 42953, 2, 42952), (42960, 42960, 1, 42961),
   (42966, 42968, 2, 42967), (42997, 42997, 1, 42998), (65313, 65338, 1, 65345), (66560, 66599, 1, 66600),
   (66736, 66771, 1, 66776), (66928, 66964, 2, 66967), (66929, 66938, 1, 66968), (66941, 66954, 1, 66980),
   (66957, 66962, 1, 66996), (66965, 66965, 1, 67004), (68736, 68786, 1, 68800), (71840, 71871, 1, 71872),
   (93760, 93791, 1, 93792), (125184, 125217, 1, 125218)]

/-- The code points with the property `Cased`, as rows `(first, last)`. -/
def casedRanges : List (Nat × Nat) :=
  [(65, 90), (97, 122), (170, 170), (181, 181), (186, 186), (192, 214),
   (216, 246), (248, 442), (444, 447), (452, 659), (661, 696), (704, 705),
   (736, 740), (837, 837), (880, 883), (886, 887), (890, 893), (895, 895),
   (902, 902), (904, 906), (908, 908), (910, 929), (931, 1013), (1015, 1153),
   (1162, 1327), (1329, 1366), (1376, 1416), (4256, 4293), (4295, 4295), (4301, 4301),
   (4304, 4346), (4349, 4351), (5024, 5109), (5112, 5117), (7296, 7304), (7312, 7354),
   (7357, 7359), (7424, 7615), (7680, 7957), (7960, 7965), (7968, 8005), (8008, 8013),
   (8016, 8023), (8025, 8025), (8027, 8027), (8029, 8029), (8031, 8061), (8064, 8116),
   (8118, 8124), (8126, 8126), (8130, 8132), (8134, 8140), (8144, 8147), (8150, 8155),
   (8160, 8172), (8178, 8180), (8182, 8188), (8305, 8305), (8319, 8319), (8336, 8348),
   (8450, 8450), (8455, 8455), (8458, 8467), (8469, 8469), (8473, 8477), (8484, 8484),
   (8486, 8486), (8488, 8488), (8490, 8493), (8495, 8500), (8505, 8505), (8508, 8511),
   (8517, 8521), (8526, 8526), (8544, 8575), (8579, 8580), (9398, 9449), (11264, 11492),
   (11499, 11502), (11506, 11507), (11520, 11557), (11559, 11559), (11565, 11565), (42560, 42605),
   (42624, 42653), (42786, 42887), (42891, 42894), (42896, 42954), (42960, 42961), (42963, 42963),
   (42965, 42969), (42997, 42998), (43000, 43002), (43824, 43866), (43868, 43880), (43888, 43967),
   (64256, 64262), (64275, 64279), (65313, 65338), (65345, 65370), (66560, 66639), (66736, 66771),
   (66776, 66811), (66928, 66938), (66940, 66954), (66956, 66962), (66964, 66965), (66967, 66977),
   (66979, 66993), (66995, 67001), (67003, 67004), (67456, 67456), (67459, 67461), (67463, 67504),
   (67506, 67514), (68736, 68786), (68800, 68850), (71840, 71903), (93760, 93823), (119808, 119892),
   (119894, 119964), (119966, 119967), (119970, 119970), (119973, 119974), (119977, 119980), (119982, 119993),
   (119995, 119995), (119997, 120003), (120005, 120069), (120071, 120074), (120077, 120084), (120086, 120092),
   (120094, 120121), (120123, 120126), (120128, 120132), (120134, 120134), (120138, 120144), (120146, 120485),
   (120488, 120512), (120514, 120538), (120540, 120570), (120572, 120596), (120598, 120628), (120630, 120654),
   (120656, 120686), (120688, 120712), (120714, 120744), (120746, 120770), (120772, 120779), (122624, 122633),
   (122635, 122654), (125184, 125251), (127280, 127305), (127312, 127337), (127344, 127369)]

/-- The code points with the property `Case_Ignorable`, as rows `(first, last)`. -/
def caseIgnorableRanges : List (Nat × Nat) :=
  [(39, 39), (46, 46), (58, 58), (94, 94), (96, 96), (168, 168),
   (173, 173), (175, 175), (180, 180), (183, 184), (688, 879), (884, 885),
   (890, 890), (900, 901), (903, 903), (1155, 1161), (1369, 1369), (1375, 1375),
   (1425, 1469), (1471, 1471), (1473, 1474), (1476, 1477), (1479, 1479), (1524, 1524),
   (1536, 1541), (1552, 1562), (1564, 1564), (1600, 1600), (1611, 1631), (1648, 1648),
   (1750, 1757), (1759, 1768), (1770, 1773), (1807, 1807), (1809, 1809), (1840, 1866),
   (1958, 1968), (2027, 2037), (2042, 2042), (2045, 2045), (2070, 2093), (2137, 2139),
   (2184, 2184), (2192, 2193), (2200, 2207), (2249, 2306), (2362, 2362), (2364, 2364),
   (2369, 2376), (2381, 2381), (2385, 2391), (2402, 2403), (2417, 2417), (2433, 2433),
   (2492, 2492), (2497, 2500), (2509, 2509), (2530, 2531), (2558, 2558), (2561, 2562),
   (2620, 2620), (2625, 2626), (2631, 2632), (2635, 2637), (2641, 2641), (2672, 2673),
   (2677, 2677), (2689, 2690), (2748, 2748), (2753, 2757), (2759, 2760), (2765, 2765),
   (2786, 2787), (2810, 2815), (2817, 2817), (2876, 2876), (2879, 2879), (2881, 2884),
   (2893, 2893), (2901, 2902), (2914, 2915), (2946, 2946), (3008, 3008), (3021, 3021),
   (3072, 3072), (3076, 3076), (3132, 3132), (3134, 3136), (3142, 3144), (3146, 3149),
   (3157, 3158), (3170, 3171), (3201, 3201), (3260, 3260), (3263, 3263), (3270, 3270),
   (3276, 3277), (3298, 3299), (3328, 3329), (3387, 3388), (3393, 3396), (3405, 3405),
   (3426, 3427), (3457, 3457), (3530, 3530), (3538, 3540), (3542, 3542), (3633, 3633),
   (3636, 3642), (3654, 3662), (3761, 3761), (3764, 3772), (3782, 3782), (3784, 3789),
   (3864, 3865), (3893, 3893), (3895, 3895), (3897, 3897), (3953, 3966), (3968, 3972),
   (3974, 3975), (3981, 3991), (3993, 4028), (4038, 4038), (4141, 4144), (4146, 4151),
   (4153, 4154), (4157, 4158), (4184, 4185), (4190, 4192), (4209, 4212), (4226, 4226),
   (4229, 4230), (4237, 4237), (4253, 4253), (4348, 4348), (4957, 4959), (5906, 5908),
   (5938, 5939), (5970, 5971), (6002, 6003), (6068, 6069), (6071, 6077), (6086, 6086),
   (6089, 6099), (6103, 6103), (6109, 6109), (6155, 6159), (6211, 6211), (6277, 6278),
   (6313, 6313), (6432, 6434), (6439, 6440), (6450, 6450), (6457, 6459), (6679, 6680),
   (6683, 6683), (6742, 6742), (6744, 6750), (6752, 6752), (6754, 6754), (6757, 6764),
   (6771, 6780), (6783, 6783), (6823, 6823), (6832, 6862), (6912, 6915), (6964, 6964),
   (6966, 6970), (6972, 6972), (6978, 6978), (7019, 7027), (7040, 7041), (7074, 7077),
   (7080, 7081), (7083, 7085), (7142, 7142), (7144, 7145), (7149, 7149), (7151, 7153),
   (7212, 7219), (7222, 7223), (7288, 7293), (7376, 7378), (7380, 7392), (7394, 7400),
   (7405, 7405), (7412, 7412), (7416, 7417), (7468, 7530), (7544, 7544), (7579, 7679),
   (8125, 8125), (8127, 8129), (8141, 8143), (8157, 8159), (8173, 8175), (8189, 8190),
   (8203, 8207), (8216, 8217), (8228, 8228), (8231, 8231), (8234, 8238), (8288, 8292),
   (8294, 8303), (8305, 8305), (8319, 8319), (8336, 8348), (8400, 8432), (11388, 11389),
   (11503, 11505), (11631, 11631), (11647, 11647), (11744, 11775), (11823, 11823), (12293, 12293),
   (12330, 12333), (12337, 12341), (12347, 12347), (12441, 12446), (12540, 12542), (40981, 40981),
   (42232, 42237), (42508, 42508), (42607, 42610), (42612, 42621), (42623, 42623), (42652, 42655),
   (42736, 42737), (42752, 42785), (42864, 42864), (42888, 42890), (42994, 42996), (43000, 43001),
   (43010, 43010), (43014, 43014), (43019, 43019), (43045, 43046), (43052, 43052), (43204, 43205),
   (43232, 43249), (43263, 43263), (43302, 43309), (43335, 43345), (43392, 43394), (43443, 43443),
   (43446, 43449), (43452, 43453), (43471, 43471), (43493, 43494), (43561, 43566), (43569, 43570),
   (43573, 43574), (43587, 43587), (43596, 43596), (43632, 43632), (43644, 43644), (43696, 43696),
   (43698, 43700), (43703, 43704), (43710, 43711), (43713, 43713), (43741, 43741), (43756, 43757),
   (43763, 43764), (43766, 43766), (43867, 43871), (43881, 43883), (44005, 44005), (44008, 44008),
   (44013, 44013), (64286, 64286), (64434, 64450), (65024, 65039), (65043, 65043), (65056, 65071),
   (65106, 65106), (65109, 65109), (65279, 65279), (65287, 65287), (65294, 65294), (65306, 65306),
   (65342, 65342), (65344, 65344), (65392, 65392), (65438, 65439), (65507, 65507), (65529, 65531),
   (66045, 66045), (66272, 66272), (66422, 66426), (67456, 67461), (67463, 67504), (67506, 67514),
   (68097, 68099), (68101, 68102), (68108, 68111), (68152, 68154), (68159, 68159), (68325, 68326),
   (68900, 68903), (69291, 69292), (69446, 69456), (69506, 69509), (69633, 69633), (69688, 69702),
   (69744, 69744), (69747, 69748), (69759, 69761), (69811, 69814), (69817, 69818), (69821, 69821),
   (69826, 69826), (69837, 69837), (69888, 69890), (69927, 69931), (69933, 69940), (70003, 70003),
   (70016, 70017), (70070, 70078), (70089, 70092), (70095, 70095), (70191, 70193), (70196, 70196),
   (70198, 70199), (70206, 70206), (70367, 70367), (70371, 70378), (70400, 70401), (70459, 70460),
   (70464, 70464), (70502, 70508), (70512, 70516), (70712, 70719), (70722, 70724), (70726, 70726),
   (70750, 70750), (70835, 70840), (70842, 70842), (70847, 70848), (70850, 70851), (71090, 71093),
   (71100, 71101), (71103, 71104), (71132, 71133), (71219, 71226), (71229, 71229), (71231, 71232),
   (71339, 71339), (71341, 71341), (71344, 71349), (71351, 71351), (71453, 71455), (71458, 71461),
   (71463, 71467), (71727, 71735), (71737, 71738), (71995, 71996), (71998, 71998), (72003, 72003),
   (72148, 72151), (72154, 72155), (72160, 72160), (72193, 72202), (72243, 72248), (72251, 72254),
   (72263, 72263), (72273, 72278), (72281, 72283), (72330, 72342), (72344, 72345), (72752, 72758),
   (72760, 72765), (72767, 72767), (72850, 72871), (72874, 72880), (72882, 72883), (72885, 72886),
   (73009, 73014), (73018, 73018), (73020, 73021), (73023, 73029), (73031, 73031), (73104, 73105),
   (73109, 73109), (73111, 73111), (73459, 73460), (78896, 78904), (92912, 92916), (92976, 92982),
   (92992, 92995), (94031, 94031), (94095, 94111), (94176, 94177), (94179, 94180), (110576, 110579),
   (110581, 110587), (110589, 110590), (113821, 113822), (113824, 113827), (118528, 118573), (118576, 118598),
   (119143, 119145), (119155, 119170), (119173, 119179), (119210, 119213), (119362, 119364), (121344, 121398),
   (121403, 121452), (121461, 121461), (121476, 121476), (121499, 121503), (121505, 121519), (122880, 122886),
   (122888, 122904), (122907, 122913), (122915, 122916), (122918, 122922), (123184, 123197), (123566, 123566),
   (123628, 123631), (125136, 125142), (125252, 125259), (127995, 127999), (917505, 917505), (917536, 917631),
   (917760, 917999)]

/-- The lower-case mapping of a code point in a table of rows in ascending
order of `first`; a code point in no row maps to itself. -/
def lowerCode : List (Nat × Nat × Nat × Nat) → Nat → Nat
  | [], n => n
  | (first, last, step, target) :: rest, n =>
    if n < first then n
    else if n ≤ last ∧ (n - first) % step = 0 then target + (n - first)
    else lowerCode rest n

/-- Membership of a code point in a table of rows `(first, last)` in ascending
order. -/
def inRanges : List (Nat × Nat) → Nat → Bool
  | [], _ => false
  | (first, last) :: rest, n =>
    if n < first then false
    else if n ≤ last then true
    else inRanges rest n

/-- The property `Cased`. -/
def isCased (c : Char) : Bool := inRanges casedRanges c.toNat

/-- The property `Case_Ignorable`. -/
def isCaseIgnorable (c : Char) : Bool := inRanges caseIgnorableRanges c.toNat

/-- Going away from a capital sigma over the given characters (nearest first),
the first character that is not case-ignorable exists and is cased. -/
def nextIsCased : List Char → Bool
  | [] => false
  | c :: rest => if isCaseIgnorable c then nextIsCased rest else isCased c

/-- The lower-case mapping of one character outside the sigma rule. -/
def lowerCaseOf (c : Char) : List Char :=
  if c.toNat = 304 then [Char.ofNat 105, Char.ofNat 775]
  else [Char.ofNat (lowerCode lowerCaseRanges c.toNat)]

/-- Lower-casing of the rest of a text, given the characters before it (nearest
first). -/
def toLowerCaseFrom : List Char → List Char → List Char
  | _, [] => []
  | before, c :: rest =>
    (if c.toNat = 931 then
        (if nextIsCased before && !nextIsCased rest then [Char.ofNat 962]
          else [Char.ofNat 963])
      else lowerCaseOf c) ++ toLowerCaseFrom (c :: before) rest

/-- The method `s.toLowerCase()`. -/
def toLowerCase (s : List Char) : List Char := toLowerCaseFrom [] s

/-- The method `s.includes(k)`: `k` occurs in `s` as a run of consecutive
characters (the empty text occurs in every text). -/
def includes : List Char → List Char → Bool
  | [], k => k.isEmpty
  | c :: cs, k => k.isPrefixOf (c :: cs) || includes cs k

/-- The keywords of a question: `question.toLowerCase().split(' ')`. -/
def keywordsOf (question : String) : List (List Char) :=
  splitOn ' ' (toLowerCase question.data)

/-- The score of a lower-cased document text:
`keywords.reduce((score, keyword) => score + (content.includes(keyword) ? 1 : 0), 0)`. -/
def keywordScore (question : String) (content : List Char) : Nat :=
  (keywordsOf question).foldl
    (fun score keyword => score + (if includes content keyword then 1 else 0)) 0

/-- The text a document is scored on, `${doc.title} ${doc.content}` lower-cased;
`none` is a TypeError (the document is `null`, or a field does not convert to
text). -/
def docContent (doc : JVal) : Option (List Char) :=
  match doc.member "title", doc.member "content" with
  | some title, some content =>
    match title.toStr, content.toStr with
    | some t, some c => some (toLowerCase (t ++ " " ++ c).data)
    | _, _ => none
  | _, _ => none

/-- A document with the score the ranking gave it (the object `{ ...doc, score }`). -/
structure ScoredDoc where
  doc : JVal
  score : Nat

/-- The expression `result.rows.map(row => row.doc)`; `none` is the TypeError of
reading `doc` on a `null` row. -/
def rowDocs : List JVal → Option (List JVal)
  | [] => some []
  | row :: rest =>
    match row.member "doc", rowDocs rest with
    | some doc, some docs => some (doc :: docs)
    | _, _ => none

/-- The filter `doc => doc.type === 'financial_content'`; `none` is the TypeError
of reading `type` on a `null` document. -/
def financialDocs : List JVal → Option (List JVal)
  | [] => some []
  | doc :: rest =>
    match doc.member "type", financialDocs rest with
    | some type, some docs =>
      some (if type.strictEq (JVal.str "financial_content") then doc :: docs else docs)
    | _, _ => none

/-- The expression `docs.map(doc => ({ ...doc, score }))`; `none` is a TypeError in
building a document's text. -/
def scoreDocs (question : String) : List JVal → Option (List ScoredDoc)
  | [] => some []
  | doc :: rest =>
    match docContent doc, scoreDocs question rest with
    | some content, some scored => some (⟨doc, keywordScore question content⟩ :: scored)
    | _, _ => none

/-- The order of the comparator `(a, b) => b.score - a.score`: `a` may stand before
`b` when its score is at least that of `b`. -/
def byScoreDesc (a b : ScoredDoc) : Prop := b.score ≤ a.score

instance byScoreDesc_decidable : DecidableRel byScoreDesc :=
  fun a b => Nat.decLe b.score a.score

/-- The tail of the ranking,
`.filter(doc => doc.score > 0).sort((a, b) => b.score - a.score).slice(0, 3)`.
The sort of the runtime is stable, and a stable sort by a consistent comparator
has one result only; insertion sort computes it. -/
def topThree (scored : List ScoredDoc) : List ScoredDoc :=
  ((scored.filter (fun d => 0 < d.score)).insertionSort byScoreDesc).take 3

/-- What the knowledge store answers to `_all_docs?include_docs=true`: the request
fails (the `fetch` rejects, or the body is not JSON), or a JSON body. -/
inductive StoreReply where
  | failed
  | body (result : JVal)

/-- The steps of `retrieveRelevantDocs` inside its `try`, once the store answered;
`none` is an exception. -/
def rankResult (result : JVal) (question : String) : Option (List ScoredDoc) :=
  if result.truthy then
    match result.member "rows" with
    | some (JVal.arr rows) =>
      match rowDocs rows with
      | none => none
      | some docs =>
        match financialDocs docs with
        | none => none
        | some kept =>
          match scoreDocs question kept with
          | none => none
          | some scored => some (topThree scored)
    | some rows => if rows.truthy then none else some []
    | none => none
  else some []

/-- The function `retrieveRelevantDocs(question)`: every exception is caught and
gives the empty list. -/
def retrieveRelevantDocs (store : StoreReply) (question : String) : List ScoredDoc :=
  match store with
  | StoreReply.failed => []
  | StoreReply.body result => (rankResult result question).getD []

/-- A knowledge document as the seeding route stores it. -/
def knowledgeDoc (title content category : String) (tags : List String) : JVal :=
  JVal.obj
    [("title", JVal.str title),
     ("content", JVal.str content),
     ("category", JVal.str category),
     ("tags", JVal.arr (tags.map JVal.str)),
     ("type", JVal.str "financial_content")]

/-- The body of the store's answer for a corpus: `{ rows: [ { doc }, ... ] }`. -/
def storeBody (docs : List JVal) : JVal :=
  JVal.obj [("rows", JVal.arr (docs.map (fun doc => JVal.obj [("doc", doc)])))]

/-- The seeded document `UPI Safety Guidelines` (`financialContent`, `src/backend/seed.js`). -/
def upiSafetyDoc : JVal :=
  knowledgeDoc "UPI Safety Guidelines"
    "UPI (Unified Payments Interface) is a real-time payment system. To use UPI safely: 1) Never share your UPI PIN with anyone, 2) Always verify the recipient name before sending money, 3) Use only official banking apps, 4) Enable two-factor authentication, 5) Keep your phone secure with a strong password, 6) Never click on suspicious links asking for UPI details, 7) Report any suspicious activity immediately to your bank."
    "UPI Safety"
    ["UPI", "safety", "payments", "security"]

/-- The seeded document `Online Banking Security` (`financialContent`, `src/backend/seed.js`). -/
def onlineBankingDoc : JVal :=
  knowledgeDoc "Online Banking Security"
    "Online banking security is crucial for protecting your money. Best practices include: 1) Use strong, unique passwords, 2) Enable two-factor authentication, 3) Never use public WiFi for banking, 4) Keep your devices updated, 5) Log out after each session, 6) Monitor your accounts regularly, 7) Use secure websites (HTTPS), 8) Never share login credentials."
    "Online Safety"
    ["online banking", "security", "passwords", "authentication"]

/-- The seeded document `Budgeting Basics` (`financialContent`, `src/backend/seed.js`). -/
def budgetingDoc : JVal :=
  knowledgeDoc "Budgeting Basics"
    "Budgeting is the foundation of financial health. The 50/30/20 rule suggests: 50% for needs (housing, food, utilities), 30% for wants (entertainment, dining), and 20% for savings and debt repayment. Track your expenses, set financial goals, create an emergency fund, and review your budget regularly."
    "Budgeting"
    ["budgeting", "financial planning", "savings", "expenses"]

/-- The seeded document `Interest Rates Explained` (`financialContent`, `src/backend/seed.js`). -/
def interestRatesDoc : JVal :=
  knowledgeDoc "Interest Rates Explained"
    "Interest rates affect borrowing and saving. When rates are high, borrowing becomes expensive but savings earn more. When rates are low, borrowing is cheaper but savings earn less. APR (Annual Percentage Rate) includes fees and shows the true cost of borrowing. Compound interest means earning interest on both principal and accumulated interest."
    "Interest Rates"
    ["interest rates", "APR", "compound interest", "borrowing"]

/-- The seeded document `Digital Banking Features` (`financialContent`, `src/backend/seed.js`). -/
def digitalBankingDoc : JVal :=
  knowledgeDoc "Digital Banking Features"
    "Digital banking offers convenience and security. Features include: 1) 24/7 account access, 2) Mobile check deposits, 3) Bill payments and transfers, 4) Real-time notifications, 5) Budgeting tools, 6) Investment options, 7) Customer support chat. Always use official apps and secure connections."
    "Digital Banking"
    ["digital banking", "mobile banking", "convenience", "features"]

/-- The seeded document `Investment Fundamentals` (`financialContent`, `src/backend/seed.js`). -/
def investmentDoc : JVal :=
  knowledgeDoc "Investment Fundamentals"
    "Investing helps grow wealth over time. Key principles: 1) Diversification reduces risk, 2) Start early to benefit from compound growth, 3) Understand your risk tolerance, 4) Invest for the long term, 5) Consider index funds for beginners, 6) Don't invest money you need soon, 7) Regularly review and rebalance your portfolio."
    "Investment Basics"
    ["investing", "diversification", "compound growth", "risk management"]

/-- The six documents of `financialContent` (`src/backend/seed.js`, the same texts as
in the seeding route of `rag.js`), in seed order, as the store holds them: the seeded
fields and the tag `type: 'financial_content'` (the store's own bookkeeping fields
play no part in the ranking and are left out). -/
def financialContent : List JVal :=
  [upiSafetyDoc, onlineBankingDoc, budgetingDoc, interestRatesDoc, digitalBankingDoc, investmentDoc]

/-! ## Chat (`POST /api/ask`, `src/backend/rag.js`) -/

/-- The method `lines.join(sep)` on an array of strings. -/
def joinWith (sep : String) : List String → String
  | [] => ""
  | [line] => line
  | line :: next :: rest => line ++ sep ++ joinWith sep (next :: rest)

/-- The line of the prompt for one ranked document, `- ${doc.title}: ${doc.content}`;
`none` is a TypeError in converting a field to text. -/
def promptLine (d : ScoredDoc) : Option String :=
  match d.doc.member "title", d.doc.member "content" with
  | some title, some content =>
    match title.toStr, content.toStr with
    | some t, some c => some ("- " ++ t ++ ": " ++ c)
    | _, _ => none
  | _, _ => none

/-- The lines of all ranked documents, in rank order. -/
def promptLines : List ScoredDoc → Option (List String)
  | [] => some []
  | d :: rest =>
    match promptLine d, promptLines rest with
    | some line, some lines => some (line :: lines)
    | _, _ => none

/-- The opening of the grounding prompt. -/
def promptIntro : String :=
  "You are a helpful AI assistant for digital financial literacy. Use the following trusted information to answer the user's question:\n\n"

/-- The closing of the grounding prompt. -/
def promptClosing : String :=
  "\n\nPlease provide a clear, helpful answer based on the information above. If the information doesn't cover the specific question, provide general best practices for digital financial safety. Keep your response concise and educational."

/-- The grounding prompt of `POST /api/ask`, a template literal over the ranked
documents and the question. -/
def askPrompt (docs : List ScoredDoc) (question : String) : Option String :=
  match promptLines docs with
  | some lines =>
    some (promptIntro ++ joinWith "\n\n" lines ++ "\n\nUser Question: " ++ question ++
      promptClosing)
  | none => none

/-- The fixed default answer of the chat path. -/
def defaultAnswer : String :=
  "I apologize, but I could not generate a response at this time."

/-- The answer taken from the reply:
`data.choices?.[0]?.message?.content || data.predictions?.[0]?.text || '<default>'`;
`none` is the TypeError of reading `choices` on `null`. -/
def askAnswer (data : JVal) : Option JVal :=
  match data.member "choices", data.member "predictions" with
  | some choices, some predictions =>
    let content := ((choices.optIndex0).optMember "message").optMember "content"
    let text := (predictions.optIndex0).optMember "text"
    some ((content.or text).or (JVal.str defaultAnswer))
  | _, _ => none

/-- The external services as the chat handler sees them. -/
structure AskEnv where
  tokenOk : Bool
  store : StoreReply
  reply : ModelReply

/-- The response of `POST /api/ask`: on success the answer and the titles of the
ranked documents. -/
inductive AskResponse where
  | badRequest
  | serverError
  | ok (answer : JVal) (references : List JVal)

/-- The handler of `POST /api/ask`; the question is a string (`none` when the field
is missing). -/
def ask (env : AskEnv) (question : Option String) : AskResponse :=
  match question with
  | none => AskResponse.badRequest
  | some question =>
    if question = "" then AskResponse.badRequest
    else if env.tokenOk then
      let relevantDocs := retrieveRelevantDocs env.store question
      match askPrompt relevantDocs question with
      | none => AskResponse.serverError
      | some _ =>
        match env.reply with
        | ModelReply.failed => AskResponse.serverError
        | ModelReply.notOk => AskResponse.serverError
        | ModelReply.ok none => AskResponse.serverError
        | ModelReply.ok (some data) =>
          match askAnswer data with
          | none => AskResponse.serverError
          | some answer =>
            AskResponse.ok answer (relevantDocs.map (fun d => d.doc.optMember "title"))
    else AskResponse.serverError


/-! ## Reference notions used by the properties -/

/-- Two characters that are equal or are the capital and the small form of one of
the letters `A` to `Z`. -/
def sameLetter (x y : Char) : Bool :=
  x == y ||
    (decide (65 ≤ x.toNat) && decide (x.toNat ≤ 90) && y.toNat == x.toNat + 32) ||
    (decide (65 ≤ y.toNat) && decide (y.toNat ≤ 90) && x.toNat == y.toNat + 32)

/-- Two texts that differ at most in the case of their letters `A` to `Z`. -/
def SameUpToCase (a b : List Char) : Prop :=
  List.Forall₂ (fun x y => sameLetter x y = true) a b

/-- A value is an option index when it is an integer from 0 to 3. -/
def isOptionIndex : JVal → Bool
  | JVal.num n => decide (0 ≤ n) && decide (n ≤ 3)
  | _ => false

/-- A decimal digit `0`..`9`. -/
def isDecimalDigit (c : Char) : Bool := decide (48 ≤ c.toNat) && decide (c.toNat ≤ 57)

/-- What `parseInt` looks at for digits: the text after the leading white space
and one optional sign. -/
def afterSign (s : List Char) : List Char :=
  match s.dropWhile isStrWhiteSpace with
  | '-' :: r => r
  | '+' :: r => r
  | r => r

/-- The score the ranking gives a document (0 when its text cannot be built). -/
def scoreOf (question : String) (doc : JVal) : Nat :=
  match docContent doc with
  | some content => keywordScore question content
  | none => 0

/-- The test `doc.type === 'financial_content'` on a document that is not `null`. -/
def isFinancial (doc : JVal) : Bool :=
  (doc.optMember "type").strictEq (JVal.str "financial_content")

/-- A stored document the ranking can read: it is not `null` and its title and
content convert to text. -/
def isDocument (doc : JVal) : Bool := !doc.nullish && (docContent doc).isSome

/-- The pieces of a text between the characters that satisfy `p`. -/
def splitWhere (p : Char → Bool) : List Char → List (List Char)
  | [] => [[]]
  | c :: cs =>
    if p c then [] :: splitWhere p cs
    else
      match splitWhere p cs with
      | [] => [[c]]
      | piece :: pieces => (c :: piece) :: pieces

/-- The keywords in the words of the specification: the question lower-cased and
split on white space (every white-space character separates). -/
def keywordsOnWhiteSpace (question : String) : List (List Char) :=
  splitWhere isStrWhiteSpace (toLowerCase question.data)

/-- The score in the words of the specification: the number of white-space
separated keywords that occur in the text. -/
def scoreOnWhiteSpace (question : String) (content : List Char) : Nat :=
  ((keywordsOnWhiteSpace question).filter (fun k => includes content k)).length


instance byScoreDesc_isTotal : IsTotal ScoredDoc byScoreDesc :=
  ⟨fun a b => Nat.le_total b.score a.score⟩

instance byScoreDesc_isTrans : IsTrans ScoredDoc byScoreDesc :=
  ⟨fun _ _ _ hab hbc => Nat.le_trans hbc hab⟩


/-! ## The external calls of the handlers

The handlers again, this time together with the external calls they make, in the
order they make them.  The response part of each run is the response of the
handler above. -/

/-- A call to an external service: the token service, the question store (a read),
the progress store (a write), the knowledge store (a read), the model endpoint. -/
inductive ExternalCall where
  | token
  | questionGet (questionId : String)
  | progressPost
  | knowledgeGet
  | modelPost

/-- The scoring loop with its reads of the question store: a generated identifier is
decoded without any call, a curated identifier is looked up; an exception stops
the loop. -/
def scoreLoopRun (fetchQuestion : String → Fetched) :
    ScoreState → List (String × JVal) → List ExternalCall × Option ScoreState
  | st, [] => ([], some st)
  | st, entry :: rest =>
    let calls : List ExternalCall :=
      if startsWith entry.1 generatedTag then [] else [ExternalCall.questionGet entry.1]
    match scoreStep fetchQuestion st entry with
    | none => (calls, none)
    | some st1 =>
      let run := scoreLoopRun fetchQuestion st1 rest
      (calls ++ run.1, run.2)

/-- The handler of `POST /api/submit` with its external calls: the token for the
store, the lookups of the loop, the post of the progress document. -/
def submitRun (env : SubmitEnv) (req : SubmitRequest) :
    List ExternalCall × SubmitResponse :=
  match req.answers, req.category with
  | none, _ => ([], SubmitResponse.badRequest)
  | some _, none => ([], SubmitResponse.badRequest)
  | some answers, some category =>
    if category = "" then ([], SubmitResponse.badRequest)
    else
      let totalQuestions := answers.length
      if env.headersOk then
        let run := scoreLoopRun env.fetchQuestion ⟨0, []⟩ answers
        match run.2 with
        | none => (ExternalCall.token :: run.1, SubmitResponse.serverError)
        | some st =>
          let calls := ExternalCall.token :: (run.1 ++ [ExternalCall.progressPost])
          match env.save with
          | SaveOutcome.failed => (calls, SubmitResponse.serverError)
          | _ =>
            (calls, SubmitResponse.ok st.score totalQuestions
              (percentage st.score totalQuestions) st.results)
      else ([ExternalCall.token], SubmitResponse.serverError)

/-- The handler of `POST /api/ask` with its external calls: the token, the read of
the knowledge store inside `retrieveRelevantDocs`, the post to the model. -/
def askRun (env : AskEnv) (question : Option String) : List ExternalCall × AskResponse :=
  match question with
  | none => ([], AskResponse.badRequest)
  | some question =>
    if question = "" then ([], AskResponse.badRequest)
    else if env.tokenOk then
      let relevantDocs := retrieveRelevantDocs env.store question
      match askPrompt relevantDocs question with
      | none => ([ExternalCall.token, ExternalCall.knowledgeGet], AskResponse.serverError)
      | some _ =>
        let calls := [ExternalCall.token, ExternalCall.knowledgeGet, ExternalCall.modelPost]
        match env.reply with
        | ModelReply.failed => (calls, AskResponse.serverError)
        | ModelReply.notOk => (calls, AskResponse.serverError)
        | ModelReply.ok none => (calls, AskResponse.serverError)
        | ModelReply.ok (some data) =>
          match askAnswer data with
          | none => (calls, AskResponse.serverError)
          | some answer =>
            (calls,
              AskResponse.ok answer (relevantDocs.map (fun d => d.doc.optMember "title")))
    else ([ExternalCall.token], AskResponse.serverError)

/-- The handler of `POST /api/generate-questions` with its external calls: the
token, the post to the model. -/
def generateRun (env : GenEnv) (req : GenerateRequest) :
    List ExternalCall × GenerateResponse :=
  match req.category with
  | none => ([], GenerateResponse.badRequest)
  | some category =>
    if category = "" then ([], GenerateResponse.badRequest)
    else if env.tokenOk then
      ([ExternalCall.token, ExternalCall.modelPost], generateQuestions env req)
    else ([ExternalCall.token], GenerateResponse.serverError)

/-- The calls that read: every call but the post of the progress document and the
post to the model. -/
def ExternalCall.isRead : ExternalCall → Bool
  | ExternalCall.progressPost => false
  | ExternalCall.modelPost => false
  | _ => true

/-- The trailing '-'-separated piece of an identifier. -/
def trailingPiece (questionId : String) : List Char :=
  (splitOn '-' questionId.data).getLastD []

end FinLit

/-! # Properties -/

namespace FinLit

/-! ## The answer-in-identifier encoding -/

theorem splitOn_ne_nil (sep : Char) (s : List Char) : splitOn sep s ≠ [] := by
  induction s with
  | nil => simp [splitOn]
  | cons c cs ih =>
    unfold splitOn
    split
    · simp
    · split <;> simp

theorem splitOn_of_not_mem (sep : Char) (s : List Char) (h : sep ∉ s) :
    splitOn sep s = [s] := by
  induction s with
  | nil => simp [splitOn]
  | cons c cs ih =>
    have hc : c ≠ sep := fun e => h (by simp [e])
    have hcs : sep ∉ cs := fun e => h (by simp [e])
    simp [splitOn, hc, ih hcs]

theorem splitOn_append_sep (sep : Char) (a b : List Char) :
    ∃ p ps, splitOn sep (a ++ sep :: b) = p :: (ps ++ splitOn sep b) := by
  induction a with
  | nil => exact ⟨[], [], by simp [splitOn]⟩
  | cons c cs ih =>
    obtain ⟨p, ps, h⟩ := ih
    by_cases hc : c = sep
    · exact ⟨[], p :: ps, by simp [splitOn, hc, h]⟩
    · exact ⟨c :: p, ps, by simp [splitOn, hc, h]⟩

theorem splitOn_getLastD_append_sep (sep : Char) (a b : List Char) (h : sep ∉ b) :
    (splitOn sep (a ++ sep :: b)).getLastD [] = b := by
  obtain ⟨p, ps, hp⟩ := splitOn_append_sep sep a b
  rw [hp, splitOn_of_not_mem sep b h,
    show p :: (ps ++ [b]) = (p :: ps) ++ [b] from rfl, List.getLastD_concat]

theorem encodeId_data (t n : Nat) (ans : String) :
    (encodeId t n ans).data =
      (generatedTag.data ++ (toString t).data ++ '-' :: (toString n).data) ++
        '-' :: ans.data := by
  simp [encodeId, String.data_append]

theorem decodeAnswer_encodeId (t n : Nat) (ans : String) (h : '-' ∉ ans.data) :
    decodeAnswer (encodeId t n ans) = (parseInt ans.data).getD 0 := by
  unfold decodeAnswer
  simp only [encodeId_data]
  rw [splitOn_getLastD_append_sep _ _ _ h]
  cases parseInt ans.data <;> rfl

theorem startsWith_encodeId (t n : Nat) (ans : String) :
    startsWith (encodeId t n ans) generatedTag = true := by
  simp [startsWith, encodeId, String.data_append, List.append_assoc]

/-- C1: for every timestamp `t`, ordinal `n` and option index `i` in {0,1,2,3}, the
identifier `ai-generated-<t>-<n>-<i>` carries the generated marker, and decoding
it as the scoring engine does (split on '-', `parseInt` of the last piece,
default 0) gives back `i`. -/
theorem decode_encode_roundtrip (t n i : Nat) (hi : i < 4) :
    startsWith (encodeId t n (toString i)) generatedTag = true ∧
      decodeAnswer (encodeId t n (toString i)) = (i : Int) := by
  refine ⟨startsWith_encodeId t n _, ?_⟩
  interval_cases i <;> (rw [decodeAnswer_encodeId _ _ _ (by decide)]; decide)

theorem decode_encode_roundtrip_witness :
    startsWith (encodeId 1700000000000 2 (toString 3)) generatedTag = true ∧
      decodeAnswer (encodeId 1700000000000 2 (toString 3)) = ((3 : Nat) : Int) :=
  decode_encode_roundtrip 1700000000000 2 3 (by decide)

/-! ## The scoring loop -/

/-- One iteration of the loop appends at most one result, made from the entry it
visits; it appends exactly one when the entry is resolvable, and the score grows
by one exactly when that result is correct. -/
theorem scoreStep_spec (fetchQuestion : String → Fetched) (st st1 : ScoreState)
    (entry : String × JVal) (h : scoreStep fetchQuestion st entry = some st1) :
    ∃ added : List ResultEntry,
      st1.results = st.results ++ added ∧
      st1.score = st.score + (added.filter (fun r => r.isCorrect)).length ∧
      added.length = ([entry].filter (resolvable fetchQuestion)).length ∧
      ∀ r ∈ added, ScoredFrom fetchQuestion entry r := by
  unfold scoreStep at h
  by_cases hg : startsWith entry.1 generatedTag = true
  · simp only [hg, if_true, Option.some.injEq] at h
    subst h
    refine ⟨[⟨entry.1, entry.2, JVal.num (decodeAnswer entry.1),
      entry.2.strictEq (JVal.num (decodeAnswer entry.1))⟩], rfl, ?_, ?_, ?_⟩
    · cases hc : entry.2.strictEq (JVal.num (decodeAnswer entry.1)) <;> simp [hc]
    · simp [resolvable, hg]
    · intro r hr
      simp only [List.mem_singleton] at hr
      subst hr
      simp [ScoredFrom, hg]
  · simp only [hg] at h
    cases hf : fetchQuestion entry.1 with
    | failed => simp [hf] at h
    | notOk =>
      simp only [hf, Bool.false_eq_true, if_false, Option.some.injEq] at h
      subst h
      exact ⟨[], by simp, by simp, by simp [resolvable, hg, hf], by simp⟩
    | ok doc =>
      simp only [hf, Bool.false_eq_true, if_false] at h
      cases hm : doc.member "answer" with
      | none => simp [hm] at h
      | some answer =>
        simp only [hm, Option.some.injEq] at h
        subst h
        refine ⟨[⟨entry.1, entry.2, answer, entry.2.strictEq answer⟩], rfl, ?_, ?_, ?_⟩
        · cases hc : entry.2.strictEq answer <;> simp [hc]
        · simp [resolvable, hg, hf]
        · intro r hr
          simp only [List.mem_singleton] at hr
          subst hr
          simp only [ScoredFrom, hg, Bool.false_eq_true, if_false, true_and]
          exact ⟨doc, hf, hm⟩

/-- The whole loop: the results it appends are made, in order, from the
resolvable entries, and the score grows by the number of correct ones. -/
theorem scoreLoop_spec (fetchQuestion : String → Fetched) :
    ∀ (entries : List (String × JVal)) (st st1 : ScoreState),
      scoreLoop fetchQuestion st entries = some st1 →
      ∃ added : List ResultEntry,
        st1.results = st.results ++ added ∧
        st1.score = st.score + (added.filter (fun r => r.isCorrect)).length ∧
        added.length = (entries.filter (resolvable fetchQuestion)).length ∧
        ∀ r ∈ added, ∃ entry ∈ entries, ScoredFrom fetchQuestion entry r := by
  intro entries
  induction entries with
  | nil =>
    intro st st1 h
    simp only [scoreLoop, Option.some.injEq] at h
    subst h
    exact ⟨[], by simp, by simp, by simp, by simp⟩
  | cons entry rest ih =>
    intro st st1 h
    simp only [scoreLoop] at h
    cases hs : scoreStep fetchQuestion st entry with
    | none => simp [hs] at h
    | some st2 =>
      simp only [hs] at h
      obtain ⟨a1, hr1, hsc1, hl1, hp1⟩ := scoreStep_spec fetchQuestion st st2 entry hs
      obtain ⟨a2, hr2, hsc2, hl2, hp2⟩ := ih st2 st1 h
      refine ⟨a1 ++ a2, ?_, ?_, ?_, ?_⟩
      · rw [hr2, hr1, List.append_assoc]
      · rw [hsc2, hsc1, List.filter_append, List.length_append, Nat.add_assoc]
      · rw [List.length_append, hl1, hl2]
        simp only [List.filter_cons, List.filter_nil]
        split <;> simp
        omega
      · intro r hr
        rcases List.mem_append.mp hr with h1 | h2
        · exact ⟨entry, by simp, hp1 r h1⟩
        · obtain ⟨e, he, hsf⟩ := hp2 r h2
          exact ⟨e, by simp [he], hsf⟩

/-- A response with status 200 comes from a request that carries both fields, a
run of the loop that did not throw, and reports the loop's final variables. -/
theorem submit_ok_inv (env : SubmitEnv) (req : SubmitRequest) (score total : Nat)
    (pct : Option Nat) (results : List ResultEntry)
    (h : submit env req = SubmitResponse.ok score total pct results) :
    ∃ answers, req.answers = some answers ∧ total = answers.length ∧
      pct = percentage score total ∧
      scoreLoop env.fetchQuestion ⟨0, []⟩ answers = some ⟨score, results⟩ := by
  unfold submit at h
  cases ha : req.answers with
  | none => simp [ha] at h
  | some answers =>
    cases hc : req.category with
    | none => simp [ha, hc] at h
    | some category =>
      simp only [ha, hc] at h
      by_cases hcat : category = ""
      · simp [hcat] at h
      · simp only [hcat, if_false] at h
        by_cases hh : env.headersOk = true
        · simp only [hh, if_true] at h
          cases hl : scoreLoop env.fetchQuestion ⟨0, []⟩ answers with
          | none => simp [hl] at h
          | some st =>
            simp only [hl] at h
            cases hsv : env.save <;> simp only [hsv] at h
            · injection h with h1 h2 h3 h4
              exact ⟨answers, rfl, h2.symm, by rw [← h3, h1, h2], by
                cases st; simp_all⟩
            · injection h with h1 h2 h3 h4
              exact ⟨answers, rfl, h2.symm, by rw [← h3, h1, h2], by
                cases st; simp_all⟩
            · exact absurd h (by simp)
        · simp [hh] at h

/-- C2, as the code has it: in a 200 response `totalQuestions` is the number of
entries of the submitted `answers` map, resolvable or not; an entry whose curated
id is absent from the store is left out of `results` only, and the percentage is
computed from the score over all submitted entries. -/
theorem submit_total_counts_all_entries (env : SubmitEnv) (req : SubmitRequest)
    (score total : Nat) (pct : Option Nat) (results : List ResultEntry)
    (h : submit env req = SubmitResponse.ok score total pct results) :
    ∃ answers, req.answers = some answers ∧ total = answers.length ∧
      results.length = (answers.filter (resolvable env.fetchQuestion)).length ∧
      pct = percentage score answers.length := by
  obtain ⟨answers, ha, ht, hp, hl⟩ := submit_ok_inv env req score total pct results h
  obtain ⟨added, hr, _, hlen, _⟩ := scoreLoop_spec env.fetchQuestion answers _ _ hl
  refine ⟨answers, ha, ht, ?_, by rw [hp, ht]⟩
  simp only [List.nil_append] at hr
  rw [hr, hlen]

theorem submit_total_counts_all_entries_witness :
    ∃ answers,
      (SubmitRequest.mk (some [("ai-generated-1700000000000-0-1", JVal.num 1),
          ("question-absent", JVal.num 2)]) (some "UPI Safety")).answers = some answers ∧
      2 = answers.length ∧
      [ResultEntry.mk "ai-generated-1700000000000-0-1" (JVal.num 1) (JVal.num 1) true].length =
        (answers.filter (resolvable
          (SubmitEnv.mk true (fun _ => Fetched.notOk) SaveOutcome.saved).fetchQuestion)).length ∧
      some 50 = percentage 1 answers.length :=
  submit_total_counts_all_entries ⟨true, fun _ => Fetched.notOk, SaveOutcome.saved⟩
    ⟨some [("ai-generated-1700000000000-0-1", JVal.num 1),
      ("question-absent", JVal.num 2)], some "UPI Safety"⟩
    1 2 (some 50) [⟨"ai-generated-1700000000000-0-1", JVal.num 1, JVal.num 1, true⟩] rfl

/-- C2 fails as stated: a submission of one generated item answered correctly and
one curated id that the store does not have gets `totalQuestions` 2 and
percentage 50, although only one entry was resolved (a total of 1 and a percentage
of 100 is what the claim asks for). -/
theorem submit_counts_absent_curated_item :
    submit ⟨true, fun _ => Fetched.notOk, SaveOutcome.saved⟩
        ⟨some [("ai-generated-1700000000000-0-1", JVal.num 1),
          ("question-absent", JVal.num 2)], some "UPI Safety"⟩ =
      SubmitResponse.ok 1 2 (some 50)
        [⟨"ai-generated-1700000000000-0-1", JVal.num 1, JVal.num 1, true⟩] ∧
    ([("ai-generated-1700000000000-0-1", JVal.num 1),
        ("question-absent", JVal.num 2)].filter
      (resolvable (fun _ => Fetched.notOk))).length = 1 ∧
    percentage 1 1 = some 100 := by
  refine ⟨rfl, by decide, by decide⟩

/-- C3: in every 200 response the score is the number of entries of `results`
whose `isCorrect` is true (one point each, nothing else added or subtracted), and
every entry of `results` is made from a submitted entry: `isCorrect` is the strict
equality of the submitted value with the correct answer, which is the index decoded
from the id for a generated item and the stored `answer` for a curated item. -/
theorem submit_score_counts_correct (env : SubmitEnv) (req : SubmitRequest)
    (score total : Nat) (pct : Option Nat) (results : List ResultEntry)
    (h : submit env req = SubmitResponse.ok score total pct results) :
    score = (results.filter (fun r => r.isCorrect)).length ∧
      ∃ answers, req.answers = some answers ∧
        ∀ r ∈ results, ∃ entry ∈ answers, ScoredFrom env.fetchQuestion entry r := by
  obtain ⟨answers, ha, _, _, hl⟩ := submit_ok_inv env req score total pct results h
  obtain ⟨added, hr, hs, _, hp⟩ := scoreLoop_spec env.fetchQuestion answers _ _ hl
  simp only [List.nil_append] at hr
  simp only [Nat.zero_add] at hs
  subst hr
  exact ⟨hs, answers, ha, hp⟩

theorem submit_score_counts_correct_witness :
    1 = ([ResultEntry.mk "question-7" (JVal.num 2) (JVal.num 2) true,
        ResultEntry.mk "ai-generated-1700000000000-1-3" (JVal.num 0) (JVal.num 3) false].filter
          (fun r => r.isCorrect)).length ∧
      ∃ answers,
        (SubmitRequest.mk (some [("question-7", JVal.num 2),
          ("ai-generated-1700000000000-1-3", JVal.num 0)]) (some "Budgeting")).answers =
            some answers ∧
        ∀ r ∈ [ResultEntry.mk "question-7" (JVal.num 2) (JVal.num 2) true,
            ResultEntry.mk "ai-generated-1700000000000-1-3" (JVal.num 0) (JVal.num 3) false],
          ∃ entry ∈ answers,
            ScoredFrom (SubmitEnv.mk true
              (fun _ => Fetched.ok (JVal.obj [("answer", JVal.num 2)]))
              SaveOutcome.rejected).fetchQuestion entry r :=
  submit_score_counts_correct
    ⟨true, fun _ => Fetched.ok (JVal.obj [("answer", JVal.num 2)]), SaveOutcome.rejected⟩
    ⟨some [("question-7", JVal.num 2), ("ai-generated-1700000000000-1-3", JVal.num 0)],
      some "Budgeting"⟩
    1 2 (some 50)
    [⟨"question-7", JVal.num 2, JVal.num 2, true⟩,
      ⟨"ai-generated-1700000000000-1-3", JVal.num 0, JVal.num 3, false⟩] rfl

/-! ## The percentage -/

theorem bitLengthAux_spec : ∀ (fuel n : Nat), n ≤ fuel →
    n < 2 ^ bitLengthAux fuel n ∧ (n ≠ 0 → 2 ^ bitLengthAux fuel n ≤ 2 * n) := by
  intro fuel
  induction fuel with
  | zero =>
    intro n hn
    have : n = 0 := by omega
    subst this
    simp [bitLengthAux]
  | succ fuel ih =>
    intro n hn
    unfold bitLengthAux
    by_cases h0 : n = 0
    · simp [h0]
    · simp only [h0, if_false]
      have hhalf : n / 2 ≤ fuel := by omega
      obtain ⟨h1, h2⟩ := ih (n / 2) hhalf
      constructor
      · rw [pow_succ]
        omega
      · intro _
        rw [pow_succ]
        by_cases hz : n / 2 = 0
        · have hn1 : n = 1 := by omega
          subst hn1
          simp [bitLengthAux] at *
          cases fuel <;> simp [bitLengthAux]
        · have := h2 hz
          omega

theorem lt_two_pow_bitLength (n : Nat) : n < 2 ^ bitLength n :=
  (bitLengthAux_spec n n (Nat.le_refl n)).1

theorem two_pow_bitLength_le (n : Nat) (h : n ≠ 0) : 2 ^ bitLength n ≤ 2 * n :=
  (bitLengthAux_spec n n (Nat.le_refl n)).2 h

theorem roundHalfEven_near (num den : Nat) (hd : 0 < den) :
    2 * (roundHalfEven num den * den) ≤ 2 * num + den ∧
      2 * num ≤ 2 * (roundHalfEven num den * den) + den := by
  have hdm := Nat.div_add_mod num den
  have hr := Nat.mod_lt num hd
  have hq : num / den * den = den * (num / den) := Nat.mul_comm _ _
  have hq1 : (num / den + 1) * den = den * (num / den) + den := by ring
  unfold roundHalfEven
  simp only
  split
  · rw [hq]; omega
  · split
    · rw [hq1]; omega
    · split
      · rw [hq]; omega
      · rw [hq1]; omega
theorem roundHalfEven_rat (num den : Nat) (hd : 0 < den) (hn : den * 2 ^ 52 ≤ num) :
    (num : ℚ) / den * (1 - 1 / 2 ^ 53) ≤ (roundHalfEven num den : ℚ) ∧
      (roundHalfEven num den : ℚ) ≤ (num : ℚ) / den * (1 + 1 / 2 ^ 53) := by
  obtain ⟨h1, h2⟩ := roundHalfEven_near num den hd
  have hdq : (0 : ℚ) < den := by exact_mod_cast hd
  have h1q : 2 * ((roundHalfEven num den : ℚ) * den) ≤ 2 * num + den := by exact_mod_cast h1
  have h2q : 2 * (num : ℚ) ≤ 2 * ((roundHalfEven num den : ℚ) * den) + den := by
    exact_mod_cast h2
  have hnq : (den : ℚ) * 2 ^ 52 ≤ num := by exact_mod_cast hn
  have hx : (num : ℚ) / den * (1 - 1 / 2 ^ 53) = (num * (2 ^ 53 - 1)) / (den * 2 ^ 53) := by
    field_simp
  have hy : (num : ℚ) / den * (1 + 1 / 2 ^ 53) = (num * (2 ^ 53 + 1)) / (den * 2 ^ 53) := by
    field_simp
  have hpos : (0 : ℚ) < den * 2 ^ 53 := by positivity
  constructor
  · rw [hx, div_le_iff₀ hpos]
    nlinarith
  · rw [hy, le_div_iff₀ hpos]
    nlinarith

theorem nearestDouble_scale (num den : Nat) :
    bitLength den + (bitLength num - (52 + bitLength den)) + 52 =
      bitLength num + ((52 + bitLength den) - bitLength num) := by
  omega

theorem nearestDouble_normal (num den : Nat) (hn : 0 < num) :
    den * 2 ^ (bitLength num - (52 + bitLength den)) * 2 ^ 52 ≤
      2 * (num * 2 ^ ((52 + bitLength den) - bitLength num)) := by
  have h1 := two_pow_bitLength_le num (by omega)
  have h2 := lt_two_pow_bitLength den
  have hs := nearestDouble_scale num den
  calc den * 2 ^ (bitLength num - (52 + bitLength den)) * 2 ^ 52
      ≤ 2 ^ bitLength den * 2 ^ (bitLength num - (52 + bitLength den)) * 2 ^ 52 := by
        gcongr
    _ = 2 ^ bitLength num * 2 ^ ((52 + bitLength den) - bitLength num) := by
        rw [← pow_add, ← pow_add, ← pow_add, hs]
    _ ≤ 2 * num * 2 ^ ((52 + bitLength den) - bitLength num) := by
        gcongr
    _ = 2 * (num * 2 ^ ((52 + bitLength den) - bitLength num)) := by ring

/-- The double nearest to a positive quotient is within the relative error
`2^-53` of it. -/
theorem nearestDouble_bounds (num den : Nat) (hn : 0 < num) (hd : 0 < den) :
    (num : ℚ) / den * (1 - 1 / 2 ^ 53) ≤ (nearestDouble num den).toRat ∧
      (nearestDouble num den).toRat ≤ (num : ℚ) / den * (1 + 1 / 2 ^ 53) := by
  have hn0 : num ≠ 0 := by omega
  have hdq : (0 : ℚ) < den := by exact_mod_cast hd
  have hnq : (0 : ℚ) < num := by exact_mod_cast hn
  unfold nearestDouble
  simp only [hn0, if_false]
  set a := (52 + bitLength den) - bitLength num with ha
  set b := bitLength num - (52 + bitLength den) with hb
  have hd0 : 0 < den * 2 ^ b := by positivity
  have hpa : (0 : ℚ) < 2 ^ a := by positivity
  have hpb : (0 : ℚ) < 2 ^ b := by positivity
  split
  · rename_i hbr
    obtain ⟨l, r⟩ := roundHalfEven_rat (num * 2 ^ a) (den * 2 ^ b) hd0 hbr
    simp only [Dbl.toRat]
    push_cast at l r ⊢
    have e : (num : ℚ) / den = (num * 2 ^ a) / (den * 2 ^ b) * (2 ^ b / 2 ^ a) := by
      field_simp
      ring
    have hc : (0 : ℚ) < 2 ^ b / 2 ^ a := by positivity
    constructor
    · calc (num : ℚ) / den * (1 - 1 / 2 ^ 53)
          = ((num * 2 ^ a) / (den * 2 ^ b) * (1 - 1 / 2 ^ 53)) * (2 ^ b / 2 ^ a) := by
            rw [e]; ring
        _ ≤ (roundHalfEven (num * 2 ^ a) (den * 2 ^ b) : ℚ) * (2 ^ b / 2 ^ a) :=
            mul_le_mul_of_nonneg_right l hc.le
        _ = _ := by ring
    · calc (roundHalfEven (num * 2 ^ a) (den * 2 ^ b) : ℚ) * 2 ^ b / 2 ^ a
          = (roundHalfEven (num * 2 ^ a) (den * 2 ^ b) : ℚ) * (2 ^ b / 2 ^ a) := by ring
        _ ≤ ((num * 2 ^ a) / (den * 2 ^ b) * (1 + 1 / 2 ^ 53)) * (2 ^ b / 2 ^ a) :=
            mul_le_mul_of_nonneg_right r hc.le
        _ = (num : ℚ) / den * (1 + 1 / 2 ^ 53) := by
            rw [e]; ring
  · have hbr := nearestDouble_normal num den hn
    rw [← ha, ← hb] at hbr
    obtain ⟨l, r⟩ := roundHalfEven_rat (2 * (num * 2 ^ a)) (den * 2 ^ b) hd0 hbr
    simp only [Dbl.toRat]
    push_cast at l r ⊢
    have e : (num : ℚ) / den =
        (2 * (num * 2 ^ a)) / (den * 2 ^ b) * (2 ^ b / 2 ^ (a + 1)) := by
      field_simp
      ring
    have hc : (0 : ℚ) < 2 ^ b / 2 ^ (a + 1) := by positivity
    constructor
    · calc (num : ℚ) / den * (1 - 1 / 2 ^ 53)
          = ((2 * (num * 2 ^ a)) / (den * 2 ^ b) * (1 - 1 / 2 ^ 53)) *
              (2 ^ b / 2 ^ (a + 1)) := by
            rw [e]; ring
        _ ≤ (roundHalfEven (2 * (num * 2 ^ a)) (den * 2 ^ b) : ℚ) * (2 ^ b / 2 ^ (a + 1)) :=
            mul_le_mul_of_nonneg_right l hc.le
        _ = _ := by ring
    · calc (roundHalfEven (2 * (num * 2 ^ a)) (den * 2 ^ b) : ℚ) * 2 ^ b / 2 ^ (a + 1)
          = (roundHalfEven (2 * (num * 2 ^ a)) (den * 2 ^ b) : ℚ) *
              (2 ^ b / 2 ^ (a + 1)) := by ring
        _ ≤ ((2 * (num * 2 ^ a)) / (den * 2 ^ b) * (1 + 1 / 2 ^ 53)) *
              (2 ^ b / 2 ^ (a + 1)) :=
            mul_le_mul_of_nonneg_right r hc.le
        _ = (num : ℚ) / den * (1 + 1 / 2 ^ 53) := by
            rw [e]; ring
theorem Dbl.round_bounds (d : Dbl) :
    (d.round : ℚ) ≤ d.toRat + 1 / 2 ∧ d.toRat + 1 / 2 < (d.round : ℚ) + 1 := by
  have hD : 0 < 2 * 2 ^ d.down := by positivity
  have h1 : d.round * (2 * 2 ^ d.down) ≤ 2 * (d.mant * 2 ^ d.up) + 2 ^ d.down :=
    Nat.div_mul_le_self _ _
  have h2 : 2 * (d.mant * 2 ^ d.up) + 2 ^ d.down < (d.round + 1) * (2 * 2 ^ d.down) := by
    have := Nat.lt_div_mul_add (a := 2 * (d.mant * 2 ^ d.up) + 2 ^ d.down) hD
    unfold Dbl.round
    rw [Nat.add_mul, Nat.one_mul]
    exact this
  have h1q : (d.round : ℚ) * (2 * 2 ^ d.down) ≤ 2 * (d.mant * 2 ^ d.up) + 2 ^ d.down := by
    exact_mod_cast h1
  have h2q : (2 : ℚ) * (d.mant * 2 ^ d.up) + 2 ^ d.down < (d.round + 1) * (2 * 2 ^ d.down) := by
    exact_mod_cast h2
  have hp : (0 : ℚ) < 2 ^ d.down := by positivity
  have e : d.toRat + 1 / 2 = (2 * (d.mant * 2 ^ d.up) + 2 ^ d.down) / (2 * 2 ^ d.down) := by
    unfold Dbl.toRat
    field_simp
    ring
  have hpos : (0 : ℚ) < 2 * 2 ^ d.down := by positivity
  rw [e]
  constructor
  · rw [le_div_iff₀ hpos]
    exact h1q
  · rw [div_lt_iff₀ hpos]
    exact h2q

theorem exactPercentage_bounds (s t : Nat) (ht : 0 < t) :
    (exactPercentage s t : ℚ) * (2 * t) ≤ 200 * s + t ∧
      (200 * s + t + 1 : ℚ) ≤ ((exactPercentage s t : ℚ) + 1) * (2 * t) ∧
      ((200 * s + t) % (2 * t) ≠ 0 →
        (exactPercentage s t : ℚ) * (2 * t) + 1 ≤ 200 * s + t) := by
  have hD : 0 < 2 * t := by omega
  have h1 : exactPercentage s t * (2 * t) ≤ 200 * s + t := Nat.div_mul_le_self _ _
  have h2 : 200 * s + t < (exactPercentage s t + 1) * (2 * t) := by
    have := Nat.lt_div_mul_add (a := 200 * s + t) hD
    unfold exactPercentage
    rw [Nat.add_mul, Nat.one_mul]
    exact this
  have h3 : (200 * s + t) % (2 * t) ≠ 0 →
      exactPercentage s t * (2 * t) + 1 ≤ 200 * s + t := by
    intro hne
    have := Nat.div_add_mod (200 * s + t) (2 * t)
    have hc : exactPercentage s t * (2 * t) = 2 * t * ((200 * s + t) / (2 * t)) := by
      unfold exactPercentage
      ring
    rw [hc]
    omega
  refine ⟨by exact_mod_cast h1, by exact_mod_cast h2, fun hne => ?_⟩
  exact_mod_cast h3 hne

/-- The computed percentage against the exact one: for a total of at most `2^43`
the double-precision result is the exact rounding or one below it, and it is the
exact rounding whenever `score / total * 100` is not halfway between two
integers. -/
theorem percentage_near_exact (s t : Nat) (ht : 0 < t) (hst : s ≤ t) (hb : t ≤ 2 ^ 43) :
    ∃ p, percentage s t = some p ∧ p ≤ exactPercentage s t ∧
      exactPercentage s t ≤ p + 1 ∧
      ((200 * s + t) % (2 * t) ≠ 0 → p = exactPercentage s t) := by
  have ht0 : t ≠ 0 := by omega
  unfold percentage
  simp only [ht0, if_false]
  refine ⟨_, rfl, ?_⟩
  by_cases hs : s = 0
  · subst hs
    have e1 : ((nearestDouble 0 t).mulNat 100).round = 0 := by
      simp [nearestDouble, Dbl.mulNat, Dbl.round]
    have e2 : exactPercentage 0 t = 0 := by
      unfold exactPercentage
      simp only [Nat.mul_zero, Nat.zero_add]
      exact Nat.div_eq_of_lt (by omega)
    rw [e1, e2]
    simp
  · have hspos : 0 < s := by omega
    obtain ⟨ql, qu⟩ := nearestDouble_bounds s t hspos ht
    set q := nearestDouble s t with hq
    have hsq : (0 : ℚ) < s := by exact_mod_cast hspos
    have htq : (0 : ℚ) < t := by exact_mod_cast ht
    have hstq : (s : ℚ) ≤ t := by exact_mod_cast hst
    have hbq : (t : ℚ) ≤ 2 ^ 43 := by exact_mod_cast hb
    have hx0 : (0 : ℚ) < (s : ℚ) / t := by positivity
    have hx1 : (s : ℚ) / t ≤ 1 := by
      rw [div_le_one htq]
      exact hstq
    have hqpos : (0 : ℚ) < q.toRat := by
      have : (0 : ℚ) < (s : ℚ) / t * (1 - 1 / 2 ^ 53) := by
        apply mul_pos hx0
        norm_num
      linarith
    have hmant : 0 < q.mant := by
      rcases Nat.eq_zero_or_pos q.mant with h0 | h0
      · simp [Dbl.toRat, h0] at hqpos
      · exact h0
    have hnum : 0 < q.mant * 100 * 2 ^ q.up := by positivity
    have hden : 0 < 2 ^ q.down := by positivity
    obtain ⟨pl, pu⟩ := nearestDouble_bounds (q.mant * 100 * 2 ^ q.up) (2 ^ q.down) hnum hden
    have hprod : ((q.mant * 100 * 2 ^ q.up : Nat) : ℚ) / ((2 ^ q.down : Nat) : ℚ) =
        100 * q.toRat := by
      unfold Dbl.toRat
      push_cast
      ring
    rw [hprod] at pl pu
    have hp : q.mulNat 100 = nearestDouble (q.mant * 100 * 2 ^ q.up) (2 ^ q.down) := rfl
    rw [← hp] at pl pu
    set p := q.mulNat 100 with hpdef
    obtain ⟨rl, ru⟩ := Dbl.round_bounds p
    obtain ⟨kl, ku, kt⟩ := exactPercentage_bounds s t ht
    set k := exactPercentage s t with hk
    set r := p.round with hr
    set x : ℚ := (s : ℚ) / t with hx
    have hxT : x * t = s := by
      rw [hx]
      field_simp
    have hT : (1 : ℚ) / 2 ^ 44 ≤ 1 / (2 * t) := by
      apply one_div_le_one_div_of_le (by positivity)
      linarith
    have hPu : p.toRat ≤ 100 * x + 1 / 2 ^ 45 := by
      have : p.toRat ≤ 100 * (x * (1 + 1 / 2 ^ 53)) * (1 + 1 / 2 ^ 53) := by
        calc p.toRat ≤ 100 * q.toRat * (1 + 1 / 2 ^ 53) := pu
          _ ≤ 100 * (x * (1 + 1 / 2 ^ 53)) * (1 + 1 / 2 ^ 53) := by
            apply mul_le_mul_of_nonneg_right _ (by norm_num)
            linarith
      nlinarith
    have hPl : 100 * x - 1 / 2 ^ 45 ≤ p.toRat := by
      have : 100 * (x * (1 - 1 / 2 ^ 53)) * (1 - 1 / 2 ^ 53) ≤ p.toRat := by
        calc 100 * (x * (1 - 1 / 2 ^ 53)) * (1 - 1 / 2 ^ 53)
            ≤ 100 * q.toRat * (1 - 1 / 2 ^ 53) := by
              apply mul_le_mul_of_nonneg_right _ (by norm_num)
              linarith
          _ ≤ p.toRat := pl
      nlinarith
    -- the exact value against its rounding `k`
    have hxk1 : (k : ℚ) ≤ 100 * x + 1 / 2 := by
      have : (k : ℚ) * (2 * t) ≤ (100 * x + 1 / 2) * (2 * t) := by
        calc (k : ℚ) * (2 * t) ≤ 200 * s + t := kl
          _ = (100 * x + 1 / 2) * (2 * t) := by rw [← hxT]; ring
      exact le_of_mul_le_mul_right this (by positivity)
    have hxk2 : 100 * x + 1 / 2 + 1 / (2 * t) ≤ (k : ℚ) + 1 := by
      have : (100 * x + 1 / 2 + 1 / (2 * t)) * (2 * t) ≤ ((k : ℚ) + 1) * (2 * t) := by
        calc (100 * x + 1 / 2 + 1 / (2 * t)) * (2 * t) = 200 * s + t + 1 := by
              rw [← hxT]; field_simp; ring
          _ ≤ ((k : ℚ) + 1) * (2 * t) := ku
      exact le_of_mul_le_mul_right this (by positivity)
    have hrk : r ≤ k := by
      have : (r : ℚ) < (k : ℚ) + 1 := by
        have e : (1 : ℚ) / 2 ^ 45 < 1 / 2 ^ 44 := by norm_num
        linarith
      have : r < k + 1 := by exact_mod_cast this
      omega
    have hkr : k ≤ r + 1 := by
      have : (k : ℚ) < (r : ℚ) + 2 := by
        have e : (1 : ℚ) / 2 ^ 45 < 1 := by norm_num
        linarith
      have : k < r + 2 := by exact_mod_cast this
      omega
    refine ⟨hrk, hkr, fun hne => ?_⟩
    have hxk3 : (k : ℚ) + 1 / (2 * t) ≤ 100 * x + 1 / 2 := by
      have : ((k : ℚ) + 1 / (2 * t)) * (2 * t) ≤ (100 * x + 1 / 2) * (2 * t) := by
        calc ((k : ℚ) + 1 / (2 * t)) * (2 * t) = (k : ℚ) * (2 * t) + 1 := by
              field_simp
          _ ≤ 200 * s + t := kt hne
          _ = (100 * x + 1 / 2) * (2 * t) := by rw [← hxT]; ring
      exact le_of_mul_le_mul_right this (by positivity)
    have : (k : ℚ) < (r : ℚ) + 1 := by
      have e : (1 : ℚ) / 2 ^ 45 < 1 / 2 ^ 44 := by norm_num
      linarith
    have : k < r + 1 := by exact_mod_cast this
    omega

/-- C4, as the code has it: in a 200 response for a submission of at least one and
at most `2^43` entries, the percentage is `Math.round` of the double-precision
product `(score / totalQuestions) * 100`.  It equals the exact value rounded to the
nearest integer whenever the exact value is not halfway between two integers; on
an exact half it is the half rounded up or the integer just below it.  Scenario C
(one correct and one incorrect answer to two generated items) gives score 1,
total 2, percentage 50. -/
theorem submit_percentage_rounding (env : SubmitEnv) (req : SubmitRequest)
    (score total : Nat) (pct : Option Nat) (results : List ResultEntry)
    (h : submit env req = SubmitResponse.ok score total pct results)
    (ht : 0 < total) (hb : total ≤ 2 ^ 43) :
    ∃ p, pct = some p ∧ p ≤ exactPercentage score total ∧
      exactPercentage score total ≤ p + 1 ∧
      ((200 * score + total) % (2 * total) ≠ 0 → p = exactPercentage score total) := by
  obtain ⟨answers, _, htot, hp, hl⟩ := submit_ok_inv env req score total pct results h
  obtain ⟨added, _, hs, hlen, _⟩ := scoreLoop_spec env.fetchQuestion answers _ _ hl
  have hle : score ≤ total := by
    simp only [Nat.zero_add] at hs
    calc score = (added.filter (fun r => r.isCorrect)).length := hs
      _ ≤ added.length := List.length_filter_le _ _
      _ = (answers.filter (resolvable env.fetchQuestion)).length := hlen
      _ ≤ answers.length := List.length_filter_le _ _
      _ = total := htot.symm
  rw [hp]
  exact percentage_near_exact score total ht hle hb

theorem submit_percentage_rounding_witness :
    ∃ p, some 50 = some p ∧ p ≤ exactPercentage 1 2 ∧ exactPercentage 1 2 ≤ p + 1 ∧
      ((200 * 1 + 2) % (2 * 2) ≠ 0 → p = exactPercentage 1 2) :=
  submit_percentage_rounding ⟨true, fun _ => Fetched.notOk, SaveOutcome.saved⟩
    ⟨some [("ai-generated-1700000000000-0-1", JVal.num 1),
      ("ai-generated-1700000000000-1-2", JVal.num 3)], some "UPI Safety"⟩
    1 2 (some 50)
    [⟨"ai-generated-1700000000000-0-1", JVal.num 1, JVal.num 1, true⟩,
      ⟨"ai-generated-1700000000000-1-2", JVal.num 3, JVal.num 2, false⟩]
    rfl (by decide) (by decide)

/-- C4 fails as stated: a submission of 40 generated items of which 23 are answered
correctly gets percentage 57, while `23 / 40 * 100 = 57.5` rounded to the nearest
integer with the half rounded up is 58 (the double-precision product is
`57.49999999999999`). -/
theorem submit_percentage_below_half :
    ∃ results,
      submit ⟨true, fun _ => Fetched.notOk, SaveOutcome.saved⟩
          ⟨some ((List.range 40).map (fun k =>
            (encodeId 1700000000000 k "0", JVal.num (if k < 23 then 0 else 1)))),
            some "Budgeting"⟩ =
        SubmitResponse.ok 23 40 (some 57) results ∧
      exactPercentage 23 40 = 58 :=
  ⟨_, rfl, by decide⟩

/-! ## Quiz generation -/

theorem JVal.member_of_not_nullish (q : JVal) (key : String) (h : q.nullish = false) :
    q.member key = some (q.optMember key) := by
  cases q <;> simp_all [JVal.member, JVal.optMember, JVal.nullish]

theorem JVal.member_of_nullish (q : JVal) (key : String) (h : q.nullish = true) :
    q.member key = none := by
  cases q <;> simp_all [JVal.member, JVal.nullish]

/-- The formatting callback on a question it accepts: every field is the parsed
field when that is truthy and the default otherwise, and the identifier ends in
the text of `correctAnswer || 0`. -/
theorem formatQuestion_of_formattable (category : String) (t i : Nat) (q : JVal)
    (h : formattable q = true) :
    ∃ answerText,
      ((q.optMember "correctAnswer").or (JVal.num 0)).toStr = some answerText ∧
      formatQuestion category t i q = some
        { _id := encodeId t i answerText
          question := (q.optMember "question").or (JVal.str ("Question " ++ toString (i + 1)))
          options := (q.optMember "options").or placeholderOptions
          answer := (q.optMember "correctAnswer").or (JVal.num 0)
          category := category
          explanation := (q.optMember "explanation").or (JVal.str "")
          aiGenerated := true } := by
  unfold formattable at h
  simp only [Bool.and_eq_true, Bool.not_eq_true', Option.isSome_iff_exists] at h
  obtain ⟨hn, txt, htxt⟩ := h
  refine ⟨txt, htxt, ?_⟩
  unfold formatQuestion
  simp only [JVal.member_of_not_nullish q _ hn, htxt]

theorem formatQuestion_eq_none (category : String) (t i : Nat) (q : JVal)
    (h : formattable q = false) : formatQuestion category t i q = none := by
  unfold formattable at h
  unfold formatQuestion
  cases hn : q.nullish
  · simp only [hn, Bool.not_false, Bool.true_and] at h
    simp only [JVal.member_of_not_nullish q _ hn]
    cases ht : ((q.optMember "correctAnswer").or (JVal.num 0)).toStr
    · rfl
    · simp [ht] at h
  · simp only [JVal.member_of_nullish q _ hn]

theorem formatQuestions_of_formattable (category : String) (now : Nat → Nat) :
    ∀ (qs : List JVal) (start : Nat), (∀ q ∈ qs, formattable q = true) →
      ∃ items, formatQuestions category now start qs = some items ∧
        items.length = qs.length ∧
        ∀ (i : Nat) (q : JVal), qs[i]? = some q →
          ∃ item, items[i]? = some item ∧
            formatQuestion category (now (start + i)) (start + i) q = some item := by
  intro qs
  induction qs with
  | nil =>
    intro start _
    exact ⟨[], rfl, rfl, by simp⟩
  | cons q rest ih =>
    intro start h
    obtain ⟨item0, hq⟩ : ∃ item, formatQuestion category (now start) start q = some item := by
      obtain ⟨txt, _, hq⟩ := formatQuestion_of_formattable category (now start) start q
        (h q (by simp))
      exact ⟨_, hq⟩
    obtain ⟨items, hi, hl, hp⟩ := ih (start + 1) (fun x hx => h x (by simp [hx]))
    refine ⟨item0 :: items, by simp only [formatQuestions, hq, hi], by simp [hl], ?_⟩
    intro i x hx
    cases i with
    | zero =>
      simp only [List.getElem?_cons_zero, Option.some.injEq] at hx
      subst hx
      exact ⟨item0, by simp, by simpa using hq⟩
    | succ j =>
      simp only [List.getElem?_cons_succ] at hx
      obtain ⟨item, h1, h2⟩ := hp j x hx
      refine ⟨item, by simpa using h1, ?_⟩
      have e : start + (j + 1) = start + 1 + j := by omega
      rw [e]
      exact h2

theorem formatQuestions_eq_none (category : String) (now : Nat → Nat) :
    ∀ (qs : List JVal) (start : Nat), (∃ q ∈ qs, formattable q = false) →
      formatQuestions category now start qs = none := by
  intro qs
  induction qs with
  | nil =>
    intro start h
    obtain ⟨q, hq, _⟩ := h
    simp at hq
  | cons q rest ih =>
    intro start h
    unfold formatQuestions
    cases hf : formattable q
    · simp [formatQuestion_eq_none category (now start) start q hf]
    · obtain ⟨x, hx, hxf⟩ := h
      have hx2 : x ∈ rest := by
        rcases List.mem_cons.mp hx with e | e
        · subst e
          rw [hf] at hxf
          exact absurd hxf (by simp)
        · exact e
      rw [ih (start + 1) ⟨x, hx2, hxf⟩]
      cases formatQuestion category (now start) start q <;> rfl

/-- The handler once the model call has succeeded and the reply text is read: the
response is decided by the extraction and the formatting. -/
theorem generateQuestions_of_reply (env : GenEnv) (req : GenerateRequest)
    (category : String) (data ai : JVal)
    (hc : req.category = some category) (hne : category ≠ "")
    (ht : env.tokenOk = true) (hr : env.reply = ModelReply.ok (some data))
    (ha : aiResponse data = some ai) :
    generateQuestions env req =
      match extractQuestions env.jsonParse category (req.count.getD 5) ai with
      | none => GenerateResponse.serverError
      | some questions =>
        match formatQuestions category env.now 0 questions with
        | none => GenerateResponse.serverError
        | some items => GenerateResponse.ok items category := by
  unfold generateQuestions
  simp only [hc, hne, if_false, ht, if_true, hr, ha]

theorem fallbackBank_mem (category : String) :
    fallbackBank category ∈ [upiSafetyBank, budgetingBank, onlineSafetyBank,
      interestRatesBank, digitalBankingBank, investmentBasicsBank] := by
  unfold fallbackBank fallbackQuestions
  simp only [List.lookup]
  repeat' split
  all_goals simp

theorem fallbackBank_length (category : String) : (fallbackBank category).length = 5 := by
  have h : ∀ b ∈ [upiSafetyBank, budgetingBank, onlineSafetyBank,
      interestRatesBank, digitalBankingBank, investmentBasicsBank], b.length = 5 := by
    decide
  exact h _ (fallbackBank_mem category)

theorem fallbackBank_formattable (category : String) :
    ∀ q ∈ fallbackBank category, formattable q = true := by
  have h : ∀ b ∈ [upiSafetyBank, budgetingBank, onlineSafetyBank,
      interestRatesBank, digitalBankingBank, investmentBasicsBank],
      b.all formattable = true := by
    decide
  intro q hq
  exact List.all_eq_true.mp (h _ (fallbackBank_mem category)) q hq

/-- The fallback for a category whose name is not inherited from
`Object.prototype` and a non-negative count: the first `count` items of the
category's bank (of the `Online Safety` bank for an unknown category). -/
theorem generateFallbackQuestions_of_own (category : String) (count : Int)
    (hkey : category ∉ objectPrototypeKeys) (hcount : 0 ≤ count) :
    generateFallbackQuestions category count =
      some ((fallbackBank category).take count.toNat) := by
  unfold generateFallbackQuestions lookupBank fallbackBank sliceTo
  have hlt : ¬ count < 0 := by omega
  cases hl : fallbackQuestions.lookup category with
  | some items => simp [hlt]
  | none =>
    simp [hkey, hlt]

theorem generateFallbackQuestions_of_inherited (category : String) (count : Int)
    (hkey : category ∈ objectPrototypeKeys) :
    generateFallbackQuestions category count = none := by
  have h : ∀ k ∈ objectPrototypeKeys, ∀ c : Int, generateFallbackQuestions k c = none := by
    intro k hk c
    simp only [objectPrototypeKeys, List.mem_cons, List.mem_singleton, List.not_mem_nil,
      or_false] at hk
    rcases hk with h | h | h | h | h | h | h | h | h | h | h | h <;> subst h <;> rfl
  exact h category hkey count

/-- When the inner `try` throws, the handler serves the fallback bank: for a
category whose name is not inherited and a count of at least 1 the response
carries the first `min count 5` items of the bank, formatted. -/
theorem generateQuestions_fallback (env : GenEnv) (req : GenerateRequest)
    (category : String) (data ai : JVal)
    (hc : req.category = some category) (hne : category ≠ "")
    (hkey : category ∉ objectPrototypeKeys) (hcount : 0 ≤ req.count.getD 5)
    (ht : env.tokenOk = true) (hr : env.reply = ModelReply.ok (some data))
    (ha : aiResponse data = some ai)
    (hp : parseQuestions env.jsonParse ai = none) :
    ∃ items, generateQuestions env req = GenerateResponse.ok items category ∧
      formatQuestions category env.now 0
        ((fallbackBank category).take (req.count.getD 5).toNat) = some items ∧
      items.length = min (req.count.getD 5).toNat 5 := by
  have hq : extractQuestions env.jsonParse category (req.count.getD 5) ai =
      some ((fallbackBank category).take (req.count.getD 5).toNat) := by
    unfold extractQuestions
    rw [hp]
    exact generateFallbackQuestions_of_own category _ hkey hcount
  obtain ⟨items, hi, hl, _⟩ := formatQuestions_of_formattable category env.now
    ((fallbackBank category).take (req.count.getD 5).toNat) 0
    (fun q hq => fallbackBank_formattable category q (List.mem_of_mem_take hq))
  refine ⟨items, ?_, hi, ?_⟩
  · rw [generateQuestions_of_reply env req category data ai hc hne ht hr ha, hq]
    simp only [hi]
  · rw [hl, List.length_take, fallbackBank_length]

/-- C5 fails on the code: for every category and count, when the model endpoint
answers with a non-success status (or the request to it fails) the handler
responds with status 500 and no items.  The exception is thrown before the inner
`try`, so the fallback generator, which the code introduces as the function that
serves basic questions if the AI fails, is never reached on that path. -/
theorem generate_model_failure_is_error (env : GenEnv) (req : GenerateRequest)
    (category : String) (hc : req.category = some category) (hne : category ≠ "")
    (hr : env.reply = ModelReply.notOk ∨ env.reply = ModelReply.failed) :
    generateQuestions env req = GenerateResponse.serverError := by
  unfold generateQuestions
  simp only [hc, hne, if_false]
  rcases hr with h | h <;> rw [h] <;> cases env.tokenOk <;> rfl

theorem generate_model_failure_is_error_witness :
    generateQuestions ⟨true, ModelReply.notOk, fun _ => none, fun _ => 1700000000000⟩
      ⟨some "UPI Safety", some 3⟩ = GenerateResponse.serverError :=
  generate_model_failure_is_error _ _ "UPI Safety" rfl (by decide) (Or.inl rfl)

/-- The failing input of C5: with a non-success reply of the model endpoint, a request
for 3 `UPI Safety` items gets no item list at all (the response is the 500 error),
where the first 3 items of the `UPI Safety` bank were expected. -/
theorem generate_not_ok_serves_no_fallback :
    ¬ ∃ items,
      generateQuestions ⟨true, ModelReply.notOk, fun _ => none, fun _ => 1700000000000⟩
        ⟨some "UPI Safety", some 3⟩ = GenerateResponse.ok items "UPI Safety" := by
  rintro ⟨items, h⟩
  have e : generateQuestions ⟨true, ModelReply.notOk, fun _ => none, fun _ => 1700000000000⟩
      ⟨some "UPI Safety", some 3⟩ = GenerateResponse.serverError := rfl
  rw [e] at h
  cases h

/-- C6, as the code has it: once the model call has succeeded, for a count of at
least 1 and a category whose name is not inherited from `Object.prototype`, the
handler returns a non-empty item set, the first `count` items of the fallback bank,
whenever the inner `try` throws (no bracketed span, a parse error, a reply that is
not text); when the span parses to the empty array the handler returns the empty
item set and the fallback bank is not substituted. -/
theorem generate_nonempty_on_fallback (env : GenEnv) (req : GenerateRequest)
    (category : String) (data ai : JVal)
    (hc : req.category = some category) (hne : category ≠ "")
    (hkey : category ∉ objectPrototypeKeys) (hcount : 1 ≤ req.count.getD 5)
    (ht : env.tokenOk = true) (hr : env.reply = ModelReply.ok (some data))
    (ha : aiResponse data = some ai) :
    (parseQuestions env.jsonParse ai = none →
      ∃ items, generateQuestions env req = GenerateResponse.ok items category ∧
        items ≠ [] ∧
        formatQuestions category env.now 0
          ((fallbackBank category).take (req.count.getD 5).toNat) = some items) ∧
    (parseQuestions env.jsonParse ai = some [] →
      generateQuestions env req = GenerateResponse.ok [] category) := by
  constructor
  · intro hp
    obtain ⟨items, h1, h2, h3⟩ := generateQuestions_fallback env req category data ai hc hne
      hkey (by omega) ht hr ha hp
    refine ⟨items, h1, ?_, h2⟩
    intro hnil
    rw [hnil] at h3
    have : 1 ≤ (req.count.getD 5).toNat := by omega
    simp only [List.length_nil] at h3
    omega
  · intro hp
    rw [generateQuestions_of_reply env req category data ai hc hne ht hr ha]
    unfold extractQuestions
    rw [hp]
    rfl

theorem generate_nonempty_on_fallback_witness :
    (parseQuestions (fun _ => none) (JVal.str "I have no questions today.") = none →
      ∃ items,
        generateQuestions
          ⟨true, ModelReply.ok (some (chatReply "I have no questions today.")),
            fun _ => none, fun _ => 1700000000000⟩
          ⟨some "Budgeting", some 2⟩ = GenerateResponse.ok items "Budgeting" ∧
        items ≠ [] ∧
        formatQuestions "Budgeting" (fun _ => 1700000000000) 0
          ((fallbackBank "Budgeting").take ((some (2 : Int)).getD 5).toNat) = some items) ∧
    (parseQuestions (fun _ => none) (JVal.str "I have no questions today.") = some [] →
      generateQuestions
        ⟨true, ModelReply.ok (some (chatReply "I have no questions today.")),
          fun _ => none, fun _ => 1700000000000⟩
        ⟨some "Budgeting", some 2⟩ = GenerateResponse.ok [] "Budgeting") :=
  generate_nonempty_on_fallback
    ⟨true, ModelReply.ok (some (chatReply "I have no questions today.")),
      fun _ => none, fun _ => 1700000000000⟩
    ⟨some "Budgeting", some 2⟩ "Budgeting" (chatReply "I have no questions today.")
    (JVal.str "I have no questions today.") rfl (by decide) (by decide) (by decide) rfl rfl rfl

/-- C6 fails as stated: when the model text is `[]`, which `JSON.parse` reads as the
empty array, a request for 3 `UPI Safety` items is answered with the empty item
set; no environment makes the handler answer anything else. -/
theorem generate_empty_array_is_served :
    ¬ ∃ env : GenEnv,
      env.tokenOk = true ∧ env.reply = ModelReply.ok (some (chatReply "[]")) ∧
      env.jsonParse "[]" = some [] ∧
      generateQuestions env ⟨some "UPI Safety", some 3⟩ ≠
        GenerateResponse.ok [] "UPI Safety" := by
  rintro ⟨env, ht, hr, hj, hne⟩
  apply hne
  rw [generateQuestions_of_reply env ⟨some "UPI Safety", some 3⟩ "UPI Safety"
    (chatReply "[]") (JVal.str "[]") rfl (by decide) ht hr rfl]
  have hp : parseQuestions env.jsonParse (JVal.str "[]") = some [] := by
    have hs : matchBracketSpan (cleanResponse "[]".data) = some "[]".data := by decide
    simp only [parseQuestions, hs]
    exact hj
  unfold extractQuestions
  rw [hp]
  rfl

/-- C7 fails on the code: when the model text is `[null]`, which `JSON.parse` reads as
an array holding `null`, the formatting step throws on `q.correctAnswer` and the
request for 3 `UPI Safety` items is answered with the 500 error; no environment
makes the handler answer anything else. -/
theorem generate_null_element_is_error :
    ¬ ∃ env : GenEnv,
      env.tokenOk = true ∧ env.reply = ModelReply.ok (some (chatReply "[null]")) ∧
      env.jsonParse "[null]" = some [JVal.null] ∧
      generateQuestions env ⟨some "UPI Safety", some 3⟩ ≠ GenerateResponse.serverError := by
  rintro ⟨env, ht, hr, hj, hne⟩
  apply hne
  rw [generateQuestions_of_reply env ⟨some "UPI Safety", some 3⟩ "UPI Safety"
    (chatReply "[null]") (JVal.str "[null]") rfl (by decide) ht hr rfl]
  have hp : parseQuestions env.jsonParse (JVal.str "[null]") = some [JVal.null] := by
    have hs : matchBracketSpan (cleanResponse "[null]".data) = some "[null]".data := by decide
    simp only [parseQuestions, hs]
    exact hj
  unfold extractQuestions
  rw [hp]
  rfl

/-- C8 fails on the code: when the model text has no bracketed span and the requested
category is `constructor`, a name every object literal inherits, the fallback reads
the inherited member instead of defaulting to the `Online Safety` bank, the call of
`slice` throws, and the request is answered with the 500 error instead of the first
3 items of the `Online Safety` bank. -/
theorem generate_inherited_category_is_error :
    generateFallbackQuestions "constructor" 3 = none ∧
    ¬ ∃ env : GenEnv,
      env.tokenOk = true ∧
      env.reply = ModelReply.ok (some (chatReply "Sorry, I cannot help with that.")) ∧
      generateQuestions env ⟨some "constructor", some 3⟩ ≠ GenerateResponse.serverError := by
  refine ⟨rfl, ?_⟩
  rintro ⟨env, ht, hr, hne⟩
  apply hne
  rw [generateQuestions_of_reply env ⟨some "constructor", some 3⟩ "constructor"
    (chatReply "Sorry, I cannot help with that.")
    (JVal.str "Sorry, I cannot help with that.") rfl (by decide) ht hr rfl]
  have hp : parseQuestions env.jsonParse (JVal.str "Sorry, I cannot help with that.") =
      none := by
    have hs : matchBracketSpan (cleanResponse "Sorry, I cannot help with that.".data) =
        none := by decide
    simp only [parseQuestions, hs]
  unfold extractQuestions
  rw [hp]
  rfl

theorem formatQuestion_some_inv (category : String) (t i : Nat) (q : JVal) (item : QuizItem)
    (h : formatQuestion category t i q = some item) :
    formattable q = true ∧ NormalizedIfTruthy i q item ∧ item.category = category ∧
      ∃ answerText, item.answer.toStr = some answerText ∧
        item._id = encodeId t i answerText := by
  cases hf : formattable q with
  | false =>
    rw [formatQuestion_eq_none category t i q hf] at h
    cases h
  | true =>
    obtain ⟨txt, htxt, hq⟩ := formatQuestion_of_formattable category t i q hf
    rw [hq] at h
    injection h with h
    subst h
    exact ⟨rfl, ⟨rfl, rfl, rfl, rfl⟩, rfl, txt, htxt, rfl⟩

/-- The handler on a reply whose bracketed span parses to an array of questions the
formatting accepts: the response carries one item per parsed question, in order,
the item at position `i` being the formatted question at position `i`. -/
theorem generateQuestions_parsed (env : GenEnv) (req : GenerateRequest)
    (category : String) (data ai : JVal) (qs : List JVal)
    (hc : req.category = some category) (hne : category ≠ "")
    (ht : env.tokenOk = true) (hr : env.reply = ModelReply.ok (some data))
    (ha : aiResponse data = some ai)
    (hp : parseQuestions env.jsonParse ai = some qs)
    (hf : ∀ q ∈ qs, formattable q = true) :
    ∃ items, generateQuestions env req = GenerateResponse.ok items category ∧
      items.length = qs.length ∧
      ∀ (i : Nat) (q : JVal), qs[i]? = some q →
        ∃ item, items[i]? = some item ∧
          formatQuestion category (env.now i) i q = some item := by
  obtain ⟨items, hi, hl, hpt⟩ := formatQuestions_of_formattable category env.now qs 0 hf
  refine ⟨items, ?_, hl, ?_⟩
  · rw [generateQuestions_of_reply env req category data ai hc hne ht hr ha]
    unfold extractQuestions
    rw [hp]
    simp only [hi]
  · intro i q hq
    obtain ⟨item, h1, h2⟩ := hpt i q hq
    rw [Nat.zero_add] at h2
    exact ⟨item, h1, h2⟩

/-- C9, as the code has it: for every successfully parsed array whose elements the
formatting accepts (none is `null`), the response keeps the array's length and
order, and the item at position `i` has question = the parsed question if it is
truthy, else `Question <i+1>`; options = the parsed options if truthy, else the
4-slot placeholder array; answer = the parsed correctAnswer if truthy, else 0;
explanation = the parsed explanation if truthy, else the empty string.  A parsed
field that is present but falsy (an empty question, say) is replaced by its
default. -/
theorem generate_normalizes_truthy_fields (env : GenEnv) (req : GenerateRequest)
    (category : String) (data ai : JVal) (qs : List JVal)
    (hc : req.category = some category) (hne : category ≠ "")
    (ht : env.tokenOk = true) (hr : env.reply = ModelReply.ok (some data))
    (ha : aiResponse data = some ai)
    (hp : parseQuestions env.jsonParse ai = some qs)
    (hf : ∀ q ∈ qs, formattable q = true) :
    ∃ items, generateQuestions env req = GenerateResponse.ok items category ∧
      items.length = qs.length ∧
      ∀ (i : Nat) (q : JVal), qs[i]? = some q →
        ∃ item, items[i]? = some item ∧ NormalizedIfTruthy i q item := by
  obtain ⟨items, h1, h2, h3⟩ :=
    generateQuestions_parsed env req category data ai qs hc hne ht hr ha hp hf
  refine ⟨items, h1, h2, fun i q hq => ?_⟩
  obtain ⟨item, hi, hfq⟩ := h3 i q hq
  exact ⟨item, hi, (formatQuestion_some_inv category _ i q item hfq).2.1⟩

theorem generate_normalizes_truthy_fields_witness :
    ∃ items,
      generateQuestions
          ⟨true,
            ModelReply.ok (some (chatReply
              "[\x7b\"question\":\"What is a budget?\",\"correctAnswer\":2\x7d]")),
            fun _ => some [JVal.obj [("question", JVal.str "What is a budget?"),
              ("correctAnswer", JVal.num 2)]],
            fun _ => 1700000000000⟩
          ⟨some "Budgeting", none⟩ = GenerateResponse.ok items "Budgeting" ∧
      items.length = [JVal.obj [("question", JVal.str "What is a budget?"),
          ("correctAnswer", JVal.num 2)]].length ∧
      ∀ (i : Nat) (q : JVal),
        [JVal.obj [("question", JVal.str "What is a budget?"),
          ("correctAnswer", JVal.num 2)]][i]? = some q →
        ∃ item, items[i]? = some item ∧ NormalizedIfTruthy i q item :=
  generate_normalizes_truthy_fields
    ⟨true,
      ModelReply.ok (some (chatReply
        "[\x7b\"question\":\"What is a budget?\",\"correctAnswer\":2\x7d]")),
      fun _ => some [JVal.obj [("question", JVal.str "What is a budget?"),
        ("correctAnswer", JVal.num 2)]],
      fun _ => 1700000000000⟩
    ⟨some "Budgeting", none⟩ "Budgeting"
    (chatReply "[\x7b\"question\":\"What is a budget?\",\"correctAnswer\":2\x7d]")
    (JVal.str "[\x7b\"question\":\"What is a budget?\",\"correctAnswer\":2\x7d]")
    [JVal.obj [("question", JVal.str "What is a budget?"), ("correctAnswer", JVal.num 2)]]
    rfl (by decide) rfl rfl rfl rfl (by decide)

/-- C9 fails as stated: a parsed record whose `question` is present but is the empty
string is returned with the question `Question 1`, while the field-wise reference
definition ("the parsed question if present") keeps the empty string. -/
theorem normalization_replaces_empty_question :
    ∃ item,
      formatQuestions "Budgeting" (fun _ => 1700000000000) 0
          [JVal.obj [("question", JVal.str ""),
            ("options", JVal.arr [JVal.str "Rent", JVal.str "Cinema", JVal.str "Games",
              JVal.str "Travel"]),
            ("correctAnswer", JVal.num 2), ("explanation", JVal.str "Rent is a need.")]] =
        some [item] ∧
      item.question = JVal.str "Question 1" ∧
      presentOr ((JVal.obj [("question", JVal.str ""),
            ("options", JVal.arr [JVal.str "Rent", JVal.str "Cinema", JVal.str "Games",
              JVal.str "Travel"]),
            ("correctAnswer", JVal.num 2),
            ("explanation", JVal.str "Rent is a need.")]).optMember "question")
          (JVal.str "Question 1") = JVal.str "" ∧
      ¬ NormalizedIfPresent 0
          (JVal.obj [("question", JVal.str ""),
            ("options", JVal.arr [JVal.str "Rent", JVal.str "Cinema", JVal.str "Games",
              JVal.str "Travel"]),
            ("correctAnswer", JVal.num 2), ("explanation", JVal.str "Rent is a need.")])
          item := by
  refine ⟨_, rfl, rfl, rfl, ?_⟩
  rintro ⟨h, _⟩
  have e : JVal.str "Question 1" = JVal.str "" := h
  injection e with e
  exact absurd e (by decide)

/-- C10, as the code has it: for every successfully parsed array whose elements the
formatting accepts, an item whose parsed `options` is missing (or falsy) is given
the 4-slot placeholder array and so has exactly 4 options, and an item whose parsed
`options` is truthy keeps it unchanged, whatever its number of entries. -/
theorem generate_options_placeholder_only_when_falsy (env : GenEnv) (req : GenerateRequest)
    (category : String) (data ai : JVal) (qs : List JVal)
    (hc : req.category = some category) (hne : category ≠ "")
    (ht : env.tokenOk = true) (hr : env.reply = ModelReply.ok (some data))
    (ha : aiResponse data = some ai)
    (hp : parseQuestions env.jsonParse ai = some qs)
    (hf : ∀ q ∈ qs, formattable q = true) :
    ∃ items, generateQuestions env req = GenerateResponse.ok items category ∧
      ∀ (i : Nat) (q : JVal), qs[i]? = some q →
        ∃ item, items[i]? = some item ∧
          ((q.optMember "options").truthy = false →
            item.options = placeholderOptions ∧ item.options.arrayLength = some 4) ∧
          ((q.optMember "options").truthy = true →
            item.options = q.optMember "options") := by
  obtain ⟨items, h1, _, h3⟩ :=
    generateQuestions_parsed env req category data ai qs hc hne ht hr ha hp hf
  refine ⟨items, h1, fun i q hq => ?_⟩
  obtain ⟨item, hi, hfq⟩ := h3 i q hq
  obtain ⟨_, ho, _, _⟩ := (formatQuestion_some_inv category _ i q item hfq).2.1
  refine ⟨item, hi, ?_, ?_⟩
  · intro hfalse
    have : item.options = placeholderOptions := by
      rw [ho]
      simp [JVal.or, hfalse]
    exact ⟨this, by rw [this]; rfl⟩
  · intro htrue
    rw [ho]
    simp [JVal.or, htrue]

theorem generate_options_placeholder_only_when_falsy_witness :
    ∃ items,
      generateQuestions
          ⟨true, ModelReply.ok (some (chatReply "[true]")),
            fun _ => some [JVal.bool true], fun _ => 1700000000000⟩
          ⟨some "Online Safety", some 1⟩ = GenerateResponse.ok items "Online Safety" ∧
      ∀ (i : Nat) (q : JVal), [JVal.bool true][i]? = some q →
        ∃ item, items[i]? = some item ∧
          ((q.optMember "options").truthy = false →
            item.options = placeholderOptions ∧ item.options.arrayLength = some 4) ∧
          ((q.optMember "options").truthy = true →
            item.options = q.optMember "options") :=
  generate_options_placeholder_only_when_falsy
    ⟨true, ModelReply.ok (some (chatReply "[true]")),
      fun _ => some [JVal.bool true], fun _ => 1700000000000⟩
    ⟨some "Online Safety", some 1⟩ "Online Safety" (chatReply "[true]") (JVal.str "[true]")
    [JVal.bool true] rfl (by decide) rfl rfl rfl rfl (by decide)

/-- C10 fails as stated: a parsed record whose `options` has two entries is returned
with those two options, not with the 4-slot placeholder array. -/
theorem normalization_keeps_short_options :
    ∃ item,
      formatQuestions "Budgeting" (fun _ => 1700000000000) 0
          [JVal.obj [("question", JVal.str "Is a budget useful?"),
            ("options", JVal.arr [JVal.str "Yes", JVal.str "No"]),
            ("correctAnswer", JVal.num 0), ("explanation", JVal.str "It is.")]] =
        some [item] ∧
      item.options = JVal.arr [JVal.str "Yes", JVal.str "No"] ∧
      item.options.arrayLength = some 2 :=
  ⟨_, rfl, rfl, rfl⟩

/-! ## The bracket scan -/

theorem replaceTripleQuotes_sublist (s : List Char) :
    (replaceTripleQuotes s).Sublist s := by
  induction s using replaceTripleQuotes.induct with
  | case1 => exact List.Sublist.refl _
  | case2 a => exact List.Sublist.refl _
  | case3 a b => exact List.Sublist.refl _
  | case4 a b c rest h ih =>
    rw [replaceTripleQuotes, if_pos h]
    obtain ⟨ha, _, _⟩ := h
    subst ha
    exact List.Sublist.cons₂ _ ((ih.cons _).cons _)
  | case5 a b c rest h ih =>
    rw [replaceTripleQuotes, if_neg h]
    exact List.Sublist.cons₂ _ ih

theorem cleanResponse_sublist (s : List Char) : (cleanResponse s).Sublist s := by
  unfold cleanResponse
  split
  · exact replaceTripleQuotes_sublist s
  · exact List.Sublist.refl _

theorem dropWhile_ne_head (x : Char) (s tail : List Char) (c : Char)
    (h : s.dropWhile (fun y => y != x) = c :: tail) : c = x := by
  induction s with
  | nil => simp at h
  | cons y ys ih =>
    rw [List.dropWhile_cons] at h
    split at h
    · exact ih h
    · rename_i hy
      injection h with h1 _
      subst h1
      simpa using hy

/-- A match of the bracket scan shows a `[` followed later by a `]` in the text. -/
theorem matchBracketSpan_some_sublist (s span : List Char)
    (h : matchBracketSpan s = some span) : ['[', ']'].Sublist s := by
  unfold matchBracketSpan at h
  cases hd : s.dropWhile (fun c => c != '[') with
  | nil => simp [hd] at h
  | cons x tail =>
    simp only [hd] at h
    have hx : x = '[' := dropWhile_ne_head '[' s tail x hd
    cases hr : tail.reverse.dropWhile (fun c => c != ']') with
    | nil => simp [hr] at h
    | cons c revInner =>
      have hc : c = ']' := dropWhile_ne_head ']' tail.reverse revInner c hr
      have hmem : ']' ∈ tail := by
        have : c ∈ tail.reverse := by
          have hs := List.dropWhile_sublist (l := tail.reverse) (fun c => c != ']')
          rw [hr] at hs
          exact hs.subset (by simp)
        rw [hc] at this
        simpa using this
      have h1 : ['[', ']'].Sublist ('[' :: tail) :=
        List.Sublist.cons₂ _ (List.singleton_sublist.mpr hmem)
      have h2 : ('[' :: tail).Sublist s := by
        rw [← hx, ← hd]
        exact List.dropWhile_sublist _
      exact h1.trans h2

/-- A text in which no `[` is followed later by a `]` has no bracketed span, before
and after the cleaning step. -/
theorem matchBracketSpan_cleanResponse_none (s : List Char)
    (h : ¬ ['[', ']'].Sublist s) : matchBracketSpan (cleanResponse s) = none := by
  cases hm : matchBracketSpan (cleanResponse s) with
  | none => rfl
  | some span =>
    exact absurd ((matchBracketSpan_some_sublist _ span hm).trans (cleanResponse_sublist s)) h

/-- For a model text in which no `[` is followed later by a `]`, a category whose
name is not inherited from `Object.prototype` and a non-negative count, the items
served are the first `min count 5` entries, in order, of the fallback bank of the
category (of the `Online Safety` bank when the category has no bank), formatted. -/
theorem generate_no_span_serves_bank (env : GenEnv) (req : GenerateRequest)
    (category : String) (data : JVal) (text : String)
    (hc : req.category = some category) (hne : category ≠ "")
    (hkey : category ∉ objectPrototypeKeys) (hcount : 0 ≤ req.count.getD 5)
    (ht : env.tokenOk = true) (hr : env.reply = ModelReply.ok (some data))
    (ha : aiResponse data = some (JVal.str text))
    (hspan : ¬ ['[', ']'].Sublist text.data) :
    ∃ items, generateQuestions env req = GenerateResponse.ok items category ∧
      formatQuestions category env.now 0
        ((fallbackBank category).take (req.count.getD 5).toNat) = some items ∧
      items.length = min (req.count.getD 5).toNat 5 := by
  apply generateQuestions_fallback env req category data (JVal.str text) hc hne hkey hcount
    ht hr ha
  simp only [parseQuestions, matchBracketSpan_cleanResponse_none text.data hspan]

/-! ## The answer field and the decoding default -/

/-- C11, as the code has it: for every successfully parsed array whose elements the
formatting accepts, every returned item's `answer` is the parsed `correctAnswer`
when that is truthy and 0 otherwise; the handler applies no range check, so the
`answer` is an integer in [0,3] exactly when the parsed `correctAnswer` is falsy or
is itself an integer in [0,3]. -/
theorem generate_answer_is_parsed_or_zero (env : GenEnv) (req : GenerateRequest)
    (category : String) (data ai : JVal) (qs : List JVal)
    (hc : req.category = some category) (hne : category ≠ "")
    (ht : env.tokenOk = true) (hr : env.reply = ModelReply.ok (some data))
    (ha : aiResponse data = some ai)
    (hp : parseQuestions env.jsonParse ai = some qs)
    (hf : ∀ q ∈ qs, formattable q = true) :
    ∃ items, generateQuestions env req = GenerateResponse.ok items category ∧
      ∀ (i : Nat) (q : JVal), qs[i]? = some q →
        ∃ item, items[i]? = some item ∧
          item.answer = (q.optMember "correctAnswer").or (JVal.num 0) ∧
          isOptionIndex item.answer =
            (!(q.optMember "correctAnswer").truthy ||
              isOptionIndex (q.optMember "correctAnswer")) := by
  obtain ⟨items, h1, _, h3⟩ :=
    generateQuestions_parsed env req category data ai qs hc hne ht hr ha hp hf
  refine ⟨items, h1, fun i q hq => ?_⟩
  obtain ⟨item, hi, hfq⟩ := h3 i q hq
  obtain ⟨_, _, hans, _⟩ := (formatQuestion_some_inv category _ i q item hfq).2.1
  refine ⟨item, hi, hans, ?_⟩
  rw [hans]
  unfold JVal.or
  cases htr : (q.optMember "correctAnswer").truthy
  · simp [isOptionIndex]
  · simp

theorem generate_answer_is_parsed_or_zero_witness :
    ∃ items,
      generateQuestions
          ⟨true, ModelReply.ok (some (chatReply "[\x7b\"correctAnswer\":3\x7d]")),
            fun _ => some [JVal.obj [("correctAnswer", JVal.num 3)]],
            fun _ => 1700000000000⟩
          ⟨some "Interest Rates", some 1⟩ = GenerateResponse.ok items "Interest Rates" ∧
      ∀ (i : Nat) (q : JVal), [JVal.obj [("correctAnswer", JVal.num 3)]][i]? = some q →
        ∃ item, items[i]? = some item ∧
          item.answer = (q.optMember "correctAnswer").or (JVal.num 0) ∧
          isOptionIndex item.answer =
            (!(q.optMember "correctAnswer").truthy ||
              isOptionIndex (q.optMember "correctAnswer")) :=
  generate_answer_is_parsed_or_zero
    ⟨true, ModelReply.ok (some (chatReply "[\x7b\"correctAnswer\":3\x7d]")),
      fun _ => some [JVal.obj [("correctAnswer", JVal.num 3)]],
      fun _ => 1700000000000⟩
    ⟨some "Interest Rates", some 1⟩ "Interest Rates"
    (chatReply "[\x7b\"correctAnswer\":3\x7d]") (JVal.str "[\x7b\"correctAnswer\":3\x7d]")
    [JVal.obj [("correctAnswer", JVal.num 3)]] rfl (by decide) rfl rfl rfl rfl (by decide)

/-- C11 fails as stated: a parsed record with `correctAnswer` 7 is returned with
`answer` 7, which is no option index. -/
theorem normalization_keeps_answer_out_of_range :
    ∃ item,
      formatQuestions "Budgeting" (fun _ => 1700000000000) 0
          [JVal.obj [("question", JVal.str "How much of the income is for needs?"),
            ("options", JVal.arr [JVal.str "20%", JVal.str "30%", JVal.str "50%",
              JVal.str "70%"]),
            ("correctAnswer", JVal.num 7), ("explanation", JVal.str "The 50/30/20 rule.")]] =
        some [item] ∧
      item.answer = JVal.num 7 ∧ isOptionIndex item.answer = false :=
  ⟨_, rfl, rfl, rfl⟩

theorem radixDigit_ten_of_not_digit (c : Char) (h : isDecimalDigit c = false) :
    radixDigit 10 c = none := by
  unfold isDecimalDigit at h
  unfold radixDigit
  simp only [Bool.and_eq_false_iff, decide_eq_false_iff_not] at h
  have h1 : ¬ (48 ≤ c.toNat ∧ c.toNat ≤ 57) := by
    rintro ⟨a, b⟩
    rcases h with h | h
    · exact h a
    · exact h b
  simp only [h1, if_false]
  split
  · rename_i h2
    simp only [Option.filter]
    have : ¬ (c.toNat - 87 < 10) := by omega
    simp [this]
  · split
    · rename_i h2 h3
      simp only [Option.filter]
      have : ¬ (c.toNat - 55 < 10) := by omega
      simp [this]
    · rfl

/-- A text with no decimal digit right after its leading white space and optional
sign is not a number for `parseInt`. -/
theorem parseInt_eq_none (s : List Char)
    (h : ∀ c rest, afterSign s = c :: rest → isDecimalDigit c = false) :
    parseInt s = none := by
  have key : ∀ t : List Char, (∀ c rest, t = c :: rest → isDecimalDigit c = false) →
      leadingDigits (match t with
        | '0' :: 'x' :: r => ((16 : Nat), r)
        | '0' :: 'X' :: r => (16, r)
        | _ => (10, t)).1 (match t with
        | '0' :: 'x' :: r => ((16 : Nat), r)
        | '0' :: 'X' :: r => (16, r)
        | _ => (10, t)).2 = [] := by
    intro t ht
    cases t with
    | nil => rfl
    | cons c rest =>
      have hc := ht c rest rfl
      have hc0 : c ≠ '0' := by
        intro e
        rw [e] at hc
        exact absurd hc (by decide)
      split
      · rename_i heq
        injection heq with h1 _
        exact absurd h1 hc0
      · rename_i heq
        injection heq with h1 _
        exact absurd h1 hc0
      · simp only [leadingDigits, radixDigit_ten_of_not_digit c hc]
  have hsnd : ∀ t : List Char,
      (match t with
        | '-' :: r => (true, r)
        | '+' :: r => (false, r)
        | _ => (false, t)).2 =
      (match t with
        | '-' :: r => r
        | '+' :: r => r
        | r => r) := by
    intro t
    split <;> rfl
  unfold parseInt
  simp only
  generalize hsg : (match List.dropWhile isStrWhiteSpace s with
    | '-' :: r => (true, r)
    | '+' :: r => (false, r)
    | _ => (false, List.dropWhile isStrWhiteSpace s)) = sg
  have h2 : sg.2 = afterSign s := by
    rw [← hsg]
    exact hsnd _
  rw [← h2] at h
  rw [key sg.2 h]
  rfl

/-- C12, as the code has it: for an identifier that carries the generated marker the
scoring step never throws, whatever follows the marker: it always appends the result
with the decoded index.  The decoded index is 0 when the trailing '-'-separated
piece is empty and, more generally, when that piece does not begin, after leading
white space and an optional sign, with a decimal digit. -/
theorem decode_total_and_default (questionId : String)
    (hg : startsWith questionId generatedTag = true) :
    (∀ (fetchQuestion : String → Fetched) (st : ScoreState) (userAnswer : JVal),
      ∃ st1, scoreStep fetchQuestion st (questionId, userAnswer) = some st1 ∧
        st1.results = st.results ++
          [⟨questionId, userAnswer, JVal.num (decodeAnswer questionId),
            userAnswer.strictEq (JVal.num (decodeAnswer questionId))⟩]) ∧
    ((splitOn '-' questionId.data).getLastD [] = [] → decodeAnswer questionId = 0) ∧
    ((∀ c rest, afterSign ((splitOn '-' questionId.data).getLastD []) = c :: rest →
        isDecimalDigit c = false) → decodeAnswer questionId = 0) := by
  refine ⟨fun fetchQuestion st userAnswer => ?_, fun hempty => ?_, fun hlast => ?_⟩
  · refine ⟨⟨if userAnswer.strictEq (JVal.num (decodeAnswer questionId)) = true
        then st.score + 1 else st.score,
      st.results ++ [⟨questionId, userAnswer, JVal.num (decodeAnswer questionId),
        userAnswer.strictEq (JVal.num (decodeAnswer questionId))⟩]⟩, ?_, rfl⟩
    unfold scoreStep
    simp only [hg, if_true]
  · unfold decodeAnswer
    simp only [hempty]
    rfl
  · unfold decodeAnswer
    simp only [parseInt_eq_none _ hlast]

theorem decode_total_and_default_witness :
    (∀ (fetchQuestion : String → Fetched) (st : ScoreState) (userAnswer : JVal),
      ∃ st1, scoreStep fetchQuestion st
          ("ai-generated-1700000000000-0-abc", userAnswer) = some st1 ∧
        st1.results = st.results ++
          [⟨"ai-generated-1700000000000-0-abc", userAnswer,
            JVal.num (decodeAnswer "ai-generated-1700000000000-0-abc"),
            userAnswer.strictEq
              (JVal.num (decodeAnswer "ai-generated-1700000000000-0-abc"))⟩]) ∧
    ((splitOn '-' "ai-generated-1700000000000-0-abc".data).getLastD [] = [] →
      decodeAnswer "ai-generated-1700000000000-0-abc" = 0) ∧
    ((∀ c rest,
        afterSign ((splitOn '-' "ai-generated-1700000000000-0-abc".data).getLastD []) =
          c :: rest → isDecimalDigit c = false) →
      decodeAnswer "ai-generated-1700000000000-0-abc" = 0) :=
  decode_total_and_default "ai-generated-1700000000000-0-abc" (by decide)

/-- C12 fails as stated: the identifier `ai-generated-1700000000000-0-2abc` carries
the generated marker and its trailing piece `2abc` is not a number, yet it decodes
to 2, not to 0, because `parseInt` reads the digits a text starts with. -/
theorem decode_reads_leading_digits :
    startsWith "ai-generated-1700000000000-0-2abc" generatedTag = true ∧
      (splitOn '-' "ai-generated-1700000000000-0-2abc".data).getLastD [] = "2abc".data ∧
      "2abc".data.all isDecimalDigit = false ∧
      decodeAnswer "ai-generated-1700000000000-0-2abc" = 2 := by
  decide

/-! ## The relevance ranking -/

theorem scoreDocs_eq_some (question : String) :
    ∀ (docs : List JVal) (scored : List ScoredDoc), scoreDocs question docs = some scored →
      scored = docs.map (fun d => ⟨d, scoreOf question d⟩) := by
  intro docs
  induction docs with
  | nil =>
    intro scored h
    simp only [scoreDocs, Option.some.injEq] at h
    subst h
    rfl
  | cons d rest ih =>
    intro scored h
    unfold scoreDocs at h
    cases hc : docContent d with
    | none => simp [hc] at h
    | some content =>
      cases hr : scoreDocs question rest with
      | none => simp [hc, hr] at h
      | some tail =>
        simp only [hc, hr, Option.some.injEq] at h
        subst h
        simp [ih tail hr, scoreOf, hc]

theorem scoreDocs_of_documents (question : String) :
    ∀ docs : List JVal, (∀ d ∈ docs, (docContent d).isSome = true) →
      scoreDocs question docs = some (docs.map (fun d => ⟨d, scoreOf question d⟩)) := by
  intro docs
  induction docs with
  | nil => intro _; rfl
  | cons d rest ih =>
    intro h
    obtain ⟨content, hc⟩ := Option.isSome_iff_exists.mp (h d (by simp))
    unfold scoreDocs
    simp [hc, ih (fun x hx => h x (by simp [hx])), scoreOf]

theorem financialDocs_of_documents :
    ∀ docs : List JVal, (∀ d ∈ docs, d.nullish = false) →
      financialDocs docs = some (docs.filter isFinancial) := by
  intro docs
  induction docs with
  | nil => intro _; rfl
  | cons d rest ih =>
    intro h
    have hd := h d (by simp)
    unfold financialDocs
    rw [JVal.member_of_not_nullish d "type" hd, ih (fun x hx => h x (by simp [hx]))]
    simp only [List.filter_cons, isFinancial]

theorem rowDocs_storeRows :
    ∀ docs : List JVal,
      rowDocs (docs.map (fun doc => JVal.obj [("doc", doc)])) = some docs := by
  intro docs
  induction docs with
  | nil => rfl
  | cons d rest ih =>
    simp only [List.map_cons, rowDocs, ih]
    rfl

/-- Whatever the store answers, the result of the retrieval is the top three of a
list of documents scored by the ranking (the empty list when an exception was
caught). -/
theorem retrieveRelevantDocs_eq_topThree (store : StoreReply) (question : String) :
    ∃ scored : List ScoredDoc,
      retrieveRelevantDocs store question = topThree scored ∧
      ∀ d ∈ scored, d.score = scoreOf question d.doc := by
  have hnil : ∃ scored : List ScoredDoc,
      ([] : List ScoredDoc) = topThree scored ∧
      ∀ d ∈ scored, d.score = scoreOf question d.doc := ⟨[], rfl, by simp⟩
  cases store with
  | failed => exact hnil
  | body result =>
    unfold retrieveRelevantDocs
    simp only
    cases hr : rankResult result question with
    | none => exact hnil
    | some ranked =>
      simp only [Option.getD_some]
      unfold rankResult at hr
      split at hr
      · split at hr
        · rename_i rows _
          cases h1 : rowDocs rows with
          | none => simp [h1] at hr
          | some docs =>
            cases h2 : financialDocs docs with
            | none => simp [h1, h2] at hr
            | some kept =>
              cases h3 : scoreDocs question kept with
              | none => simp [h1, h2, h3] at hr
              | some scored =>
                simp only [h1, h2, h3, Option.some.injEq] at hr
                subst hr
                refine ⟨scored, rfl, ?_⟩
                intro d hd
                rw [scoreDocs_eq_some question kept scored h3] at hd
                simp only [List.mem_map] at hd
                obtain ⟨x, _, hx⟩ := hd
                subst hx
                rfl
        · split at hr
          · cases hr
          · injection hr with hr
            subst hr
            exact hnil
        · cases hr
      · injection hr with hr
        subst hr
        exact hnil

/-- The retrieval on a store that lists documents the ranking can read: the top
three of the `financial_content` documents, in store order, with their scores. -/
theorem retrieveRelevantDocs_of_documents (docs : List JVal) (question : String)
    (hd : ∀ d ∈ docs, isDocument d = true) :
    retrieveRelevantDocs (StoreReply.body (storeBody docs)) question =
      topThree ((docs.filter isFinancial).map (fun d => ⟨d, scoreOf question d⟩)) := by
  have hn : ∀ d ∈ docs, d.nullish = false := by
    intro d h
    have := hd d h
    simp only [isDocument, Bool.and_eq_true, Bool.not_eq_true'] at this
    exact this.1
  have hc : ∀ d ∈ docs.filter isFinancial, (docContent d).isSome = true := by
    intro d h
    have := hd d (List.mem_of_mem_filter h)
    simp only [isDocument, Bool.and_eq_true] at this
    exact this.2
  unfold retrieveRelevantDocs storeBody rankResult
  simp only [JVal.truthy, if_true, JVal.member, JVal.field, List.lookup, beq_self_eq_true,
    rowDocs_storeRows, financialDocs_of_documents docs hn,
    scoreDocs_of_documents question _ hc, Option.getD_some]

theorem topThree_mem (scored : List ScoredDoc) (d : ScoredDoc) (h : d ∈ topThree scored) :
    d ∈ scored ∧ 0 < d.score := by
  unfold topThree at h
  have h1 := List.mem_of_mem_take h
  rw [List.mem_insertionSort] at h1
  simpa using h1

theorem topThree_length (scored : List ScoredDoc) :
    (topThree scored).length = min 3 (scored.filter (fun d => 0 < d.score)).length := by
  unfold topThree
  rw [List.length_take, List.length_insertionSort]

theorem topThree_sorted (scored : List ScoredDoc) :
    (topThree scored).Pairwise (fun a b => b.score ≤ a.score) := by
  unfold topThree
  have h : List.Sorted byScoreDesc
      ((scored.filter (fun d => 0 < d.score)).insertionSort byScoreDesc) :=
    List.sorted_insertionSort byScoreDesc _
  exact List.Pairwise.sublist (List.take_sublist 3 _) h

/-- The sort is stable: among the documents of one score, the sorted list keeps the
order of the input. -/
theorem insertionSort_filter_score (l : List ScoredDoc) (v : Nat) :
    (l.insertionSort byScoreDesc).filter (fun d => decide (d.score = v)) =
      l.filter (fun d => decide (d.score = v)) := by
  have hpw : (l.filter (fun d => decide (d.score = v))).Pairwise byScoreDesc := by
    apply List.pairwise_of_forall_mem_list
    intro a ha b hb
    have h1 := (List.mem_filter.mp ha).2
    have h2 := (List.mem_filter.mp hb).2
    simp only [decide_eq_true_eq] at h1 h2
    unfold byScoreDesc
    omega
  have hsub : (l.filter (fun d => decide (d.score = v))).Sublist
      (l.insertionSort byScoreDesc) :=
    List.sublist_insertionSort hpw (List.filter_sublist l)
  have hsub2 := hsub.filter (fun d => decide (d.score = v))
  rw [List.filter_filter] at hsub2
  simp only [Bool.and_self] at hsub2
  have hperm := (List.perm_insertionSort byScoreDesc l).filter (fun d => decide (d.score = v))
  exact (hsub2.eq_of_length hperm.length_eq.symm).symm

theorem topThree_stable (scored : List ScoredDoc) (v : Nat) :
    (topThree scored).filter (fun d => decide (d.score = v)) <+:
      (scored.filter (fun d => 0 < d.score)).filter (fun d => decide (d.score = v)) := by
  unfold topThree
  rw [← insertionSort_filter_score (scored.filter (fun d => 0 < d.score)) v]
  obtain ⟨t, ht⟩ := List.take_prefix 3
    ((scored.filter (fun d => 0 < d.score)).insertionSort byScoreDesc)
  refine ⟨t.filter (fun d => decide (d.score = v)), ?_⟩
  rw [← List.filter_append, ht]

theorem topThree_keeps_higher (scored : List ScoredDoc) (x d : ScoredDoc)
    (hx : x ∈ scored) (hpos : 0 < x.score) (hd : d ∈ topThree scored)
    (hlt : d.score < x.score) : x ∈ topThree scored := by
  unfold topThree at hd ⊢
  have hs : List.Sorted byScoreDesc
      ((scored.filter (fun d => 0 < d.score)).insertionSort byScoreDesc) :=
    List.sorted_insertionSort byScoreDesc _
  have hxl : x ∈ (scored.filter (fun d => 0 < d.score)).insertionSort byScoreDesc := by
    rw [List.mem_insertionSort]
    simp [hx, hpos]
  rw [← List.take_append_drop 3
    ((scored.filter (fun d => 0 < d.score)).insertionSort byScoreDesc)] at hxl
  rcases List.mem_append.mp hxl with h | h
  · exact h
  · have := hs.rel_of_mem_take_of_mem_drop hd h
    unfold byScoreDesc at this
    omega

/-- C13: for every question and whatever the store answers, every document returned
by `retrieveRelevantDocs` carries the score the ranking computes for it and that
score is at least 1; a document of score 0 is never returned. -/
theorem retrieve_scores_positive (store : StoreReply) (question : String) :
    ∀ d ∈ retrieveRelevantDocs store question,
      1 ≤ d.score ∧ d.score = scoreOf question d.doc := by
  obtain ⟨scored, h, hs⟩ := retrieveRelevantDocs_eq_topThree store question
  intro d hd
  rw [h] at hd
  obtain ⟨h1, h2⟩ := topThree_mem scored d hd
  exact ⟨h2, hs d h1⟩

/-- C14: `retrieveRelevantDocs` returns at most 3 documents, whatever the store
answers; for a store that lists a corpus of documents, the length of the result is
the minimum of 3 and the number of `financial_content` documents of the corpus
whose score is positive. -/
theorem retrieve_length (question : String) (docs : List JVal)
    (hd : ∀ d ∈ docs, isDocument d = true) :
    (∀ store : StoreReply, (retrieveRelevantDocs store question).length ≤ 3) ∧
    (retrieveRelevantDocs (StoreReply.body (storeBody docs)) question).length =
      min 3 (docs.filter
        (fun d => isFinancial d && decide (0 < scoreOf question d))).length := by
  constructor
  · intro store
    obtain ⟨scored, h, _⟩ := retrieveRelevantDocs_eq_topThree store question
    rw [h, topThree_length]
    omega
  · rw [retrieveRelevantDocs_of_documents docs question hd, topThree_length,
      List.filter_map, List.length_map, List.filter_filter]
    congr 2
    apply List.filter_congr
    intro d _
    simp [Bool.and_comm]

theorem financialContent_documents : ∀ d ∈ financialContent, isDocument d = true := by
  decide

theorem retrieve_length_witness :
    (∀ store : StoreReply,
      (retrieveRelevantDocs store "What is compound interest?").length ≤ 3) ∧
    (retrieveRelevantDocs (StoreReply.body (storeBody financialContent))
        "What is compound interest?").length =
      min 3 (financialContent.filter
        (fun d => isFinancial d &&
          decide (0 < scoreOf "What is compound interest?" d))).length :=
  retrieve_length "What is compound interest?" financialContent financialContent_documents

/-- C15: for a store that lists a corpus of documents, the result of
`retrieveRelevantDocs` is the first 3 elements of the stable descending-by-score
sort of the positive-score `financial_content` documents: its length is the minimum
of 3 and their number, every returned document is one of them with its score, the
scores do not increase along the result, the returned documents of one score are
the first ones of that score in store order, and a document that scores strictly
higher than a returned one is itself returned. -/
theorem retrieve_is_stable_top_three (question : String) (docs : List JVal)
    (hd : ∀ d ∈ docs, isDocument d = true) :
    (retrieveRelevantDocs (StoreReply.body (storeBody docs)) question).length =
        min 3 (docs.filter
          (fun d => isFinancial d && decide (0 < scoreOf question d))).length ∧
    (∀ r ∈ retrieveRelevantDocs (StoreReply.body (storeBody docs)) question,
      r.doc ∈ docs ∧ isFinancial r.doc = true ∧ r.score = scoreOf question r.doc ∧
        0 < r.score) ∧
    (retrieveRelevantDocs (StoreReply.body (storeBody docs)) question).Pairwise
        (fun a b => b.score ≤ a.score) ∧
    (∀ v : Nat, 0 < v →
      ((retrieveRelevantDocs (StoreReply.body (storeBody docs)) question).filter
          (fun r => decide (r.score = v))).map ScoredDoc.doc <+:
        docs.filter (fun d => isFinancial d && decide (scoreOf question d = v))) ∧
    (∀ x ∈ docs, isFinancial x = true →
      ∀ r ∈ retrieveRelevantDocs (StoreReply.body (storeBody docs)) question,
        r.score < scoreOf question x →
        ∃ r1 ∈ retrieveRelevantDocs (StoreReply.body (storeBody docs)) question,
          r1.doc = x ∧ r1.score = scoreOf question x) := by
  have hlen := (retrieve_length question docs hd).2
  rw [retrieveRelevantDocs_of_documents docs question hd] at hlen ⊢
  refine ⟨hlen, ?_, topThree_sorted _, ?_, ?_⟩
  · intro r hr
    obtain ⟨h1, h2⟩ := topThree_mem _ r hr
    simp only [List.mem_map, List.mem_filter] at h1
    obtain ⟨x, ⟨hx1, hx2⟩, hx3⟩ := h1
    subst hx3
    exact ⟨hx1, hx2, rfl, h2⟩
  · intro v hv
    have h := (topThree_stable
      ((docs.filter isFinancial).map (fun d => ⟨d, scoreOf question d⟩)) v).map ScoredDoc.doc
    have e : List.map ScoredDoc.doc
        ((((docs.filter isFinancial).map
          (fun d => (⟨d, scoreOf question d⟩ : ScoredDoc))).filter
            (fun d => 0 < d.score)).filter (fun d => decide (d.score = v))) =
        docs.filter (fun d => isFinancial d && decide (scoreOf question d = v)) := by
      rw [List.filter_filter, List.filter_map, List.map_map, List.filter_filter]
      have e1 : (ScoredDoc.doc ∘ fun d => (⟨d, scoreOf question d⟩ : ScoredDoc)) = id := by
        funext d
        rfl
      rw [e1, List.map_id]
      apply List.filter_congr
      intro d _
      simp only [Function.comp, Bool.and_comm]
      by_cases hs : scoreOf question d = v
      · simp [hs, hv]
      · simp [hs]
    rw [e] at h
    exact h
  · intro x hx hfin r hr hlt
    have hx1 : (⟨x, scoreOf question x⟩ : ScoredDoc) ∈
        (docs.filter isFinancial).map (fun d => (⟨d, scoreOf question d⟩ : ScoredDoc)) := by
      simp only [List.mem_map, List.mem_filter]
      exact ⟨x, ⟨hx, hfin⟩, rfl⟩
    have := topThree_keeps_higher _ ⟨x, scoreOf question x⟩ r hx1 (by simp only; omega) hr hlt
    exact ⟨_, this, rfl, rfl⟩

theorem retrieve_is_stable_top_three_witness :
    (retrieveRelevantDocs (StoreReply.body (storeBody financialContent))
        "How do interest rates work?").length =
        min 3 (financialContent.filter
          (fun d => isFinancial d &&
            decide (0 < scoreOf "How do interest rates work?" d))).length ∧
    (∀ r ∈ retrieveRelevantDocs (StoreReply.body (storeBody financialContent))
        "How do interest rates work?",
      r.doc ∈ financialContent ∧ isFinancial r.doc = true ∧
        r.score = scoreOf "How do interest rates work?" r.doc ∧ 0 < r.score) ∧
    (retrieveRelevantDocs (StoreReply.body (storeBody financialContent))
        "How do interest rates work?").Pairwise (fun a b => b.score ≤ a.score) ∧
    (∀ v : Nat, 0 < v →
      ((retrieveRelevantDocs (StoreReply.body (storeBody financialContent))
          "How do interest rates work?").filter
          (fun r => decide (r.score = v))).map ScoredDoc.doc <+:
        financialContent.filter
          (fun d => isFinancial d &&
            decide (scoreOf "How do interest rates work?" d = v))) ∧
    (∀ x ∈ financialContent, isFinancial x = true →
      ∀ r ∈ retrieveRelevantDocs (StoreReply.body (storeBody financialContent))
          "How do interest rates work?",
        r.score < scoreOf "How do interest rates work?" x →
        ∃ r1 ∈ retrieveRelevantDocs (StoreReply.body (storeBody financialContent))
            "How do interest rates work?",
          r1.doc = x ∧ r1.score = scoreOf "How do interest rates work?" x) :=
  retrieve_is_stable_top_three "How do interest rates work?" financialContent
    financialContent_documents

/-! ## The keyword score -/

theorem foldl_count_eq (p : List Char → Bool) :
    ∀ (ks : List (List Char)) (start : Nat),
      ks.foldl (fun score k => score + (if p k then 1 else 0)) start =
        start + (ks.filter p).length := by
  intro ks
  induction ks with
  | nil => intro start; simp
  | cons k rest ih =>
    intro start
    simp only [List.foldl_cons, ih, List.filter_cons]
    split <;> simp
    omega

theorem keywordScore_eq (question : String) (content : List Char) :
    keywordScore question content =
      ((keywordsOf question).filter (fun k => includes content k)).length := by
  unfold keywordScore
  rw [foldl_count_eq (fun k => includes content k)]
  omega

/-- The test `includes` holds exactly when the keyword occurs in the text as a run
of consecutive characters. -/
theorem includes_iff_infix (s k : List Char) : includes s k = true ↔ k <:+: s := by
  induction s with
  | nil =>
    simp only [includes, List.isEmpty_iff, List.infix_nil]
  | cons c cs ih =>
    simp only [includes, Bool.or_eq_true, ih, List.infix_cons_iff,
      List.isPrefixOf_iff_prefix]

theorem ascii_letter_pair (n : Nat) (h1 : 65 ≤ n) (h2 : n ≤ 90) :
    lowerCode lowerCaseRanges n = n + 32 ∧ lowerCode lowerCaseRanges (n + 32) = n + 32 ∧
      inRanges casedRanges n = true ∧ inRanges casedRanges (n + 32) = true ∧
      inRanges caseIgnorableRanges n = false ∧
      inRanges caseIgnorableRanges (n + 32) = false := by
  interval_cases n <;> decide

/-- What lower-casing looks at in a character is the same for the two cases of a
letter `A` to `Z`. -/
theorem sameLetter_context (x y : Char) (h : sameLetter x y = true) :
    lowerCaseOf x = lowerCaseOf y ∧ isCased x = isCased y ∧
      isCaseIgnorable x = isCaseIgnorable y ∧ (x.toNat = 931 ↔ y.toNat = 931) := by
  have key : ∀ a b : Char, 65 ≤ a.toNat → a.toNat ≤ 90 → b.toNat = a.toNat + 32 →
      lowerCaseOf a = lowerCaseOf b ∧ isCased a = isCased b ∧
        isCaseIgnorable a = isCaseIgnorable b ∧ (a.toNat = 931 ↔ b.toNat = 931) := by
    intro a b h1 h2 h3
    obtain ⟨e1, e2, e3, e4, e5, e6⟩ := ascii_letter_pair a.toNat h1 h2
    have n1 : ¬ a.toNat = 304 := by omega
    have n2 : ¬ b.toNat = 304 := by omega
    refine ⟨?_, ?_, ?_, ?_⟩
    · unfold lowerCaseOf
      rw [if_neg n1, if_neg n2, h3, e1, e2]
    · unfold isCased
      rw [h3, e3, e4]
    · unfold isCaseIgnorable
      rw [h3, e5, e6]
    · constructor <;> intro hh <;> omega
  unfold sameLetter at h
  simp only [Bool.or_eq_true, Bool.and_eq_true, beq_iff_eq, decide_eq_true_eq] at h
  rcases h with (h | h) | h
  · subst h
    exact ⟨rfl, rfl, rfl, Iff.rfl⟩
  · exact key x y h.1.1 h.1.2 h.2
  · obtain ⟨a, b, c, d⟩ := key y x h.1.1 h.1.2 h.2
    exact ⟨a.symm, b.symm, c.symm, d.symm⟩

theorem nextIsCased_congr (a b : List Char) (h : SameUpToCase a b) :
    nextIsCased a = nextIsCased b := by
  induction h with
  | nil => rfl
  | cons hxy _ ih =>
    obtain ⟨_, h2, h3, _⟩ := sameLetter_context _ _ hxy
    simp only [nextIsCased, h2, h3, ih]

theorem toLowerCaseFrom_congr (a b : List Char) (h : SameUpToCase a b) :
    ∀ before1 before2 : List Char, SameUpToCase before1 before2 →
      toLowerCaseFrom before1 a = toLowerCaseFrom before2 b := by
  induction h with
  | nil =>
    intro _ _ _
    rfl
  | cons hxy hrest ih =>
    intro before1 before2 hb
    obtain ⟨h1, _, _, h4⟩ := sameLetter_context _ _ hxy
    have e1 := nextIsCased_congr _ _ hb
    have e2 := nextIsCased_congr _ _ hrest
    have e3 := ih _ _ (List.Forall₂.cons hxy hb)
    simp only [toLowerCaseFrom, h1, h4, e1, e2, e3]

/-- Lower-casing gives the same text for two texts that differ in the case of
letters `A` to `Z` only. -/
theorem toLowerCase_congr (a b : List Char) (h : SameUpToCase a b) :
    toLowerCase a = toLowerCase b :=
  toLowerCaseFrom_congr a b h [] [] List.Forall₂.nil

/-- C16, as the code has it: the keywords are the pieces of the lower-cased question
between single space characters (tabs and line breaks do not separate; the piece
between two consecutive spaces is the empty keyword, which occurs in every text),
and a document's score is the number of these keywords, counted with repetition,
that occur as a run of consecutive characters in the lower-cased text
`title + " " + content`; the score depends on the question and on the document
text only through their lower-cased forms, and it does not change when letters
`A` to `Z` of the question or of the document change case. -/
theorem score_counts_space_separated_keywords (question : String) (doc : JVal)
    (title content : String)
    (ht : (doc.optMember "title").toStr = some title)
    (hc : (doc.optMember "content").toStr = some content)
    (hn : doc.nullish = false) :
    scoreOf question doc =
        ((splitOn ' ' (toLowerCase question.data)).filter
          (fun k => includes (toLowerCase (title ++ " " ++ content).data) k)).length ∧
    (∀ text k : List Char, includes text k = true ↔ k <:+: text) ∧
    (∀ text : List Char, includes text [] = true) ∧
    (∀ (question1 : String) (doc1 : JVal) (title1 content1 : String),
      (doc1.optMember "title").toStr = some title1 →
      (doc1.optMember "content").toStr = some content1 →
      doc1.nullish = false →
      toLowerCase question1.data = toLowerCase question.data →
      toLowerCase (title1 ++ " " ++ content1).data =
        toLowerCase (title ++ " " ++ content).data →
      scoreOf question1 doc1 = scoreOf question doc) ∧
    (∀ (question1 : String) (doc1 : JVal) (title1 content1 : String),
      (doc1.optMember "title").toStr = some title1 →
      (doc1.optMember "content").toStr = some content1 →
      doc1.nullish = false →
      SameUpToCase question1.data question.data →
      SameUpToCase (title1 ++ " " ++ content1).data (title ++ " " ++ content).data →
      scoreOf question1 doc1 = scoreOf question doc) := by
  have hscore : ∀ (q : String) (d : JVal) (t c : String),
      (d.optMember "title").toStr = some t → (d.optMember "content").toStr = some c →
      d.nullish = false →
      scoreOf q d =
        ((splitOn ' ' (toLowerCase q.data)).filter
          (fun k => includes (toLowerCase (t ++ " " ++ c).data) k)).length := by
    intro q d t c h1 h2 h3
    unfold scoreOf docContent
    simp only [JVal.member_of_not_nullish d _ h3, h1, h2]
    rw [keywordScore_eq]
    rfl
  refine ⟨hscore question doc title content ht hc hn, includes_iff_infix, ?_, ?_, ?_⟩
  · intro text
    cases text <;> simp [includes]
  · intro q1 d1 t1 c1 h1 h2 h3 hq hd
    rw [hscore q1 d1 t1 c1 h1 h2 h3, hscore question doc title content ht hc hn, hq, hd]
  · intro q1 d1 t1 c1 h1 h2 h3 hq hd
    rw [hscore q1 d1 t1 c1 h1 h2 h3, hscore question doc title content ht hc hn,
      toLowerCase_congr _ _ hq, toLowerCase_congr _ _ hd]

theorem score_counts_space_separated_keywords_witness :
    scoreOf "What is compound interest?" (JVal.obj [("title", JVal.str "Rates"),
        ("content", JVal.str "Compound interest is interest on interest.")]) =
        ((splitOn ' ' (toLowerCase "What is compound interest?".data)).filter
          (fun k => includes (toLowerCase
            ("Rates" ++ " " ++ "Compound interest is interest on interest.").data) k)).length ∧
    (∀ text k : List Char, includes text k = true ↔ k <:+: text) ∧
    (∀ text : List Char, includes text [] = true) ∧
    (∀ (question1 : String) (doc1 : JVal) (title1 content1 : String),
      (doc1.optMember "title").toStr = some title1 →
      (doc1.optMember "content").toStr = some content1 →
      doc1.nullish = false →
      toLowerCase question1.data = toLowerCase "What is compound interest?".data →
      toLowerCase (title1 ++ " " ++ content1).data =
        toLowerCase ("Rates" ++ " " ++ "Compound interest is interest on interest.").data →
      scoreOf question1 doc1 =
        scoreOf "What is compound interest?" (JVal.obj [("title", JVal.str "Rates"),
          ("content", JVal.str "Compound interest is interest on interest.")])) ∧
    (∀ (question1 : String) (doc1 : JVal) (title1 content1 : String),
      (doc1.optMember "title").toStr = some title1 →
      (doc1.optMember "content").toStr = some content1 →
      doc1.nullish = false →
      SameUpToCase question1.data "What is compound interest?".data →
      SameUpToCase (title1 ++ " " ++ content1).data
        ("Rates" ++ " " ++ "Compound interest is interest on interest.").data →
      scoreOf question1 doc1 =
        scoreOf "What is compound interest?" (JVal.obj [("title", JVal.str "Rates"),
          ("content", JVal.str "Compound interest is interest on interest.")])) :=
  score_counts_space_separated_keywords "What is compound interest?"
    (JVal.obj [("title", JVal.str "Rates"),
      ("content", JVal.str "Compound interest is interest on interest.")])
    "Rates" "Compound interest is interest on interest." rfl rfl rfl

/-- Lower-casing is not limited to the letters `A` to `Z`: the question `CAFÉ`
scores 1 on a document that holds `café`, the question `COMPOUND` scores 1 on a
document that holds `compound`, a capital sigma at the end of a word becomes the
final sigma, and `U+0130` becomes two characters. -/
theorem score_lowercases_all_letters :
    scoreOf "CAFÉ" (JVal.obj [("title", JVal.str "Menu"),
        ("content", JVal.str "café budget")]) = 1 ∧
      scoreOf "COMPOUND" (JVal.obj [("title", JVal.str "Rates"),
        ("content", JVal.str "compound interest")]) = 1 ∧
      toLowerCase "ΟΔΟΣ ΣΟΦΟΣ".data = "οδος σοφος".data ∧
      toLowerCase [Char.ofNat 304] = [Char.ofNat 105, Char.ofNat 775] := by
  decide

set_option maxRecDepth 1000000 in
/-- C16 fails as stated: for the question `compound<TAB>interest` the code has the
single keyword `compound<TAB>interest`, which does not occur in the seeded
`Interest Rates Explained` document, so the score is 0; split on white space the
question has the keywords `compound` and `interest`, which both occur, so the score
in the words of the specification is 2. -/
theorem score_ignores_tab_separator :
    keywordsOf "compound\tinterest" = ["compound\tinterest".data] ∧
      keywordsOnWhiteSpace "compound\tinterest" = ["compound".data, "interest".data] ∧
      scoreOf "compound\tinterest" interestRatesDoc = 0 ∧
      (docContent interestRatesDoc).map (scoreOnWhiteSpace "compound\tinterest") =
        some 2 := by
  decide

/-! ## Scenario B: the question about compound interest -/

/-- A positive-score document is in the top three unless the top three is full of
documents that score at least as high. -/
theorem topThree_mem_or_full (scored : List ScoredDoc) (x : ScoredDoc)
    (hx : x ∈ scored) (hpos : 0 < x.score) :
    x ∈ topThree scored ∨
      ((topThree scored).length = 3 ∧ ∀ r ∈ topThree scored, x.score ≤ r.score) := by
  unfold topThree
  have hs : List.Sorted byScoreDesc
      ((scored.filter (fun d => 0 < d.score)).insertionSort byScoreDesc) :=
    List.sorted_insertionSort byScoreDesc _
  have hxl : x ∈ (scored.filter (fun d => 0 < d.score)).insertionSort byScoreDesc := by
    rw [List.mem_insertionSort]
    simp [hx, hpos]
  generalize (scored.filter (fun d => 0 < d.score)).insertionSort byScoreDesc = sorted
    at hs hxl
  have hsplit := List.take_append_drop 3 sorted
  rw [← hsplit] at hxl
  rcases List.mem_append.mp hxl with h | h
  · exact Or.inl h
  · right
    constructor
    · have hlen : 0 < (sorted.drop 3).length := List.length_pos_of_mem h
      rw [List.length_drop] at hlen
      rw [List.length_take]
      omega
    · intro r hr
      exact hs.rel_of_mem_take_of_mem_drop hr h

set_option maxRecDepth 1000000 in
theorem interestRatesDoc_score :
    scoreOf "What is compound interest?" interestRatesDoc = 2 ∧
      isFinancial interestRatesDoc = true := by
  decide

/-- C17, as the code has it: for the chat question "What is compound interest?" the
seeded "Interest Rates Explained" document scores 2 (the keywords `is` and
`compound` occur in it, `what` and `interest?` do not), and for every corpus of
documents that contains it the ranker's result contains that document with score 2
unless the result is full: three documents that each score at least 2. -/
theorem retrieve_interest_doc_unless_outranked (docs : List JVal)
    (hd : ∀ d ∈ docs, isDocument d = true) (hmem : interestRatesDoc ∈ docs) :
    scoreOf "What is compound interest?" interestRatesDoc = 2 ∧
    ((∃ r ∈ retrieveRelevantDocs (StoreReply.body (storeBody docs))
          "What is compound interest?",
        r.doc = interestRatesDoc ∧ r.score = 2) ∨
      ((retrieveRelevantDocs (StoreReply.body (storeBody docs))
          "What is compound interest?").length = 3 ∧
        ∀ r ∈ retrieveRelevantDocs (StoreReply.body (storeBody docs))
            "What is compound interest?", 2 ≤ r.score)) := by
  obtain ⟨hscore, hfin⟩ := interestRatesDoc_score
  refine ⟨hscore, ?_⟩
  rw [retrieveRelevantDocs_of_documents docs _ hd]
  have hx : (⟨interestRatesDoc, 2⟩ : ScoredDoc) ∈
      (docs.filter isFinancial).map
        (fun d => (⟨d, scoreOf "What is compound interest?" d⟩ : ScoredDoc)) := by
    simp only [List.mem_map, List.mem_filter]
    exact ⟨interestRatesDoc, ⟨hmem, hfin⟩, by rw [hscore]⟩
  rcases topThree_mem_or_full _ ⟨interestRatesDoc, 2⟩ hx (by decide) with h | ⟨h1, h2⟩
  · exact Or.inl ⟨_, h, rfl, rfl⟩
  · exact Or.inr ⟨h1, h2⟩

set_option maxRecDepth 1000000 in
theorem retrieve_interest_doc_unless_outranked_witness :
    (scoreOf "What is compound interest?" interestRatesDoc = 2 ∧
      ((∃ r ∈ retrieveRelevantDocs (StoreReply.body (storeBody financialContent))
            "What is compound interest?",
          r.doc = interestRatesDoc ∧ r.score = 2) ∨
        ((retrieveRelevantDocs (StoreReply.body (storeBody financialContent))
            "What is compound interest?").length = 3 ∧
          ∀ r ∈ retrieveRelevantDocs (StoreReply.body (storeBody financialContent))
              "What is compound interest?", 2 ≤ r.score))) ∧
    (retrieveRelevantDocs (StoreReply.body (storeBody financialContent))
        "What is compound interest?").map
        (fun (r : ScoredDoc) => ((r.doc.optMember "title").toStr, r.score)) =
      [(some "Interest Rates Explained", 2), (some "Investment Fundamentals", 2),
        (some "UPI Safety Guidelines", 1)] :=
  ⟨retrieve_interest_doc_unless_outranked financialContent financialContent_documents
      (by simp [financialContent]), by decide⟩

set_option maxRecDepth 1000000 in
/-- C17 fails as stated: in a corpus where three documents that quote the question
stand before the seeded "Interest Rates Explained" document, each of the three
scores 4, the result is those three, and the seeded document is not returned. -/
theorem retrieve_interest_doc_outranked :
    interestRatesDoc ∈
        [knowledgeDoc "Savings FAQ" "What is compound interest? Interest paid on interest."
            "Interest Rates" ["faq"],
          knowledgeDoc "Loans FAQ" "What is compound interest? A cost that grows."
            "Interest Rates" ["faq"],
          knowledgeDoc "Deposits FAQ" "What is compound interest? A return that grows."
            "Interest Rates" ["faq"],
          interestRatesDoc] ∧
    (retrieveRelevantDocs (StoreReply.body (storeBody
        [knowledgeDoc "Savings FAQ" "What is compound interest? Interest paid on interest."
            "Interest Rates" ["faq"],
          knowledgeDoc "Loans FAQ" "What is compound interest? A cost that grows."
            "Interest Rates" ["faq"],
          knowledgeDoc "Deposits FAQ" "What is compound interest? A return that grows."
            "Interest Rates" ["faq"],
          interestRatesDoc])) "What is compound interest?").map
        (fun (r : ScoredDoc) => ((r.doc.optMember "title").toStr, r.score)) =
      [(some "Savings FAQ", 4), (some "Loans FAQ", 4), (some "Deposits FAQ", 4)] :=
  ⟨by simp, by decide⟩

/-! ## The grounding prompt -/

theorem joinWith_cons_cons (sep line next : String) (rest : List String) :
    joinWith sep (line :: next :: rest) = line ++ sep ++ joinWith sep (next :: rest) := rfl

theorem mem_joinWith_infix (sep : String) :
    ∀ (lines : List String) (x : String), x ∈ lines →
      x.data <:+: (joinWith sep lines).data := by
  intro lines
  induction lines with
  | nil => intro x hx; simp at hx
  | cons line rest ih =>
    intro x hx
    cases rest with
    | nil =>
      simp only [List.mem_singleton] at hx
      subst hx
      exact List.infix_refl _
    | cons next rest2 =>
      rw [joinWith_cons_cons]
      simp only [String.data_append]
      rcases List.mem_cons.mp hx with h | h
      · subst h
        exact ⟨[], sep.data ++ (joinWith sep (next :: rest2)).data, by simp⟩
      · obtain ⟨a, b, hab⟩ := ih x h
        exact ⟨line.data ++ sep.data ++ a, b, by
          rw [← hab]
          simp [List.append_assoc]⟩

/-- The joined text around one of its lines: the earlier lines occur before it and
the later lines after it. -/
theorem joinWith_split (sep : String) :
    ∀ (before : List String) (line : String) (after : List String),
      ∃ pre post : List Char,
        (joinWith sep (before ++ line :: after)).data = pre ++ line.data ++ post ∧
        (∀ x ∈ before, x.data <:+: pre) ∧ (∀ y ∈ after, y.data <:+: post) := by
  intro before
  induction before with
  | nil =>
    intro line after
    cases after with
    | nil => exact ⟨[], [], by simp [joinWith], by simp, by simp⟩
    | cons next rest =>
      refine ⟨[], sep.data ++ (joinWith sep (next :: rest)).data, ?_, by simp, ?_⟩
      · simp only [List.nil_append, joinWith_cons_cons, String.data_append,
          List.append_assoc]
      · intro y hy
        obtain ⟨a, b, hab⟩ := mem_joinWith_infix sep (next :: rest) y hy
        exact ⟨sep.data ++ a, b, by rw [← hab]; simp [List.append_assoc]⟩
  | cons first rest ih =>
    intro line after
    obtain ⟨pre, post, h1, h2, h3⟩ := ih line after
    cases hrest : rest ++ line :: after with
    | nil => simp at hrest
    | cons next more =>
      refine ⟨first.data ++ sep.data ++ pre, post, ?_, ?_, h3⟩
      · rw [List.cons_append, hrest, joinWith_cons_cons, ← hrest]
        simp only [String.data_append, h1, List.append_assoc]
      · intro x hx
        rcases List.mem_cons.mp hx with h | h
        · subst h
          exact ⟨[], sep.data ++ pre, by simp [List.append_assoc]⟩
        · obtain ⟨a, b, hab⟩ := h2 x h
          exact ⟨first.data ++ sep.data ++ a, b, by rw [← hab]; simp [List.append_assoc]⟩

theorem promptLines_append :
    ∀ (before : List ScoredDoc) (d : ScoredDoc) (after : List ScoredDoc)
      (lines : List String),
      promptLines (before ++ d :: after) = some lines →
      ∃ lb line la, promptLines before = some lb ∧ promptLine d = some line ∧
        promptLines after = some la ∧ lines = lb ++ line :: la := by
  intro before
  induction before with
  | nil =>
    intro d after lines h
    simp only [List.nil_append, promptLines] at h
    cases h1 : promptLine d with
    | none => simp [h1] at h
    | some line =>
      cases h2 : promptLines after with
      | none => simp [h1, h2] at h
      | some la =>
        simp only [h1, h2, Option.some.injEq] at h
        exact ⟨[], line, la, rfl, rfl, rfl, by simp [h]⟩
  | cons x rest ih =>
    intro d after lines h
    rw [List.cons_append, promptLines] at h
    cases h1 : promptLine x with
    | none => simp [h1] at h
    | some lx =>
      cases h2 : promptLines (rest ++ d :: after) with
      | none => simp [h1, h2] at h
      | some tail =>
        simp only [h1, h2, Option.some.injEq] at h
        obtain ⟨lb, line, la, e1, e2, e3, e4⟩ := ih d after tail h2
        refine ⟨lx :: lb, line, la, ?_, e2, e3, ?_⟩
        · simp only [promptLines, h1, e1]
        · rw [← h, e4]
          rfl

theorem promptLines_mem :
    ∀ (docs : List ScoredDoc) (lines : List String), promptLines docs = some lines →
      ∀ x ∈ docs, ∃ lx, promptLine x = some lx ∧ lx ∈ lines := by
  intro docs
  induction docs with
  | nil => intro lines _ x hx; simp at hx
  | cons d rest ih =>
    intro lines h x hx
    simp only [promptLines] at h
    cases h1 : promptLine d with
    | none => simp [h1] at h
    | some ld =>
      cases h2 : promptLines rest with
      | none => simp [h1, h2] at h
      | some tail =>
        simp only [h1, h2, Option.some.injEq] at h
        subst h
        rcases List.mem_cons.mp hx with e | e
        · subst e
          exact ⟨ld, h1, by simp⟩
        · obtain ⟨lx, e1, e2⟩ := ih tail h2 x e
          exact ⟨lx, e1, by simp [e2]⟩

/-- C18: the grounding prompt is computed from the ranked documents and the question
alone, and whenever it is built it reads: the opening, then for each ranked
document, in rank order, the line `- <title>: <content>` (the lines of the earlier
documents before it, those of the later documents after it), then
`User Question: ` with the question verbatim, then the closing. -/
theorem askPrompt_lines_in_order (docs : List ScoredDoc) (question prompt : String)
    (h : askPrompt docs question = some prompt) :
    (∃ body : String,
      prompt = promptIntro ++ body ++ "\n\nUser Question: " ++ question ++ promptClosing) ∧
    ∀ (before : List ScoredDoc) (d : ScoredDoc) (after : List ScoredDoc),
      docs = before ++ d :: after →
      ∃ (title content : String) (pre post : List Char),
        (d.doc.optMember "title").toStr = some title ∧
        (d.doc.optMember "content").toStr = some content ∧
        prompt.data = pre ++ ("- " ++ title ++ ": " ++ content).data ++ post ∧
        (∀ x ∈ before, ∃ lx, promptLine x = some lx ∧ lx.data <:+: pre) ∧
        (∀ y ∈ after, ∃ ly, promptLine y = some ly ∧ ly.data <:+: post) ∧
        ("\n\nUser Question: " ++ question ++ promptClosing).data <:+ post := by
  unfold askPrompt at h
  cases hl : promptLines docs with
  | none => simp [hl] at h
  | some lines =>
    simp only [hl, Option.some.injEq] at h
    refine ⟨⟨joinWith "\n\n" lines, h.symm⟩, ?_⟩
    intro before d after hdocs
    rw [hdocs] at hl
    obtain ⟨lb, line, la, e1, e2, e3, e4⟩ := promptLines_append before d after lines hl
    obtain ⟨pre, post, j1, j2, j3⟩ := joinWith_split "\n\n" lb line la
    have hline : ∃ title content, (d.doc.optMember "title").toStr = some title ∧
        (d.doc.optMember "content").toStr = some content ∧
        line = "- " ++ title ++ ": " ++ content := by
      unfold promptLine at e2
      cases hn : d.doc.nullish with
      | true => simp [JVal.member_of_nullish _ _ hn] at e2
      | false =>
        simp only [JVal.member_of_not_nullish _ _ hn] at e2
        cases ht : (d.doc.optMember "title").toStr with
        | none => simp [ht] at e2
        | some t =>
          cases hc : (d.doc.optMember "content").toStr with
          | none => simp [ht, hc] at e2
          | some c =>
            simp only [ht, hc, Option.some.injEq] at e2
            exact ⟨t, c, rfl, rfl, e2.symm⟩
    obtain ⟨title, content, ht, hc, hl2⟩ := hline
    refine ⟨title, content, promptIntro.data ++ pre,
      post ++ ("\n\nUser Question: " ++ question ++ promptClosing).data, ht, hc, ?_, ?_, ?_,
      ⟨post, rfl⟩⟩
    · rw [← h, ← hl2]
      simp only [String.data_append, e4, j1, List.append_assoc]
    · intro x hx
      obtain ⟨lx, p1, p2⟩ := promptLines_mem before lb e1 x hx
      obtain ⟨a, b, hab⟩ := j2 lx p2
      exact ⟨lx, p1, promptIntro.data ++ a, b, by rw [← hab]; simp [List.append_assoc]⟩
    · intro y hy
      obtain ⟨ly, p1, p2⟩ := promptLines_mem after la e3 y hy
      obtain ⟨a, b, hab⟩ := j3 ly p2
      exact ⟨ly, p1, a, b ++ ("\n\nUser Question: " ++ question ++ promptClosing).data, by
        rw [← hab]; simp [List.append_assoc]⟩

theorem askPrompt_lines_in_order_witness :
    (∃ body : String,
      promptIntro ++ "- Budgeting Basics: Track your expenses." ++
          "\n\nUser Question: " ++ "How do I budget?" ++ promptClosing =
        promptIntro ++ body ++ "\n\nUser Question: " ++ "How do I budget?" ++ promptClosing) ∧
    ∀ (before : List ScoredDoc) (d : ScoredDoc) (after : List ScoredDoc),
      [(⟨JVal.obj [("title", JVal.str "Budgeting Basics"),
          ("content", JVal.str "Track your expenses.")], 1⟩ : ScoredDoc)] =
        before ++ d :: after →
      ∃ (title content : String) (pre post : List Char),
        (d.doc.optMember "title").toStr = some title ∧
        (d.doc.optMember "content").toStr = some content ∧
        (promptIntro ++ "- Budgeting Basics: Track your expenses." ++
          "\n\nUser Question: " ++ "How do I budget?" ++ promptClosing).data =
          pre ++ ("- " ++ title ++ ": " ++ content).data ++ post ∧
        (∀ x ∈ before, ∃ lx, promptLine x = some lx ∧ lx.data <:+: pre) ∧
        (∀ y ∈ after, ∃ ly, promptLine y = some ly ∧ ly.data <:+: post) ∧
        ("\n\nUser Question: " ++ "How do I budget?" ++ promptClosing).data <:+ post :=
  askPrompt_lines_in_order
    [⟨JVal.obj [("title", JVal.str "Budgeting Basics"),
      ("content", JVal.str "Track your expenses.")], 1⟩]
    "How do I budget?"
    (promptIntro ++ "- Budgeting Basics: Track your expenses." ++
      "\n\nUser Question: " ++ "How do I budget?" ++ promptClosing) rfl

/-! ## The chat handler -/

theorem scoreDocs_readable (question : String) :
    ∀ (docs : List JVal) (scored : List ScoredDoc), scoreDocs question docs = some scored →
      ∀ d ∈ docs, (docContent d).isSome = true := by
  intro docs
  induction docs with
  | nil => intro _ _ d hd; simp at hd
  | cons x rest ih =>
    intro scored h d hd
    unfold scoreDocs at h
    cases hc : docContent x with
    | none => simp [hc] at h
    | some content =>
      cases hr : scoreDocs question rest with
      | none => simp [hc, hr] at h
      | some tail =>
        rcases List.mem_cons.mp hd with e | e
        · subst e
          simp [hc]
        · exact ih tail hr d e

/-- Every document the retrieval returns has a title and a content that convert to
text. -/
theorem retrieveRelevantDocs_readable (store : StoreReply) (question : String) :
    ∀ d ∈ retrieveRelevantDocs store question, (docContent d.doc).isSome = true := by
  cases store with
  | failed => intro d hd; simp [retrieveRelevantDocs] at hd
  | body result =>
    unfold retrieveRelevantDocs
    simp only
    cases hr : rankResult result question with
    | none => intro d hd; simp at hd
    | some ranked =>
      simp only [Option.getD_some]
      unfold rankResult at hr
      split at hr
      · split at hr
        · rename_i rows _
          cases h1 : rowDocs rows with
          | none => simp [h1] at hr
          | some docs =>
            cases h2 : financialDocs docs with
            | none => simp [h1, h2] at hr
            | some kept =>
              cases h3 : scoreDocs question kept with
              | none => simp [h1, h2, h3] at hr
              | some scored =>
                simp only [h1, h2, h3, Option.some.injEq] at hr
                subst hr
                intro d hd
                have hmem := (topThree_mem scored d hd).1
                rw [scoreDocs_eq_some question kept scored h3] at hmem
                simp only [List.mem_map] at hmem
                obtain ⟨x, hx, hxd⟩ := hmem
                subst hxd
                exact scoreDocs_readable question kept scored h3 x hx
        · split at hr
          · cases hr
          · injection hr with hr
            subst hr
            intro d hd
            simp at hd
        · cases hr
      · injection hr with hr
        subst hr
        intro d hd
        simp at hd

theorem promptLine_of_readable (d : ScoredDoc) (h : (docContent d.doc).isSome = true) :
    ∃ line, promptLine d = some line := by
  unfold docContent at h
  unfold promptLine
  cases h1 : d.doc.member "title" with
  | none => simp [h1] at h
  | some title =>
    cases h2 : d.doc.member "content" with
    | none => simp [h1, h2] at h
    | some content =>
      simp only [h1, h2] at h ⊢
      cases h3 : title.toStr with
      | none => simp [h3] at h
      | some t =>
        cases h4 : content.toStr with
        | none => simp [h3, h4] at h
        | some c => exact ⟨_, rfl⟩

theorem promptLines_of_readable :
    ∀ docs : List ScoredDoc, (∀ d ∈ docs, (docContent d.doc).isSome = true) →
      ∃ lines, promptLines docs = some lines := by
  intro docs
  induction docs with
  | nil => intro _; exact ⟨[], rfl⟩
  | cons d rest ih =>
    intro h
    obtain ⟨line, hl⟩ := promptLine_of_readable d (h d (by simp))
    obtain ⟨lines, hls⟩ := ih (fun x hx => h x (by simp [hx]))
    exact ⟨line :: lines, by simp only [promptLines, hl, hls]⟩

/-- The prompt is always built for the documents the retrieval returns. -/
theorem askPrompt_of_retrieved (store : StoreReply) (question : String) :
    ∃ prompt, askPrompt (retrieveRelevantDocs store question) question = some prompt := by
  obtain ⟨lines, h⟩ := promptLines_of_readable _ (retrieveRelevantDocs_readable store question)
  exact ⟨promptIntro ++ joinWith "\n\n" lines ++ "\n\nUser Question: " ++ question ++
    promptClosing, by simp only [askPrompt, h]⟩

/-- The chat handler once the token is there: the response is decided by the reply
of the model endpoint. -/
theorem ask_of_reply (env : AskEnv) (question : String) (hq : question ≠ "")
    (ht : env.tokenOk = true) :
    ask env (some question) =
      match env.reply with
      | ModelReply.failed => AskResponse.serverError
      | ModelReply.notOk => AskResponse.serverError
      | ModelReply.ok none => AskResponse.serverError
      | ModelReply.ok (some data) =>
        match askAnswer data with
        | none => AskResponse.serverError
        | some answer =>
          AskResponse.ok answer
            ((retrieveRelevantDocs env.store question).map
              (fun d => d.doc.optMember "title")) := by
  obtain ⟨prompt, hp⟩ := askPrompt_of_retrieved env.store question
  unfold ask
  simp only [hq, if_false, ht, if_true, hp]

theorem askAnswer_chatReply (text : String) :
    askAnswer (chatReply text) =
      some (if text = "" then JVal.str defaultAnswer else JVal.str text) := by
  by_cases h : text = ""
  · subst h
    rfl
  · have ht : (JVal.str text).truthy = true := by
      simp [JVal.truthy, h]
    have e : askAnswer (chatReply text) =
        some (((JVal.str text).or JVal.undefined).or (JVal.str defaultAnswer)) := rfl
    rw [e]
    simp [JVal.or, ht, h]

/-- C19, as the code has it: once the token is there, when the model call succeeds
the answer is the raw model text if that text is non-empty and the fixed default
message if the text is empty or absent; when the generative client fails (a
non-success status, or the request itself fails) the handler responds with
status 500 and no answer. -/
theorem ask_answer_or_error (env : AskEnv) (question : String) (hq : question ≠ "")
    (ht : env.tokenOk = true) :
    (∀ text : String, env.reply = ModelReply.ok (some (chatReply text)) → text ≠ "" →
      ask env (some question) =
        AskResponse.ok (JVal.str text)
          ((retrieveRelevantDocs env.store question).map
            (fun d => d.doc.optMember "title"))) ∧
    (env.reply = ModelReply.ok (some (chatReply "")) ∨
        env.reply = ModelReply.ok (some (JVal.obj [])) →
      ask env (some question) =
        AskResponse.ok (JVal.str defaultAnswer)
          ((retrieveRelevantDocs env.store question).map
            (fun d => d.doc.optMember "title"))) ∧
    (env.reply = ModelReply.notOk ∨ env.reply = ModelReply.failed →
      ask env (some question) = AskResponse.serverError) := by
  have h := ask_of_reply env question hq ht
  refine ⟨fun text hr hne => ?_, fun hr => ?_, fun hr => ?_⟩
  · rw [h, hr]
    simp only [askAnswer_chatReply, hne, if_false]
  · rcases hr with hr | hr
    · rw [h, hr]
      simp only [askAnswer_chatReply, if_true]
    · rw [h, hr]
      rfl
  · rcases hr with hr | hr <;> rw [h, hr]

theorem ask_answer_or_error_witness :
    (∀ text : String,
      (AskEnv.mk true (StoreReply.body (storeBody []))
        (ModelReply.ok (some (chatReply "UPI is a payment system.")))).reply =
          ModelReply.ok (some (chatReply text)) → text ≠ "" →
      ask ⟨true, StoreReply.body (storeBody []),
          ModelReply.ok (some (chatReply "UPI is a payment system."))⟩
          (some "What is UPI?") =
        AskResponse.ok (JVal.str text)
          ((retrieveRelevantDocs (AskEnv.mk true (StoreReply.body (storeBody []))
              (ModelReply.ok (some (chatReply "UPI is a payment system.")))).store
            "What is UPI?").map (fun d => d.doc.optMember "title"))) ∧
    ((AskEnv.mk true (StoreReply.body (storeBody []))
        (ModelReply.ok (some (chatReply "UPI is a payment system.")))).reply =
          ModelReply.ok (some (chatReply "")) ∨
      (AskEnv.mk true (StoreReply.body (storeBody []))
        (ModelReply.ok (some (chatReply "UPI is a payment system.")))).reply =
          ModelReply.ok (some (JVal.obj [])) →
      ask ⟨true, StoreReply.body (storeBody []),
          ModelReply.ok (some (chatReply "UPI is a payment system."))⟩
          (some "What is UPI?") =
        AskResponse.ok (JVal.str defaultAnswer)
          ((retrieveRelevantDocs (AskEnv.mk true (StoreReply.body (storeBody []))
              (ModelReply.ok (some (chatReply "UPI is a payment system.")))).store
            "What is UPI?").map (fun d => d.doc.optMember "title"))) ∧
    ((AskEnv.mk true (StoreReply.body (storeBody []))
        (ModelReply.ok (some (chatReply "UPI is a payment system.")))).reply =
          ModelReply.notOk ∨
      (AskEnv.mk true (StoreReply.body (storeBody []))
        (ModelReply.ok (some (chatReply "UPI is a payment system.")))).reply =
          ModelReply.failed →
      ask ⟨true, StoreReply.body (storeBody []),
          ModelReply.ok (some (chatReply "UPI is a payment system."))⟩
          (some "What is UPI?") = AskResponse.serverError) :=
  ask_answer_or_error
    ⟨true, StoreReply.body (storeBody []),
      ModelReply.ok (some (chatReply "UPI is a payment system."))⟩
    "What is UPI?" (by decide) rfl

/-- C19 fails as stated: when the model endpoint answers with a non-success status the
chat handler responds with the 500 error; it does not answer with the default
message. -/
theorem ask_model_failure_has_no_answer :
    ask ⟨true, StoreReply.body (storeBody []), ModelReply.notOk⟩ (some "What is UPI?") =
        AskResponse.serverError ∧
      ¬ ∃ references,
        ask ⟨true, StoreReply.body (storeBody []), ModelReply.notOk⟩ (some "What is UPI?") =
          AskResponse.ok (JVal.str defaultAnswer) references := by
  have e : ask ⟨true, StoreReply.body (storeBody []), ModelReply.notOk⟩
      (some "What is UPI?") = AskResponse.serverError := rfl
  refine ⟨e, ?_⟩
  rintro ⟨references, h⟩
  rw [e] at h
  cases h

/-! ## Persisting the progress record -/

/-- C20 fails on the code: for a valid submission of one generated item, answered
correctly, the handler answers with score, total, percentage and results when the
store rejects the progress record with a non-success status, but answers with the
500 error when the request that stores the record itself throws. -/
theorem submit_save_exception_is_error :
    submit ⟨true, fun _ => Fetched.notOk, SaveOutcome.rejected⟩
        ⟨some [("ai-generated-1700000000000-0-1", JVal.num 1)], some "UPI Safety"⟩ =
      SubmitResponse.ok 1 1 (some 100)
        [⟨"ai-generated-1700000000000-0-1", JVal.num 1, JVal.num 1, true⟩] ∧
    submit ⟨true, fun _ => Fetched.notOk, SaveOutcome.failed⟩
        ⟨some [("ai-generated-1700000000000-0-1", JVal.num 1)], some "UPI Safety"⟩ =
      SubmitResponse.serverError :=
  ⟨rfl, rfl⟩

set_option maxRecDepth 1000000 in
theorem retrieve_scores_positive_witness :
    1 ≤ (ScoredDoc.mk (knowledgeDoc "Rates" "Compound interest is interest on interest."
        "Interest Rates" []) 2).score ∧
      (ScoredDoc.mk (knowledgeDoc "Rates" "Compound interest is interest on interest."
        "Interest Rates" []) 2).score =
        scoreOf "compound interest"
          (ScoredDoc.mk (knowledgeDoc "Rates" "Compound interest is interest on interest."
            "Interest Rates" []) 2).doc :=
  retrieve_scores_positive
    (StoreReply.body (storeBody [knowledgeDoc "Rates"
      "Compound interest is interest on interest." "Interest Rates" []]))
    "compound interest"
    ⟨knowledgeDoc "Rates" "Compound interest is interest on interest." "Interest Rates" [], 2⟩
    (by
      have e : retrieveRelevantDocs
          (StoreReply.body (storeBody [knowledgeDoc "Rates"
            "Compound interest is interest on interest." "Interest Rates" []]))
          "compound interest" =
          [⟨knowledgeDoc "Rates" "Compound interest is interest on interest."
            "Interest Rates" [], 2⟩] := by
        rfl
      rw [e]
      exact List.mem_singleton.mpr rfl)

/-! ## Validation and external calls -/

theorem scoreLoopRun_snd (fetchQuestion : String → Fetched) :
    ∀ (entries : List (String × JVal)) (st : ScoreState),
      (scoreLoopRun fetchQuestion st entries).2 = scoreLoop fetchQuestion st entries := by
  intro entries
  induction entries with
  | nil => intro st; rfl
  | cons entry rest ih =>
    intro st
    unfold scoreLoopRun scoreLoop
    cases h : scoreStep fetchQuestion st entry with
    | none => rfl
    | some st1 => exact ih st1

/-- The response of the run of the submit handler is the response of the handler. -/
theorem submitRun_snd (env : SubmitEnv) (req : SubmitRequest) :
    (submitRun env req).2 = submit env req := by
  unfold submitRun submit
  cases req.answers with
  | none => rfl
  | some answers =>
    cases req.category with
    | none => rfl
    | some category =>
      simp only
      by_cases hc : category = ""
      · simp only [hc, if_true]
      · simp only [hc, if_false]
        cases env.headersOk with
        | false => rfl
        | true =>
          simp only [if_true, scoreLoopRun_snd]
          cases scoreLoop env.fetchQuestion ⟨0, []⟩ answers with
          | none => rfl
          | some st => cases env.save <;> rfl

/-- The response of the run of the chat handler is the response of the handler. -/
theorem askRun_snd (env : AskEnv) (question : Option String) :
    (askRun env question).2 = ask env question := by
  unfold askRun ask
  cases question with
  | none => rfl
  | some q =>
    simp only
    by_cases hq : q = ""
    · simp only [hq, if_true]
    · simp only [hq, if_false]
      cases env.tokenOk with
      | false => rfl
      | true =>
        simp only [if_true]
        cases askPrompt (retrieveRelevantDocs env.store q) q with
        | none => rfl
        | some prompt =>
          simp only
          cases env.reply with
          | failed => rfl
          | notOk => rfl
          | ok data =>
            cases data with
            | none => rfl
            | some d =>
              simp only
              cases askAnswer d <;> rfl

/-- The response of the run of the generation handler is the response of the
handler. -/
theorem generateRun_snd (env : GenEnv) (req : GenerateRequest) :
    (generateRun env req).2 = generateQuestions env req := by
  unfold generateRun generateQuestions
  cases req.category with
  | none => rfl
  | some category =>
    simp only
    by_cases hc : category = ""
    · simp only [hc, if_true]
    · simp only [hc, if_false]
      cases h : env.tokenOk with
      | false => rfl
      | true =>
        simp only [if_true]

/-- C21: a request whose required field is missing is answered with status 400 and
no external call is made: the submit handler when `answers` or `category` is
missing, the chat handler when `question` is missing, the generation handler when
`category` is missing, whatever the external services would answer; so nothing is
looked up, scored, persisted or sent to the model. -/
theorem missing_field_is_rejected_without_calls (senv : SubmitEnv) (sreq : SubmitRequest)
    (aenv : AskEnv) (genv : GenEnv) (greq : GenerateRequest)
    (hs : sreq.answers = none ∨ sreq.category = none) (hg : greq.category = none) :
    submitRun senv sreq = ([], SubmitResponse.badRequest) ∧
      submit senv sreq = SubmitResponse.badRequest ∧
      askRun aenv none = ([], AskResponse.badRequest) ∧
      ask aenv none = AskResponse.badRequest ∧
      generateRun genv greq = ([], GenerateResponse.badRequest) ∧
      generateQuestions genv greq = GenerateResponse.badRequest := by
  have h1 : submitRun senv sreq = ([], SubmitResponse.badRequest) := by
    unfold submitRun
    rcases hs with h | h
    · rw [h]
    · rw [h]
      cases sreq.answers <;> rfl
  have h3 : generateRun genv greq = ([], GenerateResponse.badRequest) := by
    unfold generateRun
    rw [hg]
  refine ⟨h1, ?_, rfl, rfl, h3, ?_⟩
  · rw [← submitRun_snd, h1]
  · rw [← generateRun_snd, h3]

theorem missing_field_is_rejected_without_calls_witness :
    submitRun ⟨true, fun _ => Fetched.notOk, SaveOutcome.saved⟩
        ⟨some [("ai-generated-1700000000000-0-1", JVal.num 1)], none⟩ =
        ([], SubmitResponse.badRequest) ∧
      submit ⟨true, fun _ => Fetched.notOk, SaveOutcome.saved⟩
        ⟨some [("ai-generated-1700000000000-0-1", JVal.num 1)], none⟩ =
        SubmitResponse.badRequest ∧
      askRun ⟨true, StoreReply.body (storeBody []),
        ModelReply.ok (some (chatReply "Hello."))⟩ none = ([], AskResponse.badRequest) ∧
      ask ⟨true, StoreReply.body (storeBody []),
        ModelReply.ok (some (chatReply "Hello."))⟩ none = AskResponse.badRequest ∧
      generateRun ⟨true, ModelReply.ok (some (chatReply "[]")), fun _ => some [],
        fun _ => 1700000000000⟩ ⟨none, some 3⟩ = ([], GenerateResponse.badRequest) ∧
      generateQuestions ⟨true, ModelReply.ok (some (chatReply "[]")), fun _ => some [],
        fun _ => 1700000000000⟩ ⟨none, some 3⟩ = GenerateResponse.badRequest :=
  missing_field_is_rejected_without_calls
    ⟨true, fun _ => Fetched.notOk, SaveOutcome.saved⟩
    ⟨some [("ai-generated-1700000000000-0-1", JVal.num 1)], none⟩
    ⟨true, StoreReply.body (storeBody []), ModelReply.ok (some (chatReply "Hello."))⟩
    ⟨true, ModelReply.ok (some (chatReply "[]")), fun _ => some [], fun _ => 1700000000000⟩
    ⟨none, some 3⟩ (Or.inr rfl) rfl

/-! ## Retrieval when the knowledge store fails -/

/-- C22, as the code has it: the retrieval does not tell an unreachable store from an
empty one.  When the request to the knowledge store fails, `retrieveRelevantDocs`
catches the exception and returns the empty list, as it does for a reachable
store without documents, and the chat handler goes on to answer with an empty list
of references. -/
theorem retrieval_failure_gives_empty (env : AskEnv) (question : String)
    (data answer : JVal) (hq : question ≠ "") (ht : env.tokenOk = true)
    (hs : env.store = StoreReply.failed)
    (hr : env.reply = ModelReply.ok (some data)) (ha : askAnswer data = some answer) :
    retrieveRelevantDocs env.store question = [] ∧
      retrieveRelevantDocs (StoreReply.body (storeBody [])) question = [] ∧
      ask env (some question) = AskResponse.ok answer [] := by
  have e1 : retrieveRelevantDocs env.store question = [] := by
    rw [hs]
    rfl
  refine ⟨e1, rfl, ?_⟩
  rw [ask_of_reply env question hq ht, hr]
  simp only [ha, e1, List.map_nil]

theorem retrieval_failure_gives_empty_witness :
    retrieveRelevantDocs
        (AskEnv.mk true StoreReply.failed
          (ModelReply.ok (some (chatReply "Never share your UPI PIN.")))).store
        "Is UPI safe?" = [] ∧
      retrieveRelevantDocs (StoreReply.body (storeBody [])) "Is UPI safe?" = [] ∧
      ask ⟨true, StoreReply.failed,
          ModelReply.ok (some (chatReply "Never share your UPI PIN."))⟩
          (some "Is UPI safe?") =
        AskResponse.ok (JVal.str "Never share your UPI PIN.") [] :=
  retrieval_failure_gives_empty
    ⟨true, StoreReply.failed, ModelReply.ok (some (chatReply "Never share your UPI PIN."))⟩
    "Is UPI safe?" (chatReply "Never share your UPI PIN.")
    (JVal.str "Never share your UPI PIN.") (by decide) rfl rfl rfl rfl

set_option maxRecDepth 1000000 in
/-- C22 fails as stated: with the knowledge store unreachable the retrieval returns the
empty list, exactly what it returns for a reachable store that has no document,
and the chat request is answered with status 200 and no references instead of a
store-unavailable error. -/
theorem retrieval_failure_is_not_an_error :
    retrieveRelevantDocs StoreReply.failed "What is compound interest?" = [] ∧
      retrieveRelevantDocs (StoreReply.body (storeBody [])) "What is compound interest?" =
        [] ∧
      ask ⟨true, StoreReply.failed,
          ModelReply.ok (some (chatReply "Interest earned on interest."))⟩
          (some "What is compound interest?") =
        AskResponse.ok (JVal.str "Interest earned on interest.") [] :=
  ⟨rfl, rfl, rfl⟩

/-! ## Re-submission -/

theorem scoreLoopRun_calls (fetchQuestion : String → Fetched) :
    ∀ (entries : List (String × JVal)) (st : ScoreState),
      ∀ c ∈ (scoreLoopRun fetchQuestion st entries).1,
        ∃ questionId, c = ExternalCall.questionGet questionId := by
  intro entries
  induction entries with
  | nil => intro st c hc; simp [scoreLoopRun] at hc
  | cons entry rest ih =>
    intro st c hc
    unfold scoreLoopRun at hc
    have hfirst : ∀ x ∈ (if startsWith entry.1 generatedTag = true then []
        else [ExternalCall.questionGet entry.1]),
        ∃ questionId, x = ExternalCall.questionGet questionId := by
      intro x hx
      split at hx
      · simp at hx
      · simp only [List.mem_singleton] at hx
        exact ⟨_, hx⟩
    cases h : scoreStep fetchQuestion st entry with
    | none =>
      simp only [h] at hc
      exact hfirst c hc
    | some st1 =>
      simp only [h, List.mem_append] at hc
      rcases hc with hc | hc
      · exact hfirst c hc
      · exact ih st1 c hc

/-- For a 200 response the calls of the run are the token, the lookups of the loop
and, last, the post of the progress document. -/
theorem submitRun_calls_of_ok (env : SubmitEnv) (req : SubmitRequest) (score total : Nat)
    (pct : Option Nat) (results : List ResultEntry)
    (h : submit env req = SubmitResponse.ok score total pct results) :
    ∃ answers, req.answers = some answers ∧
      (submitRun env req).1 =
        ExternalCall.token ::
          ((scoreLoopRun env.fetchQuestion ⟨0, []⟩ answers).1 ++
            [ExternalCall.progressPost]) := by
  unfold submit at h
  unfold submitRun
  cases ha : req.answers with
  | none => simp [ha] at h
  | some answers =>
    cases hc : req.category with
    | none => simp [ha, hc] at h
    | some category =>
      simp only [ha, hc] at h ⊢
      by_cases hcat : category = ""
      · simp [hcat] at h
      · simp only [hcat, if_false] at h ⊢
        cases hh : env.headersOk with
        | false => simp [hh] at h
        | true =>
          simp only [hh, if_true, scoreLoopRun_snd] at h ⊢
          cases hl : scoreLoop env.fetchQuestion ⟨0, []⟩ answers with
          | none => simp [hl] at h
          | some st =>
            simp only [hl] at h ⊢
            cases hsv : env.save with
            | failed => simp [hsv] at h
            | saved => exact ⟨answers, rfl, rfl⟩
            | rejected => exact ⟨answers, rfl, rfl⟩

/-- C24: scoring reads the question store and never writes to it.  Two submissions
of the same answers against the same question store that are both answered with
status 200 carry the same score, totalQuestions, percentage and results, whatever
happened to the progress store in between; every call of the run is the token
request, a read of the question store or the post of the progress document, and
that post is the only write. -/
theorem submit_is_repeatable (env1 env2 : SubmitEnv) (req : SubmitRequest)
    (s1 t1 s2 t2 : Nat) (p1 p2 : Option Nat) (r1 r2 : List ResultEntry)
    (hstore : env1.fetchQuestion = env2.fetchQuestion)
    (h1 : submit env1 req = SubmitResponse.ok s1 t1 p1 r1)
    (h2 : submit env2 req = SubmitResponse.ok s2 t2 p2 r2) :
    s1 = s2 ∧ t1 = t2 ∧ p1 = p2 ∧ r1 = r2 ∧
      (∀ c ∈ (submitRun env1 req).1,
        c = ExternalCall.token ∨ (∃ questionId, c = ExternalCall.questionGet questionId) ∨
          c = ExternalCall.progressPost) ∧
      (submitRun env1 req).1.filter (fun c => !c.isRead) = [ExternalCall.progressPost] := by
  obtain ⟨a1, ha1, ht1, hp1, hl1⟩ := submit_ok_inv env1 req s1 t1 p1 r1 h1
  obtain ⟨a2, ha2, ht2, hp2, hl2⟩ := submit_ok_inv env2 req s2 t2 p2 r2 h2
  have ha : a1 = a2 := by
    rw [ha1] at ha2
    injection ha2
  subst ha
  rw [hstore, hl2] at hl1
  injection hl1 with hl1
  injection hl1 with hs hr
  obtain ⟨a3, ha3, hcalls⟩ := submitRun_calls_of_ok env1 req s1 t1 p1 r1 h1
  have hreads := scoreLoopRun_calls env1.fetchQuestion a3 ⟨0, []⟩
  refine ⟨hs.symm, by rw [ht1, ht2], by rw [hp1, hp2, ← hs, ht1, ht2], hr.symm, ?_, ?_⟩
  · intro c hc
    rw [hcalls] at hc
    simp only [List.mem_cons, List.mem_append, List.mem_singleton, List.not_mem_nil,
      or_false] at hc
    rcases hc with hc | hc | hc
    · exact Or.inl hc
    · exact Or.inr (Or.inl (hreads c hc))
    · exact Or.inr (Or.inr hc)
  · rw [hcalls]
    have hnone : (scoreLoopRun env1.fetchQuestion ⟨0, []⟩ a3).1.filter
        (fun c => !c.isRead) = [] := by
      rw [List.filter_eq_nil_iff]
      intro c hc
      obtain ⟨questionId, hq⟩ := hreads c hc
      subst hq
      simp [ExternalCall.isRead]
    rw [List.filter_cons, List.filter_append, hnone]
    rfl

theorem submit_is_repeatable_witness :
    (1 : Nat) = 1 ∧ (1 : Nat) = 1 ∧ (some 100 : Option Nat) = some 100 ∧
      [ResultEntry.mk "question-7" (JVal.num 2) (JVal.num 2) true] =
        [ResultEntry.mk "question-7" (JVal.num 2) (JVal.num 2) true] ∧
      (∀ c ∈ (submitRun
          ⟨true, fun _ => Fetched.ok (JVal.obj [("answer", JVal.num 2)]), SaveOutcome.saved⟩
          ⟨some [("question-7", JVal.num 2)], some "Budgeting"⟩).1,
        c = ExternalCall.token ∨ (∃ questionId, c = ExternalCall.questionGet questionId) ∨
          c = ExternalCall.progressPost) ∧
      (submitRun
          ⟨true, fun _ => Fetched.ok (JVal.obj [("answer", JVal.num 2)]), SaveOutcome.saved⟩
          ⟨some [("question-7", JVal.num 2)], some "Budgeting"⟩).1.filter
        (fun c => !c.isRead) = [ExternalCall.progressPost] :=
  submit_is_repeatable
    ⟨true, fun _ => Fetched.ok (JVal.obj [("answer", JVal.num 2)]), SaveOutcome.saved⟩
    ⟨true, fun _ => Fetched.ok (JVal.obj [("answer", JVal.num 2)]), SaveOutcome.rejected⟩
    ⟨some [("question-7", JVal.num 2)], some "Budgeting"⟩
    1 1 1 1 (some 100) (some 100)
    [⟨"question-7", JVal.num 2, JVal.num 2, true⟩]
    [⟨"question-7", JVal.num 2, JVal.num 2, true⟩] rfl rfl rfl

/-! ## Bounds on the submit response -/

theorem scoreLoop_sublist (fetchQuestion : String → Fetched) :
    ∀ (entries : List (String × JVal)) (st st1 : ScoreState),
      scoreLoop fetchQuestion st entries = some st1 →
      ∃ added : List ResultEntry,
        st1.results = st.results ++ added ∧
        (added.map (fun r => (r.questionId, r.userAnswer))).Sublist entries := by
  intro entries
  induction entries with
  | nil =>
    intro st st1 h
    simp only [scoreLoop, Option.some.injEq] at h
    subst h
    exact ⟨[], by simp, by simp⟩
  | cons entry rest ih =>
    intro st st1 h
    simp only [scoreLoop] at h
    cases hs : scoreStep fetchQuestion st entry with
    | none => simp [hs] at h
    | some st2 =>
      simp only [hs] at h
      obtain ⟨a1, hr1, _, hl1, hp1⟩ := scoreStep_spec fetchQuestion st st2 entry hs
      obtain ⟨a2, hr2, hsub⟩ := ih st2 st1 h
      refine ⟨a1 ++ a2, by rw [hr2, hr1, List.append_assoc], ?_⟩
      have hlen : a1.length ≤ 1 := by
        rw [hl1]
        exact List.length_filter_le _ _
      cases a1 with
      | nil => exact hsub.cons _
      | cons r tail =>
        have htail : tail = [] := by
          cases tail with
          | nil => rfl
          | cons _ _ => simp at hlen
        subst htail
        obtain ⟨e1, e2, _⟩ := hp1 r (by simp)
        have : (r.questionId, r.userAnswer) = entry := by
          rw [e1, e2]
        simp only [List.singleton_append, List.map_cons, this]
        exact hsub.cons₂ _

/-- The computed percentage of a score that does not exceed the total is at most
100. -/
theorem percentage_le_hundred (s t : Nat) (ht : 0 < t) (hst : s ≤ t) :
    ∃ p, percentage s t = some p ∧ p ≤ 100 := by
  have ht0 : t ≠ 0 := by omega
  unfold percentage
  simp only [ht0, if_false]
  refine ⟨_, rfl, ?_⟩
  by_cases hs : s = 0
  · subst hs
    have e1 : ((nearestDouble 0 t).mulNat 100).round = 0 := by
      simp [nearestDouble, Dbl.mulNat, Dbl.round]
    rw [e1]
    omega
  · have hspos : 0 < s := by omega
    obtain ⟨ql, qu⟩ := nearestDouble_bounds s t hspos ht
    set q := nearestDouble s t with hq
    have hsq : (0 : ℚ) < s := by exact_mod_cast hspos
    have htq : (0 : ℚ) < t := by exact_mod_cast ht
    have hstq : (s : ℚ) ≤ t := by exact_mod_cast hst
    have hx0 : (0 : ℚ) < (s : ℚ) / t := by positivity
    have hx1 : (s : ℚ) / t ≤ 1 := by
      rw [div_le_one htq]
      exact hstq
    have hqpos : (0 : ℚ) < q.toRat := by
      have : (0 : ℚ) < (s : ℚ) / t * (1 - 1 / 2 ^ 53) := by
        apply mul_pos hx0
        norm_num
      linarith
    have hmant : 0 < q.mant := by
      rcases Nat.eq_zero_or_pos q.mant with h0 | h0
      · simp [Dbl.toRat, h0] at hqpos
      · exact h0
    have hnum : 0 < q.mant * 100 * 2 ^ q.up := by positivity
    have hden : 0 < 2 ^ q.down := by positivity
    obtain ⟨_, pu⟩ := nearestDouble_bounds (q.mant * 100 * 2 ^ q.up) (2 ^ q.down) hnum hden
    have hprod : ((q.mant * 100 * 2 ^ q.up : Nat) : ℚ) / ((2 ^ q.down : Nat) : ℚ) =
        100 * q.toRat := by
      unfold Dbl.toRat
      push_cast
      ring
    rw [hprod] at pu
    have hp : q.mulNat 100 = nearestDouble (q.mant * 100 * 2 ^ q.up) (2 ^ q.down) := rfl
    rw [← hp] at pu
    obtain ⟨rl, _⟩ := Dbl.round_bounds (q.mulNat 100)
    have hqle : q.toRat ≤ 1 + 1 / 2 ^ 53 := by
      have : (s : ℚ) / t * (1 + 1 / 2 ^ 53) ≤ 1 * (1 + 1 / 2 ^ 53) :=
        mul_le_mul_of_nonneg_right hx1 (by norm_num)
      linarith
    have hPle : (q.mulNat 100).toRat ≤ 100 * (1 + 1 / 2 ^ 53) * (1 + 1 / 2 ^ 53) := by
      calc (q.mulNat 100).toRat ≤ 100 * q.toRat * (1 + 1 / 2 ^ 53) := pu
        _ ≤ 100 * (1 + 1 / 2 ^ 53) * (1 + 1 / 2 ^ 53) := by
          apply mul_le_mul_of_nonneg_right _ (by norm_num)
          linarith
    have hlt : (((q.mulNat 100).round : Nat) : ℚ) < 101 := by
      have e : (100 : ℚ) * (1 + 1 / 2 ^ 53) * (1 + 1 / 2 ^ 53) + 1 / 2 < 101 := by norm_num
      linarith
    have : (q.mulNat 100).round < 101 := by exact_mod_cast hlt
    omega

/-- C30: in every 200 response, score ≤ number of entries of `results` ≤
totalQuestions; the identifiers and answers of `results` are entries of the
submitted `answers`, in submission order, each taken at most once (so a result's
`questionId` appears once when the keys of the map are distinct); and for a
submission with at least one entry the percentage is a number from 0 to 100. -/
theorem submit_response_bounds (env : SubmitEnv) (req : SubmitRequest)
    (score total : Nat) (pct : Option Nat) (results : List ResultEntry)
    (h : submit env req = SubmitResponse.ok score total pct results) :
    score ≤ results.length ∧ results.length ≤ total ∧
    ∃ answers, req.answers = some answers ∧
      (results.map (fun r => (r.questionId, r.userAnswer))).Sublist answers ∧
      ((answers.map Prod.fst).Nodup → (results.map (fun r => r.questionId)).Nodup) ∧
      (0 < answers.length → ∃ p, pct = some p ∧ 0 ≤ p ∧ p ≤ 100) := by
  obtain ⟨answers, ha, htot, hp, hl⟩ := submit_ok_inv env req score total pct results h
  obtain ⟨added, hr, hs, hlen, _⟩ := scoreLoop_spec env.fetchQuestion answers _ _ hl
  obtain ⟨added2, hr2, hsub⟩ := scoreLoop_sublist env.fetchQuestion answers _ _ hl
  simp only [List.nil_append] at hr hr2
  simp only [Nat.zero_add] at hs
  have hres : results = added := hr
  have hres2 : results = added2 := hr2
  have h1 : score ≤ results.length := by
    rw [hs, hres]
    exact List.length_filter_le _ _
  have h2 : results.length ≤ total := by
    rw [hres, hlen, htot]
    exact List.length_filter_le _ _
  refine ⟨h1, h2, answers, ha, by rw [hres2]; exact hsub, ?_, ?_⟩
  · intro hnd
    have hsub2 : ((results.map (fun r => (r.questionId, r.userAnswer))).map Prod.fst).Sublist
        (answers.map Prod.fst) := by
      rw [hres2]
      exact hsub.map Prod.fst
    rw [List.map_map] at hsub2
    exact hnd.sublist hsub2
  · intro hpos
    obtain ⟨p, hp1, hp2⟩ := percentage_le_hundred score total (by omega) (by omega)
    exact ⟨p, by rw [hp, hp1], Nat.zero_le _, hp2⟩

theorem submit_response_bounds_witness :
    2 ≤ [ResultEntry.mk "ai-generated-1700000000000-0-1" (JVal.num 1) (JVal.num 1) true,
        ResultEntry.mk "question-7" (JVal.num 2) (JVal.num 2) true].length ∧
      [ResultEntry.mk "ai-generated-1700000000000-0-1" (JVal.num 1) (JVal.num 1) true,
        ResultEntry.mk "question-7" (JVal.num 2) (JVal.num 2) true].length ≤ 2 ∧
    ∃ answers,
      (SubmitRequest.mk (some [("ai-generated-1700000000000-0-1", JVal.num 1),
        ("question-7", JVal.num 2)]) (some "Budgeting")).answers = some answers ∧
      ([ResultEntry.mk "ai-generated-1700000000000-0-1" (JVal.num 1) (JVal.num 1) true,
        ResultEntry.mk "question-7" (JVal.num 2) (JVal.num 2) true].map
          (fun r => (r.questionId, r.userAnswer))).Sublist answers ∧
      ((answers.map Prod.fst).Nodup →
        ([ResultEntry.mk "ai-generated-1700000000000-0-1" (JVal.num 1) (JVal.num 1) true,
          ResultEntry.mk "question-7" (JVal.num 2) (JVal.num 2) true].map
            (fun r => r.questionId)).Nodup) ∧
      (0 < answers.length → ∃ p, (some 100 : Option Nat) = some p ∧ 0 ≤ p ∧ p ≤ 100) :=
  submit_response_bounds
    ⟨true, fun _ => Fetched.ok (JVal.obj [("answer", JVal.num 2)]), SaveOutcome.saved⟩
    ⟨some [("ai-generated-1700000000000-0-1", JVal.num 1), ("question-7", JVal.num 2)],
      some "Budgeting"⟩
    2 2 (some 100)
    [⟨"ai-generated-1700000000000-0-1", JVal.num 1, JVal.num 1, true⟩,
      ⟨"question-7", JVal.num 2, JVal.num 2, true⟩] rfl

/-! ## The bracket scan and the cleaning step, continued -/

theorem dropWhile_ne_append (x : Char) (a b : List Char) (h : x ∉ a) :
    (a ++ x :: b).dropWhile (fun c => c != x) = x :: b := by
  induction a with
  | nil => simp [List.dropWhile_cons]
  | cons c cs ih =>
    have hc : c ≠ x := fun e => h (by simp [e])
    have hcs : x ∉ cs := fun e => h (by simp [e])
    simp [List.dropWhile_cons, hc, ih hcs]

/-- The bracket scan takes the text from the first `[` to the last `]`. -/
theorem matchBracketSpan_first_to_last (before inner after : List Char)
    (hb : '[' ∉ before) (ha : ']' ∉ after) :
    matchBracketSpan (before ++ '[' :: (inner ++ ']' :: after)) =
      some ('[' :: (inner ++ [']'])) := by
  unfold matchBracketSpan
  rw [dropWhile_ne_append '[' before _ hb]
  simp only
  have hrev : (inner ++ ']' :: after).reverse = after.reverse ++ ']' :: inner.reverse := by
    simp
  rw [hrev, dropWhile_ne_append ']' after.reverse inner.reverse (by simpa using ha)]
  simp

/-- C26, as the code has it: for a cleaned text `P ++ A ++ S` where `P` contains no
`[` and `A` is a bracketed text `[ ... ]`, the span handed to the JSON parser runs
from the `[` of `A` to the last `]` of the whole text.  It is exactly `A` when the
trailing text `S` contains no `]`; when `S` contains a `]` the span is `A` followed
by `S` up to its last `]`. -/
theorem matchBracketSpan_greedy (before inner after : List Char) (hb : '[' ∉ before) :
    (']' ∉ after →
      matchBracketSpan (before ++ ('[' :: (inner ++ [']'])) ++ after) =
        some ('[' :: (inner ++ [']']))) ∧
    (∀ s1 s2 : List Char, after = s1 ++ ']' :: s2 → ']' ∉ s2 →
      matchBracketSpan (before ++ ('[' :: (inner ++ [']'])) ++ after) =
        some (('[' :: (inner ++ [']'])) ++ s1 ++ [']'])) := by
  constructor
  · intro ha
    have e : before ++ ('[' :: (inner ++ [']'])) ++ after =
        before ++ '[' :: (inner ++ ']' :: after) := by simp
    rw [e]
    exact matchBracketSpan_first_to_last before inner after hb ha
  · intro s1 s2 hs h2
    have e : before ++ ('[' :: (inner ++ [']'])) ++ after =
        before ++ '[' :: ((inner ++ ']' :: s1) ++ ']' :: s2) := by
      rw [hs]
      simp
    rw [e, matchBracketSpan_first_to_last before (inner ++ ']' :: s1) s2 hb h2]
    simp

theorem matchBracketSpan_greedy_witness :
    (']' ∉ " Enjoy the quiz!".data →
      matchBracketSpan ("Here you go: ".data ++ ('[' :: ("1, 2".data ++ [']'])) ++
          " Enjoy the quiz!".data) =
        some ('[' :: ("1, 2".data ++ [']']))) ∧
    (∀ s1 s2 : List Char, " Enjoy the quiz!".data = s1 ++ ']' :: s2 → ']' ∉ s2 →
      matchBracketSpan ("Here you go: ".data ++ ('[' :: ("1, 2".data ++ [']'])) ++
          " Enjoy the quiz!".data) =
        some (('[' :: ("1, 2".data ++ [']'])) ++ s1 ++ [']'])) :=
  matchBracketSpan_greedy "Here you go: ".data "1, 2".data " Enjoy the quiz!".data
    (by decide)

/-- C26 fails as stated: in the cleaned text `[] (see [1])` the array text is `[]` and
nothing stands before it, yet the span handed to the parser is the whole text
`[] (see [1]`, up to its last `]`, because the scan is greedy. -/
theorem matchBracketSpan_runs_to_last_bracket :
    "[] (see [1])".data = [] ++ "[]".data ++ " (see [1])".data ∧
      cleanResponse "[] (see [1])".data = "[] (see [1])".data ∧
      matchBracketSpan "[] (see [1])".data = some "[] (see [1]".data ∧
      matchBracketSpan "[] (see [1])".data ≠ some "[]".data := by
  decide

theorem replaceTripleQuotes_of_not_includes (s : List Char)
    (h : includesTripleQuote s = false) : replaceTripleQuotes s = s := by
  induction s using replaceTripleQuotes.induct with
  | case1 => rfl
  | case2 a => rfl
  | case3 a b => rfl
  | case4 a b c rest hq ih =>
    obtain ⟨ha, hb, hc⟩ := hq
    subst ha hb hc
    simp [includesTripleQuote] at h
  | case5 a b c rest hq ih =>
    rw [replaceTripleQuotes, if_neg hq]
    have h2 : includesTripleQuote (b :: c :: rest) = false := by
      unfold includesTripleQuote at h
      simp only [Bool.or_eq_false_iff] at h
      exact h.2
    rw [ih h2]

/-- C27, as the code has it: the cleaning step is one left-to-right pass that
replaces each tripled quotation mark it meets by one quotation mark and resumes
after it; it only removes quotation marks, and a text without the pattern is left
unchanged.  (A cleaned text can still contain three consecutive quotation marks.) -/
theorem cleanResponse_single_pass (s : List Char) :
    (includesTripleQuote s = false → cleanResponse s = s) ∧
      cleanResponse s = replaceTripleQuotes s ∧
      (cleanResponse s).Sublist s ∧
      (∀ rest : List Char,
        replaceTripleQuotes (quote :: quote :: quote :: rest) =
          quote :: replaceTripleQuotes rest) ∧
      (∀ (a b c : Char) (rest : List Char), ¬ (a = quote ∧ b = quote ∧ c = quote) →
        replaceTripleQuotes (a :: b :: c :: rest) =
          a :: replaceTripleQuotes (b :: c :: rest)) := by
  refine ⟨?_, ?_, cleanResponse_sublist s, ?_, ?_⟩
  · intro h
    unfold cleanResponse
    simp [h]
  · unfold cleanResponse
    cases h : includesTripleQuote s with
    | true => simp
    | false => simp [replaceTripleQuotes_of_not_includes s h]
  · intro rest
    rw [replaceTripleQuotes]
    simp
  · intro a b c rest h
    rw [replaceTripleQuotes, if_neg h]

/-- C27 fails as stated: a raw text of five quotation marks is cleaned to three
quotation marks (the first three become one, the other two stay), so the cleaned
text still contains the tripled quotation mark. -/
theorem cleanResponse_leaves_triple_quote :
    cleanResponse [quote, quote, quote, quote, quote] = [quote, quote, quote] ∧
      includesTripleQuote (cleanResponse [quote, quote, quote, quote, quote]) = true := by
  decide

/-! ## Decimal numerals: what `parseInt` reads back from the text of a number -/

theorem digitChar_decimal (k : Nat) (h : k < 10) :
    isDecimalDigit (Nat.digitChar k) = true ∧ (Nat.digitChar k).toNat - 48 = k := by
  interval_cases k <;> decide

theorem toDigitsCore_spec : ∀ (fuel n : Nat) (ds : List Char), n < fuel →
    ∃ pre, Nat.toDigitsCore 10 fuel n ds = pre ++ ds ∧ pre ≠ [] ∧
      (∀ c ∈ pre, isDecimalDigit c = true) ∧
      pre.foldl (fun acc c => acc * 10 + (c.toNat - 48)) 0 = n := by
  intro fuel
  induction fuel with
  | zero =>
    intro n ds h
    omega
  | succ fuel ih =>
    intro n ds h
    obtain ⟨hd, hv⟩ := digitChar_decimal (n % 10) (Nat.mod_lt _ (by decide))
    unfold Nat.toDigitsCore
    simp only
    by_cases h0 : n / 10 = 0
    · rw [if_pos h0]
      refine ⟨[Nat.digitChar (n % 10)], rfl, by simp, ?_, ?_⟩
      · intro c hc
        rw [List.mem_singleton] at hc
        rw [hc]
        exact hd
      · simp only [List.foldl, Nat.zero_mul, Nat.zero_add, hv]
        omega
    · rw [if_neg h0]
      obtain ⟨pre, h1, _, h3, h4⟩ := ih (n / 10) (Nat.digitChar (n % 10) :: ds) (by omega)
      refine ⟨pre ++ [Nat.digitChar (n % 10)], ?_, by simp, ?_, ?_⟩
      · rw [h1]
        simp
      · intro c hc
        rw [List.mem_append, List.mem_singleton] at hc
        rcases hc with hc | hc
        · exact h3 c hc
        · rw [hc]
          exact hd
      · rw [List.foldl_append, h4]
        simp only [List.foldl, hv]
        omega

/-- The decimal text of a natural number: not empty, made of decimal digits, and of
that value. -/
theorem toString_nat_spec (n : Nat) :
    (toString n).data ≠ [] ∧ (∀ c ∈ (toString n).data, isDecimalDigit c = true) ∧
      (toString n).data.foldl (fun acc c => acc * 10 + (c.toNat - 48)) 0 = n := by
  obtain ⟨pre, h1, h2, h3, h4⟩ := toDigitsCore_spec (n + 1) n [] (Nat.lt_succ_self n)
  have e : (toString n).data = pre := by
    show (Nat.repr n).data = pre
    unfold Nat.repr Nat.toDigits
    rw [h1]
    simp [List.asString]
  rw [e]
  exact ⟨h2, h3, h4⟩

theorem not_mem_of_decimal (x : Char) (hx : isDecimalDigit x = false) (s : List Char)
    (h : ∀ c ∈ s, isDecimalDigit c = true) : x ∉ s := by
  intro hm
  rw [h x hm] at hx
  cases hx

theorem dash_not_mem_toString_nat (n : Nat) : '-' ∉ (toString n).data :=
  not_mem_of_decimal '-' (by decide) _ (toString_nat_spec n).2.1

theorem radixDigit_ten_of_digit (c : Char) (h : isDecimalDigit c = true) :
    radixDigit 10 c = some (c.toNat - 48) := by
  unfold isDecimalDigit at h
  simp only [Bool.and_eq_true, decide_eq_true_eq] at h
  unfold radixDigit
  simp only [h, and_self, if_true, Option.filter]
  have : c.toNat - 48 < 10 := by omega
  simp [this]

theorem leadingDigits_of_digits (s : List Char) (h : ∀ c ∈ s, isDecimalDigit c = true) :
    leadingDigits 10 s = s.map (fun c => c.toNat - 48) := by
  induction s with
  | nil => rfl
  | cons c cs ih =>
    simp only [leadingDigits, radixDigit_ten_of_digit c (h c (by simp)), List.map_cons]
    rw [ih (fun x hx => h x (by simp [hx]))]

theorem isStrWhiteSpace_of_digit (c : Char) (h : isDecimalDigit c = true) :
    isStrWhiteSpace c = false := by
  unfold isDecimalDigit at h
  simp only [Bool.and_eq_true, decide_eq_true_eq] at h
  unfold isStrWhiteSpace
  simp only [Bool.or_eq_false_iff, Bool.and_eq_false_iff, beq_eq_false_iff_ne, ne_eq,
    decide_eq_false_iff_not]
  omega

/-- The global `parseInt` on a non-empty text of decimal digits gives its value. -/
theorem parseInt_of_digits (s : List Char) (hne : s ≠ [])
    (h : ∀ c ∈ s, isDecimalDigit c = true) :
    parseInt s =
      some ((s.foldl (fun acc c => acc * 10 + (c.toNat - 48)) 0 : Nat) : Int) := by
  cases s with
  | nil => exact absurd rfl hne
  | cons c rest =>
    have hc := h c (by simp)
    have hws := isStrWhiteSpace_of_digit c hc
    have hm : c ≠ '-' := by
      intro e
      rw [e] at hc
      exact absurd hc (by decide)
    have hp : c ≠ '+' := by
      intro e
      rw [e] at hc
      exact absurd hc (by decide)
    have hdw : List.dropWhile isStrWhiteSpace (c :: rest) = c :: rest := by
      simp [List.dropWhile_cons, hws]
    have hsg : (match c :: rest with
        | '-' :: r => (true, r)
        | '+' :: r => (false, r)
        | _ => (false, c :: rest)) = (false, c :: rest) := by
      split
      · rename_i heq
        injection heq with h1 _
        exact absurd h1 hm
      · rename_i heq
        injection heq with h1 _
        exact absurd h1 hp
      · rfl
    have hx : ∀ r : List Char, rest ≠ 'x' :: r := by
      intro r e
      have := h 'x' (by simp [e])
      exact absurd this (by decide)
    have hX : ∀ r : List Char, rest ≠ 'X' :: r := by
      intro r e
      have := h 'X' (by simp [e])
      exact absurd this (by decide)
    have hb : (match c :: rest with
        | '0' :: 'x' :: r => ((16 : Nat), r)
        | '0' :: 'X' :: r => (16, r)
        | _ => (10, c :: rest)) = (10, c :: rest) := by
      split
      · rename_i heq
        injection heq with _ h2
        exact absurd h2 (hx _)
      · rename_i heq
        injection heq with _ h2
        exact absurd h2 (hX _)
      · rfl
    unfold parseInt
    simp only [hdw, hsg, hb, leadingDigits_of_digits (c :: rest) h]
    simp [List.foldl_map]

theorem parseInt_toString_nat (n : Nat) : parseInt (toString n).data = some (n : Int) := by
  obtain ⟨h1, h2, h3⟩ := toString_nat_spec n
  rw [parseInt_of_digits _ h1 h2, h3]

theorem toString_nat_injective (m n : Nat) (h : (toString m).data = (toString n).data) :
    m = n := by
  have h1 := parseInt_toString_nat m
  rw [h, parseInt_toString_nat n] at h1
  injection h1 with h1
  exact (Int.ofNat.inj h1).symm

/-! ## Generated identifiers within one response -/

theorem formatQuestions_some_inv (category : String) (now : Nat → Nat) :
    ∀ (qs : List JVal) (start : Nat) (items : List QuizItem),
      formatQuestions category now start qs = some items →
      items.length = qs.length ∧
        ∀ (i : Nat) (item : QuizItem), items[i]? = some item →
          ∃ q, qs[i]? = some q ∧
            formatQuestion category (now (start + i)) (start + i) q = some item := by
  intro qs
  induction qs with
  | nil =>
    intro start items h
    simp only [formatQuestions] at h
    injection h with h
    subst h
    exact ⟨rfl, by simp⟩
  | cons q rest ih =>
    intro start items h
    simp only [formatQuestions] at h
    cases h1 : formatQuestion category (now start) start q with
    | none => simp [h1] at h
    | some item0 =>
      cases h2 : formatQuestions category now (start + 1) rest with
      | none => simp [h1, h2] at h
      | some items0 =>
        simp only [h1, h2] at h
        injection h with h
        subst h
        obtain ⟨hl, hp⟩ := ih (start + 1) items0 h2
        refine ⟨by simp [hl], ?_⟩
        intro i item hi
        cases i with
        | zero =>
          simp only [List.getElem?_cons_zero] at hi
          injection hi with hi
          subst hi
          exact ⟨q, by simp, by simpa using h1⟩
        | succ k =>
          simp only [List.getElem?_cons_succ] at hi
          obtain ⟨x, hx1, hx2⟩ := hp k item hi
          refine ⟨x, by simpa using hx1, ?_⟩
          rw [show start + (k + 1) = start + 1 + k by omega]
          exact hx2

/-- Every item of a successful response was made by the formatting callback, at its
position, from some question (parsed or taken from the fallback bank). -/
theorem generateQuestions_ok_inv (env : GenEnv) (req : GenerateRequest)
    (items : List QuizItem) (category : String)
    (h : generateQuestions env req = GenerateResponse.ok items category) :
    ∃ qs : List JVal, items.length = qs.length ∧
      ∀ (i : Nat) (item : QuizItem), items[i]? = some item →
        ∃ q, qs[i]? = some q ∧ formatQuestion category (env.now i) i q = some item := by
  unfold generateQuestions at h
  split at h
  · cases h
  · rename_i cat _
    split at h
    · cases h
    · split at h
      · split at h
        · cases h
        · cases h
        · cases h
        · split at h
          · cases h
          · simp only at h
            split at h
            · cases h
            · rename_i qs _
              split at h
              · cases h
              · rename_i items0 hf
                injection h with h1 h2
                subst h1 h2
                obtain ⟨hl, hp⟩ := formatQuestions_some_inv cat env.now qs 0 items0 hf
                refine ⟨qs, hl, ?_⟩
                intro i item hi
                obtain ⟨q, hq1, hq2⟩ := hp i item hi
                rw [Nat.zero_add] at hq2
                exact ⟨q, hq1, hq2⟩
      · cases h

theorem append_sep_unique (sep : Char) : ∀ (a b x y : List Char), sep ∉ a → sep ∉ b →
    a ++ sep :: x = b ++ sep :: y → a = b ∧ x = y := by
  intro a
  induction a with
  | nil =>
    intro b x y _ hb h
    cases b with
    | nil =>
      simp only [List.nil_append] at h
      injection h with _ h
      exact ⟨rfl, h⟩
    | cons c cs =>
      simp only [List.nil_append, List.cons_append] at h
      injection h with h1 _
      exact absurd (by simp [h1]) hb
  | cons c cs ih =>
    intro b x y ha hb h
    cases b with
    | nil =>
      simp only [List.nil_append, List.cons_append] at h
      injection h with h1 _
      exact absurd (by simp [h1]) ha
    | cons d ds =>
      simp only [List.cons_append] at h
      injection h with h1 h2
      obtain ⟨e1, e2⟩ := ih ds x y (fun m => ha (by simp [m])) (fun m => hb (by simp [m])) h2
      exact ⟨by rw [h1, e1], e2⟩

/-- Two identifiers made by the encoding are equal only when timestamp, ordinal and
answer text are. -/
theorem encodeId_injective (t1 n1 t2 n2 : Nat) (a1 a2 : String)
    (h : encodeId t1 n1 a1 = encodeId t2 n2 a2) : t1 = t2 ∧ n1 = n2 ∧ a1.data = a2.data := by
  have hd := congrArg String.data h
  rw [encodeId_data, encodeId_data] at hd
  simp only [List.append_assoc, List.cons_append] at hd
  have h1 := List.append_cancel_left hd
  obtain ⟨e1, h2⟩ := append_sep_unique '-' _ _ _ _ (dash_not_mem_toString_nat t1)
    (dash_not_mem_toString_nat t2) h1
  obtain ⟨e2, h3⟩ := append_sep_unique '-' _ _ _ _ (dash_not_mem_toString_nat n1)
    (dash_not_mem_toString_nat n2) h2
  exact ⟨toString_nat_injective _ _ e1, toString_nat_injective _ _ e2, h3⟩

/-- C29: within one response of the quiz-generation handler the item identifiers are
pairwise distinct: whatever the parsed array (or the fallback), the timestamps and
the `correctAnswer` values, two items at different positions never have the same
`_id`. -/
theorem generated_ids_pairwise_distinct (env : GenEnv) (req : GenerateRequest)
    (items : List QuizItem) (category : String)
    (h : generateQuestions env req = GenerateResponse.ok items category)
    (i j : Nat) (x y : QuizItem) (hi : items[i]? = some x) (hj : items[j]? = some y)
    (hij : i ≠ j) : x._id ≠ y._id := by
  obtain ⟨qs, _, hp⟩ := generateQuestions_ok_inv env req items category h
  obtain ⟨q1, _, hq1⟩ := hp i x hi
  obtain ⟨q2, _, hq2⟩ := hp j y hj
  obtain ⟨_, _, _, a1, _, e1⟩ := formatQuestion_some_inv category _ i q1 x hq1
  obtain ⟨_, _, _, a2, _, e2⟩ := formatQuestion_some_inv category _ j q2 y hq2
  intro heq
  rw [e1, e2] at heq
  exact hij (encodeId_injective _ _ _ _ _ _ heq).2.1

theorem generated_ids_pairwise_distinct_witness :
    (⟨encodeId 1700000000000 0 "2", JVal.str "Question 1", placeholderOptions, JVal.num 2,
        "Budgeting", JVal.str "", true⟩ : QuizItem)._id ≠
      (⟨encodeId 1700000000000 1 "2", JVal.str "Question 2", placeholderOptions, JVal.num 2,
        "Budgeting", JVal.str "", true⟩ : QuizItem)._id :=
  generated_ids_pairwise_distinct
    ⟨true,
      ModelReply.ok (some (chatReply
        "[\x7b\"correctAnswer\":2\x7d,\x7b\"correctAnswer\":2\x7d]")),
      fun _ => some [JVal.obj [("correctAnswer", JVal.num 2)],
        JVal.obj [("correctAnswer", JVal.num 2)]],
      fun _ => 1700000000000⟩
    ⟨some "Budgeting", some 2⟩
    [⟨encodeId 1700000000000 0 "2", JVal.str "Question 1", placeholderOptions, JVal.num 2,
        "Budgeting", JVal.str "", true⟩,
      ⟨encodeId 1700000000000 1 "2", JVal.str "Question 2", placeholderOptions, JVal.num 2,
        "Budgeting", JVal.str "", true⟩]
    "Budgeting" rfl 0 1 _ _ rfl rfl (by decide)

/-! ## The text of a number -/

theorem roundToDouble_of_lt (m : Nat) (h : m < 2 ^ 53) : roundToDouble m = m := by
  have hb : bitLength m ≤ 53 := by
    by_cases h0 : m = 0
    · subst h0
      decide
    · have h1 := two_pow_bitLength_le m h0
      have h2 : 2 ^ bitLength m < 2 ^ 54 := by
        calc 2 ^ bitLength m ≤ 2 * m := h1
          _ < 2 * 2 ^ 53 := by omega
          _ = 2 ^ 54 := by norm_num
      have := (Nat.pow_lt_pow_iff_right (by decide : 1 < 2)).mp h2
      omega
  unfold roundToDouble roundHalfEven
  have hs : bitLength m - 53 = 0 := by omega
  simp [hs, Nat.mod_one]

theorem le_roundHalfEven (num den : Nat) : num / den ≤ roundHalfEven num den := by
  unfold roundHalfEven
  simp only
  split
  · exact Nat.le_refl _
  · split
    · omega
    · split <;> omega

theorem roundToDouble_ge (m : Nat) (h : 2 ^ 53 ≤ m) : 2 ^ 53 ≤ roundToDouble m := by
  have h0 : m ≠ 0 := by
    intro e
    rw [e] at h
    exact absurd h (by norm_num)
  have hlt := lt_two_pow_bitLength m
  have hle := two_pow_bitLength_le m h0
  have hb : 54 ≤ bitLength m := by
    by_contra hc
    have hc1 : bitLength m ≤ 53 := by omega
    have : 2 ^ bitLength m ≤ 2 ^ 53 := Nat.pow_le_pow_right (by decide) hc1
    omega
  obtain ⟨s, hs⟩ : ∃ s, bitLength m = 53 + (s + 1) := ⟨bitLength m - 54, by omega⟩
  have hsh : bitLength m - 53 = s + 1 := by omega
  unfold roundToDouble
  simp only [hsh]
  have hq : 2 ^ 52 ≤ m / 2 ^ (s + 1) := by
    rw [Nat.le_div_iff_mul_le (Nat.pow_pos (by decide))]
    have e : 2 ^ bitLength m = 2 * (2 ^ 52 * 2 ^ (s + 1)) := by
      rw [hs, pow_add]
      ring
    rw [e] at hle
    omega
  have hr := le_roundHalfEven m (2 ^ (s + 1))
  have h2 : 2 ≤ 2 ^ (s + 1) := by
    calc 2 = 2 ^ 1 := by norm_num
      _ ≤ 2 ^ (s + 1) := Nat.pow_le_pow_right (by decide) (by omega)
  calc 2 ^ 53 = 2 ^ 52 * 2 := by norm_num
    _ ≤ roundHalfEven m (2 ^ (s + 1)) * 2 ^ (s + 1) :=
      Nat.mul_le_mul (Nat.le_trans hq hr) h2

theorem shortestDecimal_of_lt (x : Nat) (h : x < 2 ^ 53) : shortestDecimal x = x := by
  unfold shortestDecimal
  cases hf : (shortestCandidates x).find? (fun v => roundToDouble v == x) with
  | none => rfl
  | some v =>
    have hv := List.find?_some hf
    simp only [beq_iff_eq] at hv
    simp only [Option.getD_some]
    by_cases hlt : v < 2 ^ 53
    · rw [roundToDouble_of_lt v hlt] at hv
      exact hv
    · have := roundToDouble_ge v (by omega)
      omega

/-- The text of a non-negative integer below 2^53 is its plain decimal text. -/
theorem numberToString_of_lt (n : Nat) (h : n < 2 ^ 53) :
    numberToString (n : Int) = toString n := by
  have hb : bitLength n ≤ 1024 := by
    by_cases h0 : n = 0
    · subst h0
      decide
    · have h1 := two_pow_bitLength_le n h0
      have h2 : 2 ^ bitLength n < 2 ^ 54 := by
        calc 2 ^ bitLength n ≤ 2 * n := h1
          _ < 2 * 2 ^ 53 := by omega
          _ = 2 ^ 54 := by norm_num
      have := (Nat.pow_lt_pow_iff_right (by decide : 1 < 2)).mp h2
      omega
  have hneg : ¬ ((n : Int) < 0) := by omega
  have h21 : n < 10 ^ 21 := by
    have : (2 : Nat) ^ 53 < 10 ^ 21 := by norm_num
    omega
  unfold numberToString naturalToString
  simp only [Int.natAbs_ofNat, roundToDouble_of_lt n h, hb, if_true, hneg, if_false,
    shortestDecimal_of_lt n h, h21]

/-! ## Self-describing identifiers -/

/-- C25, as the code has it: every item returned by the quiz-generation handler (from
a parsed array or from the fallback) carries the generated marker in its `_id`, and
whenever its `answer` field is a non-negative integer below 2^53, decoding the
`_id` as the scoring engine does yields exactly that `answer`, so that submitting
the item's `answer` is scored correct.  (The `answer` is such an integer when the
parsed `correctAnswer` is falsy or is itself one.) -/
theorem generated_item_self_describing (env : GenEnv) (req : GenerateRequest)
    (items : List QuizItem) (category : String)
    (h : generateQuestions env req = GenerateResponse.ok items category)
    (item : QuizItem) (hm : item ∈ items) :
    startsWith item._id generatedTag = true ∧
      ∀ n : Nat, n < 2 ^ 53 → item.answer = JVal.num (n : Int) →
        JVal.num (decodeAnswer item._id) = item.answer ∧
        ∀ (fetchQuestion : String → Fetched) (st : ScoreState),
          scoreStep fetchQuestion st (item._id, item.answer) =
            some
              { score := st.score + 1
                results := st.results ++ [⟨item._id, item.answer, item.answer, true⟩] } := by
  obtain ⟨qs, _, hp⟩ := generateQuestions_ok_inv env req items category h
  obtain ⟨i, hi⟩ := List.mem_iff_getElem?.mp hm
  obtain ⟨q, _, hq⟩ := hp i item hi
  obtain ⟨_, _, _, txt, htxt, hid⟩ := formatQuestion_some_inv category _ i q item hq
  have hs : startsWith item._id generatedTag = true := by
    rw [hid]
    exact startsWith_encodeId _ _ _
  refine ⟨hs, ?_⟩
  intro n hlt hn
  have ht : txt = toString n := by
    rw [hn] at htxt
    simp only [JVal.toStr] at htxt
    injection htxt with htxt
    rw [← htxt]
    exact numberToString_of_lt n hlt
  have hd : decodeAnswer item._id = (n : Int) := by
    rw [hid, ht, decodeAnswer_encodeId _ _ _ (dash_not_mem_toString_nat n),
      parseInt_toString_nat]
    rfl
  refine ⟨by rw [hd, hn], ?_⟩
  intro fetchQuestion st
  unfold scoreStep
  simp only [hs, if_true, hd, hn, JVal.strictEq, beq_self_eq_true]

theorem generated_item_self_describing_witness :
    startsWith (encodeId 1700000000000 0 "3") generatedTag = true ∧
      ∀ n : Nat, n < 2 ^ 53 → JVal.num 3 = JVal.num (n : Int) →
        JVal.num (decodeAnswer (encodeId 1700000000000 0 "3")) = JVal.num 3 ∧
        ∀ (fetchQuestion : String → Fetched) (st : ScoreState),
          scoreStep fetchQuestion st (encodeId 1700000000000 0 "3", JVal.num 3) =
            some
              { score := st.score + 1
                results := st.results ++
                  [⟨encodeId 1700000000000 0 "3", JVal.num 3, JVal.num 3, true⟩] } :=
  generated_item_self_describing
    ⟨true, ModelReply.ok (some (chatReply "[\x7b\"correctAnswer\":3\x7d]")),
      fun _ => some [JVal.obj [("correctAnswer", JVal.num 3)]],
      fun _ => 1700000000000⟩
    ⟨some "Interest Rates", some 1⟩
    [⟨encodeId 1700000000000 0 "3", JVal.str "Question 1", placeholderOptions, JVal.num 3,
      "Interest Rates", JVal.str "", true⟩]
    "Interest Rates" rfl
    ⟨encodeId 1700000000000 0 "3", JVal.str "Question 1", placeholderOptions, JVal.num 3,
      "Interest Rates", JVal.str "", true⟩
    (List.mem_singleton.mpr rfl)

/-- C25 fails as stated: when the model text is an array whose one record has
`correctAnswer` -1, the handler returns one item with `answer` -1 and an `_id` that
ends in `--1`; the scoring engine splits it on `-`, reads the last piece `1`, and
scores the submitted `answer` -1 as incorrect.  Likewise a record with
`correctAnswer` 1e21 gives an `_id` that ends in `1e+21`, which decodes to 1. -/
theorem generated_item_not_self_describing :
    (∃ item,
      generateQuestions
          ⟨true, ModelReply.ok (some (chatReply "[\x7b\"correctAnswer\":-1\x7d]")),
            fun s => if s = "[\x7b\"correctAnswer\":-1\x7d]"
              then some [JVal.obj [("correctAnswer", JVal.num (-1))]] else none,
            fun _ => 1700000000000⟩
          ⟨some "Budgeting", some 1⟩ = GenerateResponse.ok [item] "Budgeting" ∧
      item._id = "ai-generated-1700000000000-0--1" ∧
      item.answer = JVal.num (-1) ∧
      decodeAnswer item._id = 1 ∧
      scoreStep (fun _ => Fetched.notOk) ⟨0, []⟩ (item._id, item.answer) =
        some ⟨0, [⟨item._id, JVal.num (-1), JVal.num 1, false⟩]⟩) ∧
    (∃ item,
      generateQuestions
          ⟨true, ModelReply.ok (some (chatReply "[\x7b\"correctAnswer\":1e21\x7d]")),
            fun s => if s = "[\x7b\"correctAnswer\":1e21\x7d]"
              then some [JVal.obj [("correctAnswer", JVal.num (10 ^ 21))]] else none,
            fun _ => 1700000000000⟩
          ⟨some "Budgeting", some 1⟩ = GenerateResponse.ok [item] "Budgeting" ∧
      item._id = "ai-generated-1700000000000-0-1e+21" ∧
      item.answer = JVal.num (10 ^ 21) ∧
      decodeAnswer item._id = 1 ∧
      scoreStep (fun _ => Fetched.notOk) ⟨0, []⟩ (item._id, item.answer) =
        some ⟨0, [⟨item._id, JVal.num (10 ^ 21), JVal.num 1, false⟩]⟩) := by
  refine ⟨⟨⟨"ai-generated-1700000000000-0--1", JVal.str "Question 1", placeholderOptions,
    JVal.num (-1), "Budgeting", JVal.str "", true⟩, ?_, rfl, rfl, ?_, ?_⟩,
    ⟨⟨"ai-generated-1700000000000-0-1e+21", JVal.str "Question 1", placeholderOptions,
    JVal.num (10 ^ 21), "Budgeting", JVal.str "", true⟩, ?_, rfl, rfl, ?_, ?_⟩⟩
  · rfl
  · decide
  · rfl
  · rfl
  · decide
  · rfl

/-! ## The items of the fallback path -/

theorem fallbackBank_well_formed (category : String) :
    ∀ q ∈ fallbackBank category,
      ((q.optMember "options").or placeholderOptions).arrayLength = some 4 ∧
        isOptionIndex ((q.optMember "correctAnswer").or (JVal.num 0)) = true := by
  have h : ∀ b ∈ [upiSafetyBank, budgetingBank, onlineSafetyBank,
      interestRatesBank, digitalBankingBank, investmentBasicsBank],
      b.all (fun q =>
        decide (((q.optMember "options").or placeholderOptions).arrayLength = some 4) &&
          isOptionIndex ((q.optMember "correctAnswer").or (JVal.num 0))) = true := by
    decide
  intro q hq
  have := List.all_eq_true.mp (h _ (fallbackBank_mem category)) q hq
  simpa using this

theorem isOptionIndex_inv (v : JVal) (h : isOptionIndex v = true) :
    ∃ k : Nat, k ≤ 3 ∧ v = JVal.num (k : Int) := by
  cases v with
  | num n =>
    simp only [isOptionIndex, Bool.and_eq_true, decide_eq_true_eq] at h
    refine ⟨n.toNat, by omega, ?_⟩
    rw [Int.toNat_of_nonneg h.1]
  | _ => simp [isOptionIndex] at h

/-- The fallback path for a category whose name is not inherited from
`Object.prototype`: for a count `n` from 1 to 5 the handler returns exactly `n`
items, each with exactly 4 options and a correct index in {0,1,2,3} whose text is
the trailing component of the `_id`. -/
theorem fallback_items_well_formed (env : GenEnv) (req : GenerateRequest)
    (category : String) (data ai : JVal) (n : Nat)
    (hc : req.category = some category) (hne : category ≠ "")
    (hkey : category ∉ objectPrototypeKeys)
    (hn : req.count = some (n : Int)) (h1 : 1 ≤ n) (h5 : n ≤ 5)
    (ht : env.tokenOk = true) (hr : env.reply = ModelReply.ok (some data))
    (ha : aiResponse data = some ai)
    (hp : parseQuestions env.jsonParse ai = none) :
    ∃ items, generateQuestions env req = GenerateResponse.ok items category ∧
      items.length = n ∧
      ∀ item ∈ items, item.options.arrayLength = some 4 ∧
        ∃ k : Nat, k ≤ 3 ∧ item.answer = JVal.num (k : Int) ∧
          trailingPiece item._id = (toString k).data := by
  have hcount : req.count.getD 5 = (n : Int) := by rw [hn]; rfl
  obtain ⟨items, hg, hf, hl⟩ := generateQuestions_fallback env req category data ai hc hne
    hkey (by rw [hcount]; omega) ht hr ha hp
  refine ⟨items, hg, ?_, ?_⟩
  · rw [hl, hcount]
    simp only [Int.toNat_ofNat]
    omega
  · intro item hm
    obtain ⟨i, hi⟩ := List.mem_iff_getElem?.mp hm
    obtain ⟨_, hinv⟩ := formatQuestions_some_inv category env.now _ 0 items hf
    obtain ⟨q, hq, hfq⟩ := hinv i item hi
    have hqm : q ∈ fallbackBank category :=
      List.mem_of_mem_take (List.mem_iff_getElem?.mpr ⟨_, hq⟩)
    obtain ⟨_, ⟨_, hopt, hans, _⟩, _, txt, htxt, hid⟩ :=
      formatQuestion_some_inv category _ _ q item hfq
    obtain ⟨w1, w2⟩ := fallbackBank_well_formed category q hqm
    rw [← hopt] at w1
    rw [← hans] at w2
    obtain ⟨k, hk, hk2⟩ := isOptionIndex_inv _ w2
    refine ⟨w1, k, hk, hk2, ?_⟩
    have e : txt = toString k := by
      rw [hk2] at htxt
      simp only [JVal.toStr] at htxt
      injection htxt with htxt
      rw [← htxt]
      exact numberToString_of_lt k (Nat.lt_of_le_of_lt hk (by norm_num))
    unfold trailingPiece
    rw [hid, e, encodeId_data]
    exact splitOn_getLastD_append_sep _ _ _ (dash_not_mem_toString_nat k)

/-- C28 fails on the code: each of the six fallback banks holds exactly 5 items, but
when the fallback is used for the category `toString`, a name every object literal
inherits, with count 2, the lookup reads the inherited member, the call of `slice`
throws, and the handler answers with the 500 error and no item instead of 2
well-formed items. -/
theorem fallback_inherited_category_yields_no_items :
    (∀ b ∈ [upiSafetyBank, budgetingBank, onlineSafetyBank, interestRatesBank,
        digitalBankingBank, investmentBasicsBank], b.length = 5) ∧
    generateFallbackQuestions "toString" 2 = none ∧
    ¬ ∃ env : GenEnv,
      env.tokenOk = true ∧
      env.reply = ModelReply.ok (some (chatReply "No quiz is available right now.")) ∧
      generateQuestions env ⟨some "toString", some 2⟩ ≠ GenerateResponse.serverError := by
  refine ⟨by decide, rfl, ?_⟩
  rintro ⟨env, ht, hr, hne⟩
  apply hne
  rw [generateQuestions_of_reply env ⟨some "toString", some 2⟩ "toString"
    (chatReply "No quiz is available right now.")
    (JVal.str "No quiz is available right now.") rfl (by decide) ht hr rfl]
  have hp : parseQuestions env.jsonParse (JVal.str "No quiz is available right now.") =
      none := by
    have hs : matchBracketSpan (cleanResponse "No quiz is available right now.".data) =
        none := by decide
    simp only [parseQuestions, hs]
  unfold extractQuestions
  rw [hp]
  rfl

/-! ## What the response shows of the correct index -/

/-- C23, as the code has it: every response item carries the correct index in clear in
its `answer` field, next to the `_id` that encodes it.  For two model outputs that
differ only in the `correctAnswer` of the record at one position, the two responses
(at the same timestamps) have the same items at every other position, and the two
items at that position agree on question, options, explanation, category and
marker while each one's `answer` is its own record's `correctAnswer || 0` and each
one's `_id` ends in the text of that `answer`. -/
theorem generate_responses_differ_in_id_and_answer (env1 env2 : GenEnv)
    (req : GenerateRequest) (category : String) (data1 data2 ai1 ai2 : JVal)
    (a b : List JVal) (q1 q2 : JVal)
    (hc : req.category = some category) (hne : category ≠ "")
    (ht1 : env1.tokenOk = true) (hr1 : env1.reply = ModelReply.ok (some data1))
    (ha1 : aiResponse data1 = some ai1)
    (hp1 : parseQuestions env1.jsonParse ai1 = some (a ++ q1 :: b))
    (ht2 : env2.tokenOk = true) (hr2 : env2.reply = ModelReply.ok (some data2))
    (ha2 : aiResponse data2 = some ai2)
    (hp2 : parseQuestions env2.jsonParse ai2 = some (a ++ q2 :: b))
    (hnow : env1.now = env2.now)
    (hf1 : ∀ q ∈ a ++ q1 :: b, formattable q = true)
    (hf2 : ∀ q ∈ a ++ q2 :: b, formattable q = true)
    (hq : q1.optMember "question" = q2.optMember "question")
    (ho : q1.optMember "options" = q2.optMember "options")
    (he : q1.optMember "explanation" = q2.optMember "explanation") :
    ∃ items1 items2,
      generateQuestions env1 req = GenerateResponse.ok items1 category ∧
      generateQuestions env2 req = GenerateResponse.ok items2 category ∧
      items1.length = items2.length ∧
      (∀ i : Nat, i ≠ a.length → items1[i]? = items2[i]?) ∧
      ∃ item1 item2 text1 text2,
        items1[a.length]? = some item1 ∧ items2[a.length]? = some item2 ∧
        item1.question = item2.question ∧ item1.options = item2.options ∧
        item1.explanation = item2.explanation ∧ item1.category = item2.category ∧
        item1.aiGenerated = item2.aiGenerated ∧
        item1.answer = (q1.optMember "correctAnswer").or (JVal.num 0) ∧
        item2.answer = (q2.optMember "correctAnswer").or (JVal.num 0) ∧
        item1.answer.toStr = some text1 ∧ item2.answer.toStr = some text2 ∧
        item1._id = encodeId (env1.now a.length) a.length text1 ∧
        item2._id = encodeId (env1.now a.length) a.length text2 := by
  obtain ⟨items1, g1, l1, p1⟩ :=
    generateQuestions_parsed env1 req category data1 ai1 _ hc hne ht1 hr1 ha1 hp1 hf1
  obtain ⟨items2, g2, l2, p2⟩ :=
    generateQuestions_parsed env2 req category data2 ai2 _ hc hne ht2 hr2 ha2 hp2 hf2
  refine ⟨items1, items2, g1, g2, ?_, ?_, ?_⟩
  · rw [l1, l2]
    simp
  · intro i hi
    have hsame : (a ++ q1 :: b)[i]? = (a ++ q2 :: b)[i]? := by
      rcases Nat.lt_or_ge i a.length with h | h
      · rw [List.getElem?_append_left h, List.getElem?_append_left h]
      · rw [List.getElem?_append_right h, List.getElem?_append_right h]
        obtain ⟨k, hk⟩ : ∃ k, i - a.length = k + 1 := ⟨i - a.length - 1, by omega⟩
        rw [hk, List.getElem?_cons_succ, List.getElem?_cons_succ]
    cases hx : (a ++ q1 :: b)[i]? with
    | none =>
      have n1 : items1.length ≤ i := by
        rw [l1]
        exact List.getElem?_eq_none_iff.mp hx
      have n2 : items2.length ≤ i := by
        rw [l2]
        exact List.getElem?_eq_none_iff.mp (hsame ▸ hx)
      rw [List.getElem?_eq_none_iff.mpr n1, List.getElem?_eq_none_iff.mpr n2]
    | some x =>
      obtain ⟨y1, e1, f1⟩ := p1 i x hx
      obtain ⟨y2, e2, f2⟩ := p2 i x (hsame ▸ hx)
      rw [hnow, f2] at f1
      injection f1 with f1
      rw [e1, e2, f1]
  · have x1 : (a ++ q1 :: b)[a.length]? = some q1 := by
      rw [List.getElem?_append_right (Nat.le_refl _), Nat.sub_self]
      exact List.getElem?_cons_zero
    have x2 : (a ++ q2 :: b)[a.length]? = some q2 := by
      rw [List.getElem?_append_right (Nat.le_refl _), Nat.sub_self]
      exact List.getElem?_cons_zero
    obtain ⟨y1, e1, f1⟩ := p1 a.length q1 x1
    obtain ⟨y2, e2, f2⟩ := p2 a.length q2 x2
    obtain ⟨t1, s1, r1⟩ := formatQuestion_of_formattable category (env1.now a.length)
      a.length q1 (hf1 q1 (by simp))
    obtain ⟨t2, s2, r2⟩ := formatQuestion_of_formattable category (env2.now a.length)
      a.length q2 (hf2 q2 (by simp))
    rw [r1] at f1
    rw [r2] at f2
    injection f1 with f1
    injection f2 with f2
    subst f1 f2
    refine ⟨_, _, t1, t2, e1, e2, ?_, ?_, ?_, rfl, rfl, rfl, rfl, s1, s2, rfl, ?_⟩
    · simp only [hq]
    · simp only [ho]
    · simp only [he]
    · simp only [hnow]

theorem generate_responses_differ_in_id_and_answer_witness :
    ∃ items1 items2,
      generateQuestions
          ⟨true, ModelReply.ok (some (chatReply "[\x7b\"correctAnswer\":1\x7d]")),
            fun _ => some [JVal.obj [("correctAnswer", JVal.num 1)]],
            fun _ => 1700000000000⟩
          ⟨some "Budgeting", some 1⟩ = GenerateResponse.ok items1 "Budgeting" ∧
      generateQuestions
          ⟨true, ModelReply.ok (some (chatReply "[\x7b\"correctAnswer\":2\x7d]")),
            fun _ => some [JVal.obj [("correctAnswer", JVal.num 2)]],
            fun _ => 1700000000000⟩
          ⟨some "Budgeting", some 1⟩ = GenerateResponse.ok items2 "Budgeting" ∧
      items1.length = items2.length ∧
      (∀ i : Nat, i ≠ ([] : List JVal).length → items1[i]? = items2[i]?) ∧
      ∃ item1 item2 text1 text2,
        items1[([] : List JVal).length]? = some item1 ∧
        items2[([] : List JVal).length]? = some item2 ∧
        item1.question = item2.question ∧ item1.options = item2.options ∧
        item1.explanation = item2.explanation ∧ item1.category = item2.category ∧
        item1.aiGenerated = item2.aiGenerated ∧
        item1.answer =
          ((JVal.obj [("correctAnswer", JVal.num 1)]).optMember "correctAnswer").or
            (JVal.num 0) ∧
        item2.answer =
          ((JVal.obj [("correctAnswer", JVal.num 2)]).optMember "correctAnswer").or
            (JVal.num 0) ∧
        item1.answer.toStr = some text1 ∧ item2.answer.toStr = some text2 ∧
        item1._id = encodeId 1700000000000 ([] : List JVal).length text1 ∧
        item2._id = encodeId 1700000000000 ([] : List JVal).length text2 :=
  generate_responses_differ_in_id_and_answer
    ⟨true, ModelReply.ok (some (chatReply "[\x7b\"correctAnswer\":1\x7d]")),
      fun _ => some [JVal.obj [("correctAnswer", JVal.num 1)]],
      fun _ => 1700000000000⟩
    ⟨true, ModelReply.ok (some (chatReply "[\x7b\"correctAnswer\":2\x7d]")),
      fun _ => some [JVal.obj [("correctAnswer", JVal.num 2)]],
      fun _ => 1700000000000⟩
    ⟨some "Budgeting", some 1⟩ "Budgeting"
    (chatReply "[\x7b\"correctAnswer\":1\x7d]") (chatReply "[\x7b\"correctAnswer\":2\x7d]")
    (JVal.str "[\x7b\"correctAnswer\":1\x7d]") (JVal.str "[\x7b\"correctAnswer\":2\x7d]")
    [] [] (JVal.obj [("correctAnswer", JVal.num 1)]) (JVal.obj [("correctAnswer", JVal.num 2)])
    rfl (by decide) rfl rfl rfl rfl rfl rfl rfl rfl rfl (by decide) (by decide) rfl rfl rfl

/-- C23 fails as stated: two model outputs that differ only in the `correctAnswer` of
their one record (1 in the first, 2 in the second) give, at the same timestamp, two
responses whose items differ in the `answer` field as well as in the `_id`: the
response shows the correct index in clear. -/
theorem response_exposes_answer_field :
    ∃ item1 item2,
      generateQuestions
          ⟨true,
            ModelReply.ok (some (chatReply
              "[\x7b\"question\":\"What is a budget?\",\"correctAnswer\":1\x7d]")),
            fun s =>
              if s = "[\x7b\"question\":\"What is a budget?\",\"correctAnswer\":1\x7d]"
              then some [JVal.obj [("question", JVal.str "What is a budget?"),
                ("correctAnswer", JVal.num 1)]]
              else none,
            fun _ => 1700000000000⟩
          ⟨some "Budgeting", some 1⟩ = GenerateResponse.ok [item1] "Budgeting" ∧
      generateQuestions
          ⟨true,
            ModelReply.ok (some (chatReply
              "[\x7b\"question\":\"What is a budget?\",\"correctAnswer\":2\x7d]")),
            fun s =>
              if s = "[\x7b\"question\":\"What is a budget?\",\"correctAnswer\":2\x7d]"
              then some [JVal.obj [("question", JVal.str "What is a budget?"),
                ("correctAnswer", JVal.num 2)]]
              else none,
            fun _ => 1700000000000⟩
          ⟨some "Budgeting", some 1⟩ = GenerateResponse.ok [item2] "Budgeting" ∧
      item1.question = item2.question ∧ item1.options = item2.options ∧
      item1.explanation = item2.explanation ∧
      item1._id = "ai-generated-1700000000000-0-1" ∧
      item2._id = "ai-generated-1700000000000-0-2" ∧
      item1.answer = JVal.num 1 ∧ item2.answer = JVal.num 2 ∧
      item1.answer ≠ item2.answer := by
  refine ⟨⟨"ai-generated-1700000000000-0-1", JVal.str "What is a budget?",
      placeholderOptions, JVal.num 1, "Budgeting", JVal.str "", true⟩,
    ⟨"ai-generated-1700000000000-0-2", JVal.str "What is a budget?",
      placeholderOptions, JVal.num 2, "Budgeting", JVal.str "", true⟩,
    rfl, rfl, rfl, rfl, rfl, rfl, rfl, rfl, rfl, ?_⟩
  intro h
  injection h with h
  exact absurd h (by decide)

end FinLit
